import Mathlib

/-!
# go-todo-postgres: the cache policy of the service layer

A shallow embedding of `internal/service/todo.go`, `internal/service/user.go`
and `pkg/cache/cache.go`.

Conventions of the embedding
* a Go `string` and a Go `[]byte` are both a Lean `String` (the conversions
  `[]byte(s)` and `string(b)` are the identity);
* a Go slice is `Option (List α)`: `none` is the `nil` slice, `some []` the
  empty non-nil slice;
* a Go `error` is `Option GoError`, `none` being `nil`;
* `int64` is `Int` (the services only compare ids with `0`);
* the collaborators behind interfaces (repositories, cache, token issuer) and
  the library calls with effects (`bcrypt`) are ports: state transformers on
  an arbitrary state type `σ`, so that a theorem quantified over the ports
  speaks about every behaviour of the collaborators;
* every port call is appended to a trace, so that "is called exactly once",
  "is not called" and "is called after" are statements about a list;
* `context.Context` values are passed through unchanged by the services and
  are left out.
-/

namespace GoTodo

/-! ## Go values -/

/-- Go `error` values: `errors.New` at a call site, a package-level sentinel
variable (compared by identity in Go, hence tagged with its qualified name),
and `fmt.Errorf` with a `%w` verb, which carries its formatted message and
the error it wraps. -/
inductive GoError where
  | new (msg : String)
  | sentinel (name : String) (msg : String)
  | wrapped (msg : String) (inner : GoError)
  deriving DecidableEq, Repr

/-- The method `Error()` of a Go error: its message. -/
def GoError.Error : GoError → String
  | .new msg => msg
  | .sentinel _ msg => msg
  | .wrapped msg _ => msg

/-- The call `fmt.Errorf(pre ++ "%w", err)`. -/
def Errorf_w (pre : String) (err : GoError) : GoError :=
  .wrapped (pre ++ err.Error) err

/-- The function `errors.Unwrap`. -/
def GoError.Unwrap : GoError → Option GoError
  | .wrapped _ inner => some inner
  | _ => none

/-- The function `errors.Is(err, target)`: `target` is reachable from `err` by unwrapping. -/
def GoError.Is : GoError → GoError → Bool
  | .wrapped msg inner, target => (GoError.wrapped msg inner == target) || inner.Is target
  | e, target => e == target

/-- A Go slice: `none` is `nil`. -/
abbrev Slice (α : Type) := Option (List α)

deriving instance DecidableEq for Except

/-- A `time.Time`, as seconds and nanoseconds since January 1, year 1, 00:00:00 UTC. -/
structure Time where
  sec : Int
  nsec : Nat
  deriving DecidableEq, Repr

/-- The method `Time.IsZero`. -/
def Time.IsZero (t : Time) : Bool := t.sec == 0 && t.nsec == 0

/-- The constant `time.Second`, in nanoseconds (the unit of `time.Duration`). -/
def Second : Nat := 1000000000

/-- The constant `time.Minute`. -/
def Minute : Nat := 60 * Second

/-! ## internal/entity -/

/-- The struct `entity.Todo`. -/
structure Todo where
  ID : Int
  Title : String
  Content : String
  DueDate : Time
  Completed : Bool
  UserID : Int
  deriving DecidableEq, Repr

/-- The struct `entity.User`. -/
structure User where
  ID : Int
  Username : String
  Password : String
  Role : String
  FullName : String
  deriving DecidableEq, Repr

/-- Modelled from the spec: the struct `token.JwtCustomClaims`, whose
declaration in `pkg/token` is not among the sources. The token embeds the
username, the role, the full name, the issuer, the issued-at and the expiry;
these are the fields that `userService.Login` fills in. -/
structure JwtCustomClaims where
  Username : String
  Role : String
  FullName : String
  Issuer : String
  ExpiresAt : Time
  IssuedAt : Time
  deriving DecidableEq, Repr

/-! ## Ports and the call trace -/

/-- One call on a port, with its arguments. -/
inductive Call where
  | cacheGet (key : String)
  | cacheSet (key : String) (value : String) (duration : Nat)
  | cacheDelete (key : String)
  | todoFindAll
  | todoFindByID (id : Int)
  | todoCreate (todo : Todo)
  | todoUpdate (todo : Todo)
  | todoDelete (id : Int)
  | userFindAll
  | userFindByID (id : Int)
  | userFindByUsername (username : String)
  | userCreate (user : User)
  | userUpdate (user : Option User)
  | userDelete (id : Int)
  | bcryptGenerate (password : String)
  | bcryptCompare (hash : String) (password : String)
  | tokenGenerate (claims : JwtCustomClaims)
  | timeNow
  deriving DecidableEq, Repr

/-- Whether a call is a call on the cache port. -/
def Call.isCache : Call → Bool
  | .cacheGet _ => true
  | .cacheSet _ _ _ => true
  | .cacheDelete _ => true
  | _ => false

/-- Whether a call is a call on a persistence port. -/
def Call.isRepo : Call → Bool
  | .todoFindAll => true
  | .todoFindByID _ => true
  | .todoCreate _ => true
  | .todoUpdate _ => true
  | .todoDelete _ => true
  | .userFindAll => true
  | .userFindByID _ => true
  | .userFindByUsername _ => true
  | .userCreate _ => true
  | .userUpdate _ => true
  | .userDelete _ => true
  | _ => false

/-- The interface `cache.Cacheable`. The `value interface{}` of `Set` is the
`[]byte` that both services pass. -/
structure Cacheable (σ : Type) where
  Set : String → String → Nat → σ → Option GoError × σ
  Get : String → σ → (String × Option GoError) × σ
  Delete : String → σ → Option GoError × σ

/-- The interface `repository.TodoRepository`. -/
structure TodoRepository (σ : Type) where
  FindAll : σ → (Slice Todo × Option GoError) × σ
  FindByID : Int → σ → (Option Todo × Option GoError) × σ
  Create : Todo → σ → (Todo × Option GoError) × σ
  Update : Todo → σ → (Todo × Option GoError) × σ
  Delete : Int → σ → Option GoError × σ

/-- The interface `repository.UserRepository`. -/
structure UserRepository (σ : Type) where
  FindAll : σ → (Slice User × Option GoError) × σ
  FindByID : Int → σ → (Option User × Option GoError) × σ
  FindByUsername : String → σ → (Option User × Option GoError) × σ
  Create : User → σ → (Option User × Option GoError) × σ
  Update : Option User → σ → (Option User × Option GoError) × σ
  Delete : Int → σ → Option GoError × σ

/-- Modelled from the spec: the interface `token.TokenUseCase`, whose
declaration in `pkg/token` is not among the sources: the token issuer is
`GenerateAccessToken(claims) -> (string, err)`. -/
structure TokenUseCase (σ : Type) where
  GenerateAccessToken : JwtCustomClaims → σ → (String × Option GoError) × σ

/-- The package `golang.org/x/crypto/bcrypt`, salted from the state. -/
structure Bcrypt (σ : Type) where
  GenerateFromPassword : String → σ → (String × Option GoError) × σ
  CompareHashAndPassword : String → String → σ → Option GoError × σ

/-- The functions of `encoding/json` at the types the services use them:
`json.Marshal` of a `[]entity.Todo` and of a `[]entity.User`, and
`json.Unmarshal` into a fresh variable of these types. -/
structure Json where
  marshalTodos : Slice Todo → Except GoError String
  unmarshalTodos : String → Except GoError (Slice Todo)
  marshalUsers : Slice User → Except GoError String
  unmarshalUsers : String → Except GoError (Slice User)

/-- An entry of the trace: a call, and whether it returned an error. -/
structure Event where
  call : Call
  failed : Bool
  deriving DecidableEq, Repr

/-- The state of the collaborators together with the calls made so far. -/
structure World (σ : Type) where
  st : σ
  trace : List Event

/-- What a port hands back, as far as the trace records it: the error. -/
class HasErr (α : Type) where
  err : α → Option GoError

instance : HasErr (Option GoError) := ⟨id⟩

instance {β : Type} : HasErr (β × Option GoError) := ⟨Prod.snd⟩

/-- Run a port operation on the world and record the call. -/
def World.call {σ α : Type} [HasErr α] (c : Call) (op : σ → α × σ) (w : World σ) :
    α × World σ :=
  ((op w.st).1, ⟨(op w.st).2, w.trace ++ [⟨c, (HasErr.err (op w.st).1).isSome⟩]⟩)

/-! ## internal/service/todo.go -/

/-- The struct `todoService`. -/
structure todoService (σ : Type) where
  todoRepository : TodoRepository σ
  cacheable : Cacheable σ

/-- The method `todoService.FindAll`. -/
def todoService.FindAll {σ : Type} (J : Json) (s : todoService σ) (w : World σ) :
    (Slice Todo × Option GoError) × World σ :=
  let keyFindAll := "go-todo-api:todos:find-all"
  match w.call (.cacheGet keyFindAll) (s.cacheable.Get keyFindAll) with
  | ((_, some err), w1) => ((none, some err), w1)
  | ((data, none), w1) =>
    match (if data ≠ "" then (J.unmarshalTodos data).toOption else none) with
    | some result => ((result, none), w1)
    | none =>
      match w1.call .todoFindAll s.todoRepository.FindAll with
      | ((_, some err), w2) => ((none, some err), w2)
      | ((result, none), w2) =>
        match result with
        | none => ((result, none), w2)
        | some _ =>
          match J.marshalTodos result with
          | .error _ => ((result, none), w2)
          | .ok dataMarshalled =>
            let w3 := (w2.call (.cacheSet keyFindAll dataMarshalled (5 * Minute))
              (s.cacheable.Set keyFindAll dataMarshalled (5 * Minute))).2
            ((result, none), w3)

/-- What a Go call does: it returns, or it panics (here only by dereferencing
a `nil` pointer that a port handed back together with a `nil` error). -/
inductive Outcome (α : Type) where
  | ret (a : α)
  | panic
  deriving DecidableEq, Repr

/-- The zero value `entity.Todo{}`. -/
def Todo.zero : Todo := ⟨0, "", "", ⟨0, 0⟩, false, 0⟩

/-- The method `todoService.Create`. -/
def todoService.Create {σ : Type} (s : todoService σ) (todo : Todo) (w : World σ) :
    (Todo × Option GoError) × World σ :=
  match w.call (.todoCreate todo) (s.todoRepository.Create todo) with
  | ((_, some _), w1) => ((Todo.zero, some (.new "gagal menambahkan todo")), w1)
  | ((createdTodo, none), w1) =>
    let w2 := (w1.call (.cacheDelete "go-todo-api:todos:find-all")
      (s.cacheable.Delete "go-todo-api:todos:find-all")).2
    ((createdTodo, none), w2)

/-- The field assignments of `todoService.Update` on the record that
`FindByID` returned. -/
def todoService.mergeTodo (existingTodo todo : Todo) : Todo :=
  let existingTodo :=
    if todo.Title ≠ "" then { existingTodo with Title := todo.Title } else existingTodo
  let existingTodo :=
    if todo.Content ≠ "" then { existingTodo with Content := todo.Content } else existingTodo
  let existingTodo :=
    if !todo.DueDate.IsZero then { existingTodo with DueDate := todo.DueDate } else existingTodo
  { existingTodo with Completed := todo.Completed }

/-- The method `todoService.Update`. A `nil` record with a `nil` error from
`FindByID` is dereferenced by the assignment of `Completed`. -/
def todoService.Update {σ : Type} (s : todoService σ) (id : Int) (todo : Todo) (w : World σ) :
    Outcome (Todo × Option GoError) × World σ :=
  match w.call (.todoFindByID id) (s.todoRepository.FindByID id) with
  | ((_, some _), w1) => (.ret (Todo.zero, some (.new "todo tidak ditemukan")), w1)
  | ((none, none), w1) => (.panic, w1)
  | ((some existingTodo, none), w1) =>
    let existingTodo := todoService.mergeTodo existingTodo todo
    match w1.call (.todoUpdate existingTodo) (s.todoRepository.Update existingTodo) with
    | ((_, some _), w2) => (.ret (Todo.zero, some (.new "gagal memperbarui todo")), w2)
    | ((updatedTodo, none), w2) =>
      let w3 := (w2.call (.cacheDelete "go-todo-api:todos:find-all")
        (s.cacheable.Delete "go-todo-api:todos:find-all")).2
      (.ret (updatedTodo, none), w3)

/-- The method `todoService.Delete`. -/
def todoService.Delete {σ : Type} (s : todoService σ) (id : Int) (w : World σ) :
    Option GoError × World σ :=
  match w.call (.todoFindByID id) (s.todoRepository.FindByID id) with
  | ((_, some _), w1) => (some (.new "todo tidak ditemukan"), w1)
  | ((_, none), w1) =>
    match w1.call (.todoDelete id) (s.todoRepository.Delete id) with
    | (some _, w2) => (some (.new "gagal menghapus todo"), w2)
    | (none, w2) =>
      let w3 := (w2.call (.cacheDelete "go-todo-api:todos:find-all")
        (s.cacheable.Delete "go-todo-api:todos:find-all")).2
      (none, w3)

/-! ## internal/service/user.go -/

/-- The variable `service.ErrKredensialTidakValid`. -/
def ErrKredensialTidakValid : GoError :=
  .sentinel "service.ErrKredensialTidakValid" "username atau password tidak valid"

/-- The variable `service.ErrPenggunaTidakDitemukan`. -/
def ErrPenggunaTidakDitemukan : GoError :=
  .sentinel "service.ErrPenggunaTidakDitemukan" "pengguna tidak ditemukan"

/-- The variable `service.ErrServerInternal`. -/
def ErrServerInternal : GoError :=
  .sentinel "service.ErrServerInternal" "terjadi kesalahan pada server"

/-- The variable `service.ErrUsernameSudahAda`. -/
def ErrUsernameSudahAda : GoError :=
  .sentinel "service.ErrUsernameSudahAda" "username sudah digunakan"

/-- The struct `userService`; `bcrypt` stands for the package the methods call. -/
structure userService (σ : Type) where
  userRepository : UserRepository σ
  tokenUseCase : TokenUseCase σ
  cacheable : Cacheable σ
  bcrypt : Bcrypt σ

/-- The method `userService.FindAll`. A failed `Set` is printed, which is not
part of the result. -/
def userService.FindAll {σ : Type} (J : Json) (s : userService σ) (w : World σ) :
    (Slice User × Option GoError) × World σ :=
  let cacheKey := "pengguna:semua"
  match w.call (.cacheGet cacheKey) (s.cacheable.Get cacheKey) with
  | ((cachedData, err), w1) =>
    match (if err = none ∧ cachedData ≠ "" then (J.unmarshalUsers cachedData).toOption
           else none) with
    | some users => ((users, none), w1)
    | none =>
      match w1.call .userFindAll s.userRepository.FindAll with
      | ((_, some err), w2) =>
        ((none, some (Errorf_w "gagal mengambil data pengguna: " err)), w2)
      | ((users, none), w2) =>
        match J.marshalUsers users with
        | .error _ => ((users, none), w2)
        | .ok marshalledData =>
          let w3 := (w2.call (.cacheSet cacheKey marshalledData (5 * Minute))
            (s.cacheable.Set cacheKey marshalledData (5 * Minute))).2
          ((users, none), w3)

/-- The method `userService.CreateUser`. The argument `user` is the record
behind the pointer; the third component of the result is that record after
the assignments of the method itself, that is, after the assignment of the
hashed password. What the repository writes through the pointer during
`Create` (the store fills in the key) is not in it, so it is the record of the
caller when the method returns only on the ways that do not reach `Create`. -/
def userService.CreateUser {σ : Type} (s : userService σ) (user : User) (w : World σ) :
    (Option User × Option GoError × User) × World σ :=
  match w.call (.userFindByUsername user.Username)
      (s.userRepository.FindByUsername user.Username) with
  | ((_, none), w1) => ((none, some ErrUsernameSudahAda, user), w1)
  | ((_, some _), w1) =>
    match w1.call (.bcryptGenerate user.Password)
        (s.bcrypt.GenerateFromPassword user.Password) with
    | ((_, some err), w2) =>
      ((none, some (Errorf_w "gagal mengenkripsi password: " err), user), w2)
    | ((hashedPassword, none), w2) =>
      let user := { user with Password := hashedPassword }
      match w2.call (.userCreate user) (s.userRepository.Create user) with
      | ((_, some err), w3) =>
        ((none, some (Errorf_w "gagal membuat pengguna: " err), user), w3)
      | ((createdUser, none), w3) =>
        let w4 := (w3.call (.cacheDelete "pengguna:semua")
          (s.cacheable.Delete "pengguna:semua")).2
        ((createdUser, none, user), w4)

/-- The assignments of the non-empty name fields in `userService.UpdateUser`. -/
def userService.mergeUser (existingUser user : User) : User :=
  let existingUser :=
    if user.FullName ≠ "" then { existingUser with FullName := user.FullName } else existingUser
  let existingUser :=
    if user.Role ≠ "" then { existingUser with Role := user.Role } else existingUser
  if user.Username ≠ "" then { existingUser with Username := user.Username } else existingUser

/-- The tail of `userService.UpdateUser`: the persistence update and the
cache invalidation. The pointer handed to `Update` is `existingUser`, which is
`nil` when `FindByID` returned `nil` and no field was assigned. -/
def userService.updateTail {σ : Type} (s : userService σ) (existingUser : Option User)
    (w : World σ) : Outcome (Option User × Option GoError) × World σ :=
  match w.call (.userUpdate existingUser) (s.userRepository.Update existingUser) with
  | ((_, some err), w1) => (.ret (none, some (Errorf_w "gagal memperbarui pengguna: " err)), w1)
  | ((updatedUser, none), w1) =>
    let w2 := (w1.call (.cacheDelete "pengguna:semua") (s.cacheable.Delete "pengguna:semua")).2
    (.ret (updatedUser, none), w2)

/-- The method `userService.UpdateUser`. -/
def userService.UpdateUser {σ : Type} (s : userService σ) (user : User) (w : World σ) :
    Outcome (Option User × Option GoError) × World σ :=
  if user.ID ≤ 0 then (.ret (none, some (.new "ID pengguna tidak valid")), w)
  else
    match w.call (.userFindByID user.ID) (s.userRepository.FindByID user.ID) with
    | ((_, some _), w1) => (.ret (none, some ErrPenggunaTidakDitemukan), w1)
    | ((none, none), w1) =>
      if user.FullName ≠ "" ∨ user.Role ≠ "" ∨ user.Username ≠ "" then (.panic, w1)
      else if user.Password ≠ "" then
        match w1.call (.bcryptGenerate user.Password)
            (s.bcrypt.GenerateFromPassword user.Password) with
        | ((_, some err), w2) =>
          (.ret (none, some (Errorf_w "gagal mengenkripsi password: " err)), w2)
        | ((_, none), w2) => (.panic, w2)
      else userService.updateTail s none w1
    | ((some existingUser, none), w1) =>
      let existingUser := userService.mergeUser existingUser user
      if user.Password ≠ "" then
        match w1.call (.bcryptGenerate user.Password)
            (s.bcrypt.GenerateFromPassword user.Password) with
        | ((_, some err), w2) =>
          (.ret (none, some (Errorf_w "gagal mengenkripsi password: " err)), w2)
        | ((hashedPassword, none), w2) =>
          userService.updateTail s (some { existingUser with Password := hashedPassword }) w2
      else userService.updateTail s (some existingUser) w1

/-- The method `userService.DeleteUser`. -/
def userService.DeleteUser {σ : Type} (s : userService σ) (id : Int) (w : World σ) :
    Option GoError × World σ :=
  if id ≤ 0 then (some (.new "ID pengguna tidak valid"), w)
  else
    match w.call (.userFindByID id) (s.userRepository.FindByID id) with
    | ((_, some _), w1) => (some ErrPenggunaTidakDitemukan, w1)
    | ((_, none), w1) =>
      match w1.call (.userDelete id) (s.userRepository.Delete id) with
      | (some err, w2) => (some (Errorf_w "gagal menghapus pengguna: " err), w2)
      | (none, w2) =>
        let w3 := (w2.call (.cacheDelete "pengguna:semua")
          (s.cacheable.Delete "pengguna:semua")).2
        (none, w3)

/-! ## encoding/json, as far as the services and the cache port use it

The library is not part of the repository. The services are stated over any
`Json`; the model below follows the documentation of the package for the two
entity types and for `[]byte`: a slice is `null` or an array, a struct is an
object whose members are named by the `json` tags, a `[]byte` is a string
holding its base64 text, and `Unmarshal` into a slice accepts `null` and
arrays only. The text of a `time.Time` is a parameter. The messages of the
errors are not those of the library; the services never read them.
-/

/-- A parsed JSON value. A string keeps the text between its quotes next to
its decoded content; a number keeps its literal. -/
inductive JVal where
  | null
  | bool (b : Bool)
  | num (lit : List Char)
  | str (raw : List Char) (s : List Char)
  | arr (xs : List JVal)
  | obj (members : List (List Char × JVal))
  deriving Repr

/-- Skip JSON white space. -/
def skipWs : List Char → List Char
  | [] => []
  | c :: cs => if c = ' ' ∨ c = '\t' ∨ c = '\n' ∨ c = '\r' then skipWs cs else c :: cs

/-- The value of a hexadecimal digit. -/
def hexVal (c : Char) : Option Nat :=
  if '0' ≤ c ∧ c ≤ '9' then some (c.toNat - 48)
  else if 'a' ≤ c ∧ c ≤ 'f' then some (c.toNat - 87)
  else if 'A' ≤ c ∧ c ≤ 'F' then some (c.toNat - 55)
  else none

/-- Four hexadecimal digits, as in `getu4` after the `\u`. -/
def hex4 : List Char → Option (Nat × List Char)
  | a :: b :: c :: d :: rest =>
    match hexVal a, hexVal b, hexVal c, hexVal d with
    | some x, some y, some z, some u => some (((x * 16 + y) * 16 + z) * 16 + u, rest)
    | _, _, _, _ => none
  | _ => none

/-- The escape `\uXXXX` at the head of the input. -/
def getu4 : List Char → Option (Nat × List Char)
  | '\\' :: 'u' :: rest => hex4 rest
  | _ => none

/-- A character from a code unit, the replacement character for a lone surrogate. -/
def runeOf (r : Nat) : Char :=
  if 0xD800 ≤ r ∧ r < 0xE000 then Char.ofNat 0xFFFD else Char.ofNat r

/-- The decoded content of a string literal and the input after its closing
quote; the input starts after the opening quote. -/
def parseStr : Nat → List Char → Option (List Char × List Char)
  | 0, _ => none
  | _, [] => none
  | fuel + 1, c :: cs =>
    if c = '"' then some ([], cs)
    else if c = '\\' then
      match cs with
      | [] => none
      | e :: cs1 =>
        if e = 'u' then
          match hex4 cs1 with
          | none => none
          | some (r, cs2) =>
            match getu4 cs2 with
            | some (r2, cs3) =>
              if 0xD800 ≤ r ∧ r < 0xDC00 ∧ 0xDC00 ≤ r2 ∧ r2 < 0xE000 then
                (parseStr fuel cs3).map
                  (fun p => (Char.ofNat (0x10000 + (r - 0xD800) * 0x400 + (r2 - 0xDC00)) :: p.1, p.2))
              else (parseStr fuel cs2).map (fun p => (runeOf r :: p.1, p.2))
            | none => (parseStr fuel cs2).map (fun p => (runeOf r :: p.1, p.2))
        else
          let d : Option Char :=
            if e = '"' then some '"' else if e = '\\' then some '\\'
            else if e = '/' then some '/' else if e = 'b' then some (Char.ofNat 8)
            else if e = 'f' then some (Char.ofNat 12) else if e = 'n' then some '\n'
            else if e = 'r' then some '\r' else if e = 't' then some '\t' else none
          match d with
          | none => none
          | some ch => (parseStr fuel cs1).map (fun p => (ch :: p.1, p.2))
    else if c.toNat < 0x20 then none
    else (parseStr fuel cs).map (fun p => (c :: p.1, p.2))

/-- Whether a character is a decimal digit. -/
def isDigit (c : Char) : Bool := decide ('0' ≤ c ∧ c ≤ '9')

/-- The longest prefix of digits, and the rest. -/
def takeDigits : List Char → List Char × List Char
  | [] => ([], [])
  | c :: cs => if isDigit c then (c :: (takeDigits cs).1, (takeDigits cs).2) else ([], c :: cs)

/-- The integer part of a number literal: `0`, or a non-zero digit and digits. -/
def parseIntPart : List Char → Option (List Char × List Char)
  | [] => none
  | c :: cs =>
    if c = '0' then some ([c], cs)
    else if isDigit c then some (c :: (takeDigits cs).1, (takeDigits cs).2)
    else none

/-- The optional fraction of a number literal. -/
def parseFrac : List Char → Option (List Char × List Char)
  | '.' :: cs =>
    if (takeDigits cs).1 = [] then none else some ('.' :: (takeDigits cs).1, (takeDigits cs).2)
  | cs => some ([], cs)

/-- The optional exponent of a number literal. -/
def parseExp : List Char → Option (List Char × List Char)
  | [] => some ([], [])
  | e :: cs =>
    if e = 'e' ∨ e = 'E' then
      match cs with
      | [] => none
      | s :: cs1 =>
        if s = '+' ∨ s = '-' then
          if (takeDigits cs1).1 = [] then none
          else some (e :: s :: (takeDigits cs1).1, (takeDigits cs1).2)
        else if (takeDigits cs).1 = [] then none
        else some (e :: (takeDigits cs).1, (takeDigits cs).2)
    else some ([], e :: cs)

/-- A number literal at the head of the input. -/
def parseNum (cs : List Char) : Option (List Char × List Char) :=
  let sign : List Char × List Char := match cs with
    | '-' :: r => (['-'], r)
    | _ => ([], cs)
  match parseIntPart sign.2 with
  | none => none
  | some (i, r1) =>
    match parseFrac r1 with
    | none => none
    | some (f, r2) =>
      match parseExp r2 with
      | none => none
      | some (e, r3) => some (sign.1 ++ i ++ f ++ e, r3)

mutual
/-- A JSON value at the head of the input, nested at most `depth` deep. -/
def parseValue : Nat → Nat → List Char → Option (JVal × List Char)
  | 0, _, _ => none
  | fuel + 1, depth, cs =>
    match skipWs cs with
    | 'n' :: 'u' :: 'l' :: 'l' :: rest => some (.null, rest)
    | 't' :: 'r' :: 'u' :: 'e' :: rest => some (.bool true, rest)
    | 'f' :: 'a' :: 'l' :: 's' :: 'e' :: rest => some (.bool false, rest)
    | '"' :: rest =>
      (parseStr (rest.length + 1) rest).map
        (fun p => (.str (rest.take (rest.length - p.2.length - 1)) p.1, p.2))
    | '[' :: rest =>
      if depth = 0 then none
      else match skipWs rest with
        | ']' :: r => some (.arr [], r)
        | _ => (parseElems fuel (depth - 1) rest).map (fun p => (.arr p.1, p.2))
    | '\x7b' :: rest =>
      if depth = 0 then none
      else match skipWs rest with
        | '\x7d' :: r => some (.obj [], r)
        | _ => (parseMembers fuel (depth - 1) rest).map (fun p => (.obj p.1, p.2))
    | rest => (parseNum rest).map (fun p => (.num p.1, p.2))
/-- The elements of an array up to its closing bracket. -/
def parseElems : Nat → Nat → List Char → Option (List JVal × List Char)
  | 0, _, _ => none
  | fuel + 1, depth, cs =>
    match parseValue fuel depth cs with
    | none => none
    | some (v, rest) =>
      match skipWs rest with
      | ',' :: r => (parseElems fuel depth r).map (fun p => (v :: p.1, p.2))
      | ']' :: r => some ([v], r)
      | _ => none
/-- The members of an object up to its closing brace. -/
def parseMembers : Nat → Nat → List Char → Option (List (List Char × JVal) × List Char)
  | 0, _, _ => none
  | fuel + 1, depth, cs =>
    match skipWs cs with
    | '"' :: rest =>
      match parseStr (rest.length + 1) rest with
      | none => none
      | some (k, r1) =>
        match skipWs r1 with
        | ':' :: r2 =>
          match parseValue fuel depth r2 with
          | none => none
          | some (v, r3) =>
            match skipWs r3 with
            | ',' :: r4 => (parseMembers fuel depth r4).map (fun p => ((k, v) :: p.1, p.2))
            | '\x7d' :: r4 => some ([(k, v)], r4)
            | _ => none
        | _ => none
    | _ => none
end

/-- A whole JSON text: one value and nothing but white space after it. -/
def parseJSON (data : String) : Option JVal :=
  match parseValue (2 * data.length + 2) 10000 data.data with
  | none => none
  | some (v, rest) => if skipWs rest = [] then some v else none


/-! ### Decoding into the entity types -/

/-- The error of `json.Unmarshal` for a text that is not JSON. -/
def SyntaxError : GoError := .new "json: syntax error"

/-- The error of `json.Unmarshal` for a JSON value of the wrong kind. -/
def UnmarshalTypeError (value : String) (type : String) : GoError :=
  .new ("json: cannot unmarshal " ++ value ++ " into Go value of type " ++ type)

/-- The name of the kind of a JSON value in an `UnmarshalTypeError`. -/
def JVal.kind : JVal → String
  | .null => "null"
  | .bool _ => "bool"
  | .num _ => "number"
  | .str _ _ => "string"
  | .arr _ => "array"
  | .obj _ => "object"

/-- The text of a JSON value as an `Unmarshaler` receives it, as far as
`Time.UnmarshalJSON` looks at it: `null`, or a string with its quotes. -/
def JVal.literal : JVal → List Char
  | .null => "null".data
  | .str raw _ => '"' :: raw ++ ['"']
  | .bool true => "true".data
  | .bool false => "false".data
  | .num lit => lit
  | .arr _ => ['[']
  | .obj _ => ['\x7b']

/-- The text format of `time.Time` in JSON: `Time.MarshalJSON`, which yields
the quoted text, and `Time.UnmarshalJSON` on the text between the quotes. -/
structure TimeText where
  MarshalJSON : Time → Except GoError (List Char)
  parse : List Char → Except GoError Time

/-- The value of a string of decimal digits. -/
def digitsVal (ds : List Char) : Nat := ds.foldl (fun n c => 10 * n + (c.toNat - 48)) 0

/-- The call `strconv.ParseInt(lit, 10, 64)` on a JSON number literal. -/
def parseInt64 (lit : List Char) : Option Int :=
  let neg := lit.head? = some '-'
  let ds := if neg then lit.tail else lit
  if ds ≠ [] ∧ ds.all isDigit then
    let v : Int := if neg then -(digitsVal ds : Int) else (digitsVal ds : Int)
    if -(2 ^ 63 : Int) ≤ v ∧ v < (2 ^ 63 : Int) then some v else none
  else none

/-- A JSON value stored into an `int64` field; `null` leaves the field. -/
def decodeInt64 (v : JVal) (old : Int) : Except GoError Int :=
  match v with
  | .null => .ok old
  | .num lit =>
    match parseInt64 lit with
    | some i => .ok i
    | none => .error (UnmarshalTypeError "number" "int64")
  | _ => .error (UnmarshalTypeError v.kind "int64")

/-- A JSON value stored into a `string` field; `null` leaves the field. -/
def decodeString (v : JVal) (old : String) : Except GoError String :=
  match v with
  | .null => .ok old
  | .str _ s => .ok (String.mk s)
  | _ => .error (UnmarshalTypeError v.kind "string")

/-- A JSON value stored into a `bool` field; `null` leaves the field. -/
def decodeBool (v : JVal) (old : Bool) : Except GoError Bool :=
  match v with
  | .null => .ok old
  | .bool b => .ok b
  | _ => .error (UnmarshalTypeError v.kind "bool")

/-- The method `Time.UnmarshalJSON` on the text of a JSON value. -/
def decodeTime (T : TimeText) (v : JVal) (old : Time) : Except GoError Time :=
  match v with
  | .null => .ok old
  | .str raw _ => T.parse raw
  | _ => .error (.new "Time.UnmarshalJSON: input is not a JSON string")

/-- The case folding under which a key of a JSON object matches a field
name: the letters of the field names are ASCII, whose fold classes hold the
upper-case letter and, for `s` and `k`, U+017F and U+212A. -/
def foldChar (c : Char) : Char :=
  if 'A' ≤ c ∧ c ≤ 'Z' then Char.ofNat (c.toNat + 32)
  else if c = Char.ofNat 0x17F then 's'
  else if c = Char.ofNat 0x212A then 'k'
  else c

/-- One member of a JSON object stored into an `entity.Todo`, by the `json`
tags of the struct; a key that matches no field is skipped. -/
def setTodoField (T : TimeText) (t : Todo) (m : List Char × JVal) : Except GoError Todo :=
  let name := String.mk (m.1.map foldChar)
  if name = "id" then (decodeInt64 m.2 t.ID).map (fun x => { t with ID := x })
  else if name = "title" then (decodeString m.2 t.Title).map (fun x => { t with Title := x })
  else if name = "content" then (decodeString m.2 t.Content).map (fun x => { t with Content := x })
  else if name = "due_date" then (decodeTime T m.2 t.DueDate).map (fun x => { t with DueDate := x })
  else if name = "completed" then
    (decodeBool m.2 t.Completed).map (fun x => { t with Completed := x })
  else if name = "user_id" then (decodeInt64 m.2 t.UserID).map (fun x => { t with UserID := x })
  else .ok t

/-- A JSON value decoded into a zero `entity.Todo`. -/
def decodeTodo (T : TimeText) (v : JVal) : Except GoError Todo :=
  match v with
  | .null => .ok Todo.zero
  | .obj ms => ms.foldlM (setTodoField T) Todo.zero
  | _ => .error (UnmarshalTypeError v.kind "entity.Todo")

/-- The zero value `entity.User{}`. -/
def User.zero : User := ⟨0, "", "", "", ""⟩

/-- One member of a JSON object stored into an `entity.User`; the field
`Password` has the tag `json:"-"` and is never matched. -/
def setUserField (u : User) (m : List Char × JVal) : Except GoError User :=
  let name := String.mk (m.1.map foldChar)
  if name = "id" then (decodeInt64 m.2 u.ID).map (fun x => { u with ID := x })
  else if name = "username" then
    (decodeString m.2 u.Username).map (fun x => { u with Username := x })
  else if name = "role" then (decodeString m.2 u.Role).map (fun x => { u with Role := x })
  else if name = "full_name" then
    (decodeString m.2 u.FullName).map (fun x => { u with FullName := x })
  else .ok u

/-- A JSON value decoded into a zero `entity.User`. -/
def decodeUser (v : JVal) : Except GoError User :=
  match v with
  | .null => .ok User.zero
  | .obj ms => ms.foldlM setUserField User.zero
  | _ => .error (UnmarshalTypeError v.kind "entity.User")

/-- The call `json.Unmarshal(data, &result)` for a `nil` slice variable
`result`: `null` leaves it `nil`, an array fills it, every other JSON value
and every text that is not JSON is an error. -/
def unmarshalSlice {α : Type} (dec : JVal → Except GoError α) (type : String) (data : String) :
    Except GoError (Slice α) :=
  match parseJSON data with
  | none => .error SyntaxError
  | some .null => .ok none
  | some (.arr xs) => (xs.mapM dec).map some
  | some v => .error (UnmarshalTypeError v.kind type)

/-! ### Encoding -/

/-- A hexadecimal digit. -/
def hexDigit (n : Nat) : Char := "0123456789abcdef".data.getD n '0'

/-- One character of a string in the output of `json.Marshal` (with the
escaping of HTML characters, which `Marshal` has on). -/
def escapeChar (c : Char) : List Char :=
  if c = '"' then ['\\', '"']
  else if c = '\\' then ['\\', '\\']
  else if c = Char.ofNat 8 then ['\\', 'b']
  else if c = Char.ofNat 12 then ['\\', 'f']
  else if c = '\n' then ['\\', 'n']
  else if c = '\r' then ['\\', 'r']
  else if c = '\t' then ['\\', 't']
  else if c.toNat < 0x20 ∨ c = '<' ∨ c = '>' ∨ c = '&' then
    ['\\', 'u', '0', '0', hexDigit (c.toNat / 16), hexDigit (c.toNat % 16)]
  else if c = Char.ofNat 0x2028 then "\\u2028".data
  else if c = Char.ofNat 0x2029 then "\\u2029".data
  else [c]

/-- A Go string as a JSON string. -/
def encodeString (s : String) : List Char := '"' :: s.data.flatMap escapeChar ++ ['"']

/-- An `int64` as a JSON number. -/
def encodeInt (i : Int) : List Char :=
  if i < 0 then '-' :: (Nat.repr i.natAbs).data else (Nat.repr i.natAbs).data

/-- An `entity.Todo` as a JSON object, its members named by the `json` tags. -/
def encodeTodo (T : TimeText) (t : Todo) : Except GoError (List Char) :=
  (T.MarshalJSON t.DueDate).map (fun due =>
    "\x7b\"id\":".data ++ encodeInt t.ID ++ ",\"title\":".data ++ encodeString t.Title
      ++ ",\"content\":".data ++ encodeString t.Content ++ ",\"due_date\":".data ++ due
      ++ ",\"completed\":".data ++ (if t.Completed then "true".data else "false".data)
      ++ ",\"user_id\":".data ++ encodeInt t.UserID ++ "\x7d".data)

/-- An `entity.User` as a JSON object; `Password` is tagged `json:"-"`. -/
def encodeUser (u : User) : List Char :=
  "\x7b\"id\":".data ++ encodeInt u.ID ++ ",\"username\":".data ++ encodeString u.Username
    ++ ",\"role\":".data ++ encodeString u.Role ++ ",\"full_name\":".data
    ++ encodeString u.FullName ++ "\x7d".data

/-- The call `json.Marshal` on a slice: `null` for `nil`, else an array. -/
def marshalSlice {α : Type} (enc : α → Except GoError (List Char)) :
    Slice α → Except GoError String
  | none => .ok "null"
  | some xs => (xs.mapM enc).map (fun es => String.mk ('[' :: [','].intercalate es ++ [']']))

/-- The bytes of a character in UTF-8. -/
def utf8 (c : Char) : List Nat :=
  let n := c.toNat
  if n < 0x80 then [n]
  else if n < 0x800 then [0xC0 + n / 64, 0x80 + n % 64]
  else if n < 0x10000 then [0xE0 + n / 4096, 0x80 + n / 64 % 64, 0x80 + n % 64]
  else [0xF0 + n / 262144, 0x80 + n / 4096 % 64, 0x80 + n / 64 % 64, 0x80 + n % 64]

/-- A digit of the standard base64 alphabet. -/
def b64 (n : Nat) : Char :=
  "ABCDEFGHIJKLMNOPQRSTUVWXYZabcdefghijklmnopqrstuvwxyz0123456789+/".data.getD n 'A'

/-- The standard base64 encoding, padded. -/
def base64 : List Nat → List Char
  | a :: b :: c :: rest =>
    b64 (a / 4) :: b64 (a % 4 * 16 + b / 16) :: b64 (b % 16 * 4 + c / 64) :: b64 (c % 64)
      :: base64 rest
  | [a, b] => [b64 (a / 4), b64 (a % 4 * 16 + b / 16), b64 (b % 16 * 4), '=']
  | [a] => [b64 (a / 4), b64 (a % 4 * 16), '=', '=']
  | [] => []

/-- The call `json.Marshal` on a non-nil `[]byte`: a JSON string holding the
base64 encoding of the bytes. -/
def marshalBytes (b : String) : Except GoError String :=
  .ok (String.mk ('"' :: base64 (b.data.flatMap utf8) ++ ['"']))

/-- The model of `encoding/json` for the two entity types. -/
def goJson (T : TimeText) : Json where
  marshalTodos := marshalSlice (encodeTodo T)
  unmarshalTodos := unmarshalSlice (decodeTodo T) "[]entity.Todo"
  marshalUsers := marshalSlice (fun u => .ok (encodeUser u))
  unmarshalUsers := unmarshalSlice decodeUser "[]entity.User"


/-! ### The text of a time -/

/-- Whether a year of the proleptic Gregorian calendar is a leap year. -/
def isLeap (y : Int) : Bool := y % 4 == 0 && (y % 100 != 0 || y % 400 == 0)

/-- The number of days of a month. -/
def daysIn (m : Nat) (y : Int) : Nat :=
  if m = 2 then (if isLeap y then 29 else 28)
  else if m = 4 ∨ m = 6 ∨ m = 9 ∨ m = 11 then 30 else 31

/-- The civil date (year, month, day) of a day counted from January 1, year 1. -/
def civilFromDays (days : Int) : Int × Nat × Nat :=
  let z := days + 306
  let era := Int.ediv z 146097
  let doe := (Int.emod z 146097).toNat
  let yoe := (doe - doe / 1460 + doe / 36524 - doe / 146096) / 365
  let doy := doe - (365 * yoe + yoe / 4 - yoe / 100)
  let mp := (5 * doy + 2) / 153
  let d := doy - (153 * mp + 2) / 5 + 1
  let m := if mp < 10 then mp + 3 else mp - 9
  ((yoe : Int) + era * 400 + (if m ≤ 2 then 1 else 0), m, d)

/-- The day, counted from January 1, year 1, of a civil date. -/
def daysFromCivil (y : Int) (m d : Nat) : Int :=
  let y1 := if m ≤ 2 then y - 1 else y
  let era := Int.ediv y1 400
  let yoe := (Int.emod y1 400).toNat
  let doy := (153 * (if m > 2 then m - 3 else m + 9) + 2) / 5 + d - 1
  let doe := yoe * 365 + yoe / 4 - yoe / 100 + doy
  era * 146097 + (doe : Int) - 306

/-- A number in decimal, padded with zeros to a width. -/
def pad (width n : Nat) : List Char :=
  List.replicate (width - (Nat.repr n).length) '0' ++ (Nat.repr n).data

/-- Drop the zeros at the end of a list of digits. -/
def trimZeros (ds : List Char) : List Char := (ds.reverse.dropWhile (· = '0')).reverse

/-- The fraction of a second in a time text: the first nine digits count. -/
def nanosOf (ds : List Char) : Nat := digitsVal ((ds ++ List.replicate 9 '0').take 9)

/-- The method `Time.MarshalJSON` for a time in UTC: the RFC 3339 text with
the fraction of the second cut after its last non-zero digit. -/
def rfc3339Marshal (t : Time) : Except GoError (List Char) :=
  let date := civilFromDays (Int.ediv t.sec 86400)
  let rem := (Int.emod t.sec 86400).toNat
  if date.1 < 0 ∨ 9999 < date.1 then
    .error (.new "Time.MarshalJSON: year outside of range [0,9999]")
  else
    .ok ('"' :: pad 4 date.1.toNat ++ '-' :: pad 2 date.2.1 ++ '-' :: pad 2 date.2.2
      ++ 'T' :: pad 2 (rem / 3600) ++ ':' :: pad 2 (rem / 60 % 60) ++ ':' :: pad 2 (rem % 60)
      ++ (if t.nsec = 0 then [] else '.' :: trimZeros (pad 9 t.nsec)) ++ ['Z', '"'])

/-- The reading of an RFC 3339 text in UTC, `2006-01-02T15:04:05Z` with an
optional fraction of the second. -/
def rfc3339Parse (raw : List Char) : Except GoError Time :=
  match raw with
  | y1 :: y2 :: y3 :: y4 :: '-' :: m1 :: m2 :: '-' :: d1 :: d2 :: 'T' :: h1 :: h2 :: ':'
      :: n1 :: n2 :: ':' :: s1 :: s2 :: rest =>
    let frac : Option (List Char) := match rest with
      | ['Z'] => some []
      | '.' :: r =>
        if (takeDigits r).1 ≠ [] ∧ (takeDigits r).2 = ['Z'] then some (takeDigits r).1 else none
      | _ => none
    let y := digitsVal [y1, y2, y3, y4]
    let m := digitsVal [m1, m2]
    let d := digitsVal [d1, d2]
    let h := digitsVal [h1, h2]
    let n := digitsVal [n1, n2]
    let s := digitsVal [s1, s2]
    match frac with
    | none => .error (.new "parsing time: cannot parse")
    | some ds =>
      if [y1, y2, y3, y4, m1, m2, d1, d2, h1, h2, n1, n2, s1, s2].all isDigit ∧ 1 ≤ m ∧ m ≤ 12
          ∧ 1 ≤ d ∧ d ≤ daysIn m y ∧ h < 24 ∧ n < 60 ∧ s < 60 then
        .ok ⟨daysFromCivil y m d * 86400 + (h * 3600 + n * 60 + s : Nat), nanosOf ds⟩
      else .error (.new "parsing time: out of range")
  | _ => .error (.new "parsing time: cannot parse")

/-- The text of times in UTC. Go also reads the texts with a numeric zone
offset; this format reads the ones that `Time.MarshalJSON` writes for UTC. -/
def rfc3339UTC : TimeText := ⟨rfc3339Marshal, rfc3339Parse⟩

/-! ## pkg/cache/cache.go -/

/-- The error `redis.Nil`, the reply for a key that is not there. -/
def redisNil : GoError := .sentinel "redis.Nil" "redis: nil"

/-- The commands of the client `*redis.Client` that the cache port uses, each
with the `Err()` or `Result()` of the command. -/
structure RedisClient (σ : Type) where
  Set : String → String → Nat → σ → Option GoError × σ
  Get : String → σ → (String × Option GoError) × σ
  Del : String → σ → Option GoError × σ

/-- The method `cacheable.Set`: the value is passed through `json.Marshal`
before it is stored. The value is the `[]byte` that the services pass. -/
def cacheable.Set {σ : Type} (rdb : RedisClient σ) (key : String) (value : String)
    (duration : Nat) (st : σ) : Option GoError × σ :=
  match marshalBytes value with
  | .error err => (some (Errorf_w "gagal melakukan marshal pada nilai: " err), st)
  | .ok marshalledValue =>
    match rdb.Set key marshalledValue duration st with
    | (some err, st1) => (some (Errorf_w "gagal menyimpan cache: " err), st1)
    | (none, st1) => (none, st1)

/-- The method `cacheable.Get`. -/
def cacheable.Get {σ : Type} (rdb : RedisClient σ) (key : String) (st : σ) :
    (String × Option GoError) × σ :=
  match rdb.Get key st with
  | ((value, err), st1) =>
    if err = some redisNil then (("", none), st1)
    else match err with
      | some e => (("", some (Errorf_w "gagal mengambil cache: " e)), st1)
      | none => ((value, none), st1)

/-- The method `cacheable.Delete`. -/
def cacheable.Delete {σ : Type} (rdb : RedisClient σ) (key : String) (st : σ) :
    Option GoError × σ :=
  match rdb.Del key st with
  | (some err, st1) => (some (Errorf_w "gagal menghapus cache: " err), st1)
  | (none, st1) => (none, st1)

/-- The function `NewCacheable`: the cache port over a Redis client. -/
def NewCacheable {σ : Type} (rdb : RedisClient σ) : Cacheable σ :=
  ⟨cacheable.Set rdb, cacheable.Get rdb, cacheable.Delete rdb⟩

/-! ## Scripted ports, as the generated mocks of the tests answer -/

/-- A cache port that answers every call with the given results. -/
def mockCache (get : String × Option GoError) (set del : Option GoError) : Cacheable Unit :=
  ⟨fun _ _ _ st => (set, st), fun _ st => (get, st), fun _ st => (del, st)⟩

/-- A todo repository that answers every call with the given results. -/
def mockTodoRepo (findAll : Slice Todo × Option GoError) (findByID : Option Todo × Option GoError)
    (create update : Todo × Option GoError) (delete : Option GoError) : TodoRepository Unit :=
  ⟨fun st => (findAll, st), fun _ st => (findByID, st), fun _ st => (create, st),
    fun _ st => (update, st), fun _ st => (delete, st)⟩

/-- A user repository that answers every call with the given results. -/
def mockUserRepo (findAll : Slice User × Option GoError)
    (findByID findByUsername create update : Option User × Option GoError)
    (delete : Option GoError) : UserRepository Unit :=
  ⟨fun st => (findAll, st), fun _ st => (findByID, st), fun _ st => (findByUsername, st),
    fun _ st => (create, st), fun _ st => (update, st), fun _ st => (delete, st)⟩

/-- A token issuer that answers every call with the given result. -/
def mockToken (σ : Type) (res : String × Option GoError) : TokenUseCase σ :=
  ⟨fun _ st => (res, st)⟩

/-- A `bcrypt` whose hash of a password is a function of the password, and
which leaves the state alone. -/
def pureBcrypt (σ : Type) (hash : String → String × Option GoError) : Bcrypt σ :=
  ⟨fun pw st => (hash pw, st),
    fun h pw st => (if (hash pw).1 = h then none
      else some (.sentinel "bcrypt.ErrMismatchedHashAndPassword"
        "crypto/bcrypt: hashedPassword is not the hash of the given password"), st)⟩

/-- The world before any call. -/
def World.init {σ : Type} (st : σ) : World σ := ⟨st, []⟩

/-! ## A sequential model: an in-memory store and an in-memory key-value store -/

/-- The state of the sequential model: the key-value store, the two tables,
and for each coming statement of a persistence call whether it is made to
fail. Every persistence call runs one statement, but `userRepository.Update`
runs two: the update and the lookup of the updated record. -/
structure Mem where
  kv : List (String × String)
  todos : List Todo
  users : List User
  faults : List Bool
  deriving DecidableEq, Repr

/-- Store a value under a key. -/
def kvSet (key value : String) (kv : List (String × String)) : List (String × String) :=
  (key, value) :: kv.filter (fun p => p.1 ≠ key)

/-- Remove a key. -/
def kvDel (key : String) (kv : List (String × String)) : List (String × String) :=
  kv.filter (fun p => p.1 ≠ key)

/-- Whether the coming persistence call fails, and the state after the call
has used up its turn. -/
def Mem.fault (m : Mem) : Bool × Mem := (m.faults.headD false, { m with faults := m.faults.tail })

/-- The error of a persistence call that was made to fail. -/
def dbError : GoError := .new "database error"

/-- The error `gorm.ErrRecordNotFound`. -/
def ErrRecordNotFound : GoError := .sentinel "gorm.ErrRecordNotFound" "record not found"

/-- The variable `repository.ErrPenggunaTidakDitemukan`. -/
def repositoryErrPenggunaTidakDitemukan : GoError :=
  .sentinel "repository.ErrPenggunaTidakDitemukan" "pengguna tidak ditemukan"

/-- A cache whose `Get` returns what `Set` stored, the empty string for a key
that is not there, and whose calls all succeed. -/
def memCache : Cacheable Mem :=
  ⟨fun key value _ m => (none, { m with kv := kvSet key value m.kv }),
    fun key m => (((m.kv.lookup key).getD "", none), m),
    fun key m => (none, { m with kv := kvDel key m.kv })⟩

/-- A Redis client over the in-memory key-value store. -/
def memRedis : RedisClient Mem :=
  ⟨fun key value _ m => (none, { m with kv := kvSet key value m.kv }),
    fun key m => (match m.kv.lookup key with
      | some v => (v, none)
      | none => ("", some redisNil), m),
    fun key m => (none, { m with kv := kvDel key m.kv })⟩

/-- The id that the store gives to a new record without one. -/
def nextID (ids : List Int) : Int := ids.foldl max 0 + 1

/-- The todo repository over the in-memory table. A call that is made to fail
leaves the table as it is. -/
def memTodoRepo : TodoRepository Mem where
  FindAll m :=
    if m.fault.1 then ((none, some dbError), m.fault.2) else ((some m.todos, none), m.fault.2)
  FindByID id m :=
    if m.fault.1 then ((none, some dbError), m.fault.2)
    else match m.todos.find? (fun t => t.ID = id) with
      | some t => ((some t, none), m.fault.2)
      | none => ((none, some ErrRecordNotFound), m.fault.2)
  Create todo m :=
    if m.fault.1 then ((Todo.zero, some dbError), m.fault.2)
    else
      let todo := if todo.ID = 0 then { todo with ID := nextID (m.todos.map (·.ID)) } else todo
      if m.todos.any (fun t => t.ID = todo.ID) then ((Todo.zero, some dbError), m.fault.2)
      else ((todo, none), { m.fault.2 with todos := m.todos ++ [todo] })
  Update todo m :=
    if m.fault.1 then ((Todo.zero, some dbError), m.fault.2)
    else ((todo, none),
      { m.fault.2 with todos := m.todos.map (fun t => if t.ID = todo.ID then todo else t) })
  Delete id m :=
    if m.fault.1 then (some dbError, m.fault.2)
    else (none, { m.fault.2 with todos := m.todos.filter (fun t => t.ID ≠ id) })

/-- The columns that `userRepository.Update` writes: the non-empty ones. -/
def updateColumns (old user : User) : User :=
  { old with
    Username := if user.Username = "" then old.Username else user.Username
    FullName := if user.FullName = "" then old.FullName else user.FullName
    Role := if user.Role = "" then old.Role else user.Role
    Password := if user.Password = "" then old.Password else user.Password }

/-- The method `userRepository.FindByID` over the in-memory table. -/
def memUserFindByID (id : Int) (m : Mem) : (Option User × Option GoError) × Mem :=
  if m.fault.1 then ((none, some dbError), m.fault.2)
  else match m.users.find? (fun u => u.ID = id) with
    | some u => ((some u, none), m.fault.2)
    | none => ((none, some repositoryErrPenggunaTidakDitemukan), m.fault.2)

/-- Whether the map of the updates in `userRepository.Update` holds a column:
the empty fields are deleted from it. -/
def hasUpdates (user : User) : Bool :=
  user.Username ≠ "" || user.FullName ≠ "" || user.Role ≠ "" || user.Password ≠ ""

/-- The user repository over the in-memory table. A statement that is made to
fail leaves the table as it is. `Update` runs two statements, as the method
`userRepository.Update` does: the update, which affects no row when the map
of the updates is empty or no row has the id, and then `FindByID` for the
updated record, which can fail when the update is already in the table. A
`nil` record, which the method would dereference, is answered by an error. -/
def memUserRepo : UserRepository Mem where
  FindAll m :=
    if m.fault.1 then ((none, some dbError), m.fault.2) else ((some m.users, none), m.fault.2)
  FindByID := memUserFindByID
  FindByUsername username m :=
    if m.fault.1 then ((none, some dbError), m.fault.2)
    else match m.users.find? (fun u => u.Username = username) with
      | some u => ((some u, none), m.fault.2)
      | none => ((none, some repositoryErrPenggunaTidakDitemukan), m.fault.2)
  Create user m :=
    if m.fault.1 then ((none, some dbError), m.fault.2)
    else
      let user := if user.ID = 0 then { user with ID := nextID (m.users.map (·.ID)) } else user
      if m.users.any (fun u => u.ID = user.ID) then ((none, some dbError), m.fault.2)
      else ((some user, none), { m.fault.2 with users := m.users ++ [user] })
  Update user m :=
    match user with
    | none => ((none, some dbError), m.fault.2)
    | some user =>
      if m.fault.1 then ((none, some dbError), m.fault.2)
      else if hasUpdates user = false ∨ m.users.any (fun u => u.ID = user.ID) = false then
        ((none, some repositoryErrPenggunaTidakDitemukan), m.fault.2)
      else
        memUserFindByID user.ID
          { m.fault.2 with
            users := m.users.map (fun u => if u.ID = user.ID then updateColumns u user else u) }
  Delete id m :=
    if m.fault.1 then (some dbError, m.fault.2)
    else if m.users.any (fun u => u.ID = id) then
      (none, { m.fault.2 with users := m.users.filter (fun u => u.ID ≠ id) })
    else (some repositoryErrPenggunaTidakDitemukan, m.fault.2)

/-- The todo service of the sequential model. -/
def memTodoService : todoService Mem := ⟨memTodoRepo, memCache⟩

/-- The user service of the sequential model. -/
def memUserService (hash : String → String × Option GoError) : userService Mem :=
  ⟨memUserRepo, mockToken Mem ("", none), memCache, pureBcrypt Mem hash⟩

/-- The todo service over the cache port of `pkg/cache` and the in-memory Redis. -/
def redisTodoService : todoService Mem := ⟨memTodoRepo, NewCacheable memRedis⟩

/-- The user service over the cache port of `pkg/cache` and the in-memory Redis. -/
def redisUserService (hash : String → String × Option GoError) : userService Mem :=
  ⟨memUserRepo, mockToken Mem ("", none), NewCacheable memRedis, pureBcrypt Mem hash⟩

/-- Whether an operation failed: it returned an error, or it panicked. -/
def Outcome.failed : Outcome (Option GoError) → Bool
  | .ret err => err.isSome
  | .panic => true

/-- The error of an operation that may panic, as an outcome. -/
def Outcome.error {α : Type} : Outcome (α × Option GoError) → Outcome (Option GoError)
  | .ret r => .ret r.2
  | .panic => .panic

/-- An operation of one of the two services. -/
inductive Op where
  | todoFindAll
  | todoCreate (todo : Todo)
  | todoUpdate (id : Int) (todo : Todo)
  | todoDelete (id : Int)
  | userFindAll
  | createUser (user : User)
  | updateUser (user : User)
  | deleteUser (id : Int)
  deriving DecidableEq, Repr

/-- Whether an operation is one of the six mutations. -/
def Op.isMutation : Op → Bool
  | .todoFindAll => false
  | .userFindAll => false
  | _ => true

/-- The list key that an operation reads or invalidates. -/
def Op.key : Op → String
  | .todoFindAll => "go-todo-api:todos:find-all"
  | .todoCreate _ => "go-todo-api:todos:find-all"
  | .todoUpdate _ _ => "go-todo-api:todos:find-all"
  | .todoDelete _ => "go-todo-api:todos:find-all"
  | _ => "pengguna:semua"

/-- Run an operation on services `ts` and `us`; the result is the error that
the operation returned. -/
def Op.run {σ : Type} (J : Json) (ts : todoService σ) (us : userService σ) (op : Op)
    (w : World σ) : Outcome (Option GoError) × World σ :=
  match op with
  | .todoFindAll => (.ret (ts.FindAll J w).1.2, (ts.FindAll J w).2)
  | .todoCreate todo => (.ret (ts.Create todo w).1.2, (ts.Create todo w).2)
  | .todoUpdate id todo => ((ts.Update id todo w).1.error, (ts.Update id todo w).2)
  | .todoDelete id => (.ret (ts.Delete id w).1, (ts.Delete id w).2)
  | .userFindAll => (.ret (us.FindAll J w).1.2, (us.FindAll J w).2)
  | .createUser user => (.ret (us.CreateUser user w).1.2.1, (us.CreateUser user w).2)
  | .updateUser user => ((us.UpdateUser user w).1.error, (us.UpdateUser user w).2)
  | .deleteUser id => (.ret (us.DeleteUser id w).1, (us.DeleteUser id w).2)

/-- The key of the list of todos in the cache. -/
def todoKey : String := "go-todo-api:todos:find-all"

/-- The key of the list of users in the cache. -/
def userKey : String := "pengguna:semua"

/-- The cache is coherent with the store: each list key is absent or holds
the encoding of the current table. -/
def Coherent (J : Json) (m : Mem) : Prop :=
  (m.kv.lookup todoKey = none ∨ ∃ b, J.marshalTodos (some m.todos) = .ok b ∧
      m.kv.lookup todoKey = some b) ∧
  (m.kv.lookup userKey = none ∨ ∃ b, J.marshalUsers (some m.users) = .ok b ∧
      m.kv.lookup userKey = some b)

/-- Whether a call is a persistence mutation: a create, an update or a delete. -/
def Call.isMutation : Call → Bool
  | .todoCreate _ => true
  | .todoUpdate _ => true
  | .todoDelete _ => true
  | .userCreate _ => true
  | .userUpdate _ => true
  | .userDelete _ => true
  | _ => false

/-- The invalidation policy of a mutation that ran from world `w` to world
`w1`, with `cs` the calls made in between. If the operation failed, `cs` holds
no cache call and no persistence mutation that succeeded. If it did not fail,
`cs` ends with a persistence mutation that succeeded, followed at once by the
`Delete` of `key`, and holds no other cache call and no other mutation. -/
def InvalidatesAfterMutation {σ : Type} (key : String) (failed : Bool) (w w1 : World σ) : Prop :=
  ∃ cs, w1.trace = w.trace ++ cs ∧
    (failed = true → (∀ ev ∈ cs, ev.call.isCache = false) ∧
      (∀ ev ∈ cs, ev.call.isMutation = true → ev.failed = true)) ∧
    (failed = false → ∃ pre m d, cs = pre ++ [m, d] ∧
      m.call.isMutation = true ∧ m.failed = false ∧ d.call = .cacheDelete key ∧
      (∀ ev ∈ pre, ev.call.isCache = false ∧ ev.call.isMutation = false))

/-- Whether a call writes to the cache: a `Set` or a `Delete`. -/
def Call.isCacheWrite : Call → Bool
  | .cacheSet _ _ _ => true
  | .cacheDelete _ => true
  | _ => false

/-- The todo service with the `Set` and the `Delete` of its cache replaced. -/
def todoService.withWrites {σ : Type} (s : todoService σ)
    (set : String → String → Nat → σ → Option GoError × σ)
    (del : String → σ → Option GoError × σ) : todoService σ :=
  { s with cacheable := { s.cacheable with Set := set, Delete := del } }

/-- The user service with the `Set` and the `Delete` of its cache replaced. -/
def userService.withWrites {σ : Type} (s : userService σ)
    (set : String → String → Nat → σ → Option GoError × σ)
    (del : String → σ → Option GoError × σ) : userService σ :=
  { s with cacheable := { s.cacheable with Set := set, Delete := del } }

/-- The user service with the `Get` of its cache replaced by a miss: the
empty value and no error, the state moving as the given `Get` moves it. -/
def userService.withMiss {σ : Type} (s : userService σ) : userService σ :=
  { s with cacheable :=
      { s.cacheable with Get := fun key st => (("", none), (s.cacheable.Get key st).2) } }

/-- The calls that ran from world `w` to world `w1`. -/
def World.since {σ : Type} (w w1 : World σ) : List Event := w1.trace.drop w.trace.length

/-! ## Login: the clock and the registered claims -/

/-- The constant `time.Hour`. -/
def Hour : Nat := 60 * Minute

/-- The method `Time.Add` for a duration that is not negative. -/
def Time.Add (t : Time) (d : Nat) : Time :=
  ⟨t.sec + ((t.nsec + d) / Second : Nat), (t.nsec + d) % Second⟩

/-- The function `jwt.NewNumericDate`: the time cut to the precision of the
library, which is the second. -/
def NewNumericDate (t : Time) : Time := ⟨t.sec, 0⟩

instance : HasErr Time := ⟨fun _ => none⟩

/-- The method `userService.Login`. The function `timeNow` is `time.Now`; it
is called twice, first for `ExpiresAt`, then for `IssuedAt`, in the order of
the composite literal. A `nil` user with a `nil` error from `FindByUsername`
is dereferenced by the comparison of the password. -/
def userService.Login {σ : Type} (s : userService σ) (timeNow : σ → Time × σ)
    (username password : String) (w : World σ) :
    Outcome (String × Option GoError) × World σ :=
  match w.call (.userFindByUsername username) (s.userRepository.FindByUsername username) with
  | ((_, some _), w1) => (.ret ("", some ErrKredensialTidakValid), w1)
  | ((none, none), w1) => (.panic, w1)
  | ((some user, none), w1) =>
    match w1.call (.bcryptCompare user.Password password)
        (s.bcrypt.CompareHashAndPassword user.Password password) with
    | (some _, w2) => (.ret ("", some ErrKredensialTidakValid), w2)
    | (none, w2) =>
      match w2.call .timeNow timeNow with
      | (now1, w3) =>
        match w3.call .timeNow timeNow with
        | (now2, w4) =>
          let claims : JwtCustomClaims :=
            { Username := user.Username
              Role := user.Role
              FullName := user.FullName
              Issuer := "aplikasi-todo"
              ExpiresAt := NewNumericDate (now1.Add (24 * Hour))
              IssuedAt := NewNumericDate now2 }
          match w4.call (.tokenGenerate claims) (s.tokenUseCase.GenerateAccessToken claims) with
          | ((_, some err), w5) => (.ret ("", some (Errorf_w "gagal membuat token: " err)), w5)
          | ((token, none), w5) => (.ret (token, none), w5)

/-! ## internal/http/handler/user.go -/

/-- The function `strconv.ParseInt(s, 10, 64)`: `none` for a syntax or a
range error. -/
def strconvParseInt (s : String) : Option Int :=
  let neg := s.data.head? = some '-'
  let ds := if s.data.head? = some '-' ∨ s.data.head? = some '+' then s.data.tail else s.data
  if ds ≠ [] ∧ ds.all isDigit then
    let v : Int := if neg then -(digitsVal ds : Int) else (digitsVal ds : Int)
    if -(2 ^ 63 : Int) ≤ v ∧ v < (2 ^ 63 : Int) then some v else none
  else none

/-- Modelled from the spec: the response envelope of `pkg/response`, which is
not among the sources, together with the status that the handler passes to
`c.JSON`: a success carries a message and a payload, a failure a status code
and a message. -/
structure Response (α : Type) where
  status : Nat
  message : String
  data : Option α
  deriving DecidableEq, Repr

/-- The request struct of the handlers `CreateUser` and `UpdateUser`, as
`c.Bind` fills it from the body; a member that the body lacks stays empty. -/
structure UserRequest where
  Username : String
  Password : String
  FullName : String
  Role : String
  deriving DecidableEq, Repr

/-- The handler `UserHandler.CreateUser`; `bind` is what `c.Bind(&req)`
returned. -/
def UserHandler.CreateUser {σ : Type} (userService : userService σ)
    (bind : Except GoError UserRequest) (w : World σ) : Response (Option User) × World σ :=
  match bind with
  | .error _ => (⟨400, "Format permintaan tidak valid", none⟩, w)
  | .ok req =>
    let user : User :=
      { ID := 0, Username := req.Username, Password := req.Password, FullName := req.FullName,
        Role := req.Role }
    match userService.CreateUser user w with
    | ((_, some err, _), w1) =>
      let status := if err.Is ErrUsernameSudahAda then 409 else 500
      (⟨status, err.Error, none⟩, w1)
    | ((createdUser, none, _), w1) => (⟨201, "Pengguna berhasil dibuat", some createdUser⟩, w1)

/-- The handler `UserHandler.UpdateUser`; `idParam` is `c.Param("id")` and
`bind` is what `c.Bind(&req)` returned. -/
def UserHandler.UpdateUser {σ : Type} (userService : userService σ) (idParam : String)
    (bind : Except GoError UserRequest) (w : World σ) :
    Outcome (Response (Option User)) × World σ :=
  match strconvParseInt idParam with
  | none => (.ret ⟨400, "ID pengguna tidak valid", none⟩, w)
  | some id =>
    match bind with
    | .error _ => (.ret ⟨400, "Format permintaan tidak valid", none⟩, w)
    | .ok req =>
      let user : User :=
        { ID := id, Username := req.Username, Password := req.Password,
          FullName := req.FullName, Role := req.Role }
      match userService.UpdateUser user w with
      | (.panic, w1) => (.panic, w1)
      | (.ret (_, some err), w1) =>
        let status := if err.Is ErrPenggunaTidakDitemukan then 404 else 500
        (.ret ⟨status, err.Error, none⟩, w1)
      | (.ret (updatedUser, none), w1) =>
        (.ret ⟨200, "Data pengguna berhasil diperbarui", some updatedUser⟩, w1)

/-! ## The members of an encoded user -/

/-- The members of the JSON object of an `entity.User`, in the order of the
fields of the struct: the name from the `json` tag and the encoded value.
The field `Password` has the tag `json:"-"` and gives no member. -/
def userMembers (u : User) : List (String × List Char) :=
  [("id", encodeInt u.ID), ("username", encodeString u.Username), ("role", encodeString u.Role),
    ("full_name", encodeString u.FullName)]

/-- A JSON object from its members. -/
def encodeObject (members : List (String × List Char)) : List Char :=
  '\x7b' :: [','].intercalate (members.map (fun m => encodeString m.1 ++ ':' :: m.2)) ++ ['\x7d']

/-- A user with the password blanked. -/
def User.withoutPassword (u : User) : User := { u with Password := "" }

/-- Whether a role is one of the two roles of the route table. -/
def isRole (r : String) : Prop := r = "admin" ∨ r = "user"

/-- Whether a role is one of the two roles can be computed. -/
instance (r : String) : Decidable (isRole r) :=
  inferInstanceAs (Decidable (r = "admin" ∨ r = "user"))

/-! ## Sample data, as in the tests of the services -/

/-- The todo `entity.Todo{ID: 1, Title: "Test Todo 1"}` of the tests. -/
def sampleTodo : Todo := ⟨1, "Test Todo 1", "", ⟨0, 0⟩, false, 0⟩

/-- The JSON text of the list that holds `sampleTodo`. -/
def sampleTodosText : String :=
  "[\x7b\"id\":1,\"title\":\"Test Todo 1\",\"content\":\"\",\"due_date\":\"0001-01-01T00:00:00Z\",\"completed\":false,\"user_id\":0\x7d]"

/-- The user `entity.User{ID: 1, Username: "user1"}` of the tests. -/
def sampleUser : User := ⟨1, "user1", "", "", ""⟩

/-- The JSON text of the list that holds `sampleUser`. -/
def sampleUsersText : String :=
  "[\x7b\"id\":1,\"username\":\"user1\",\"role\":\"\",\"full_name\":\"\"\x7d]"

/-- A todo service over scripted ports: the cache answers `Get` with `get`
and `Set` with `set`, the repository answers `FindAll` with `findAll`. -/
def mockTodoService (get : String × Option GoError) (set : Option GoError)
    (findAll : Slice Todo × Option GoError) : todoService Unit :=
  ⟨mockTodoRepo findAll (none, some ErrRecordNotFound) (Todo.zero, some dbError)
    (Todo.zero, some dbError) (some dbError), mockCache get set none⟩

/-- A user service over scripted ports: the cache answers `Get` with `get`
and `Set` with `set`, the repository answers `FindAll` with `findAll`. -/
def mockUserService (get : String × Option GoError) (set : Option GoError)
    (findAll : Slice User × Option GoError) : userService Unit :=
  ⟨mockUserRepo findAll (none, some repositoryErrPenggunaTidakDitemukan)
    (none, some repositoryErrPenggunaTidakDitemukan) (none, some dbError) (none, some dbError)
    (some dbError), mockToken Unit ("", none), mockCache get set none,
    pureBcrypt Unit (fun pw => ("$2a$10$" ++ pw, none))⟩

/-- A state of the sequential model: nothing cached, one todo and one user
stored, no persistence call made to fail. -/
def sampleMem : Mem := ⟨[], [sampleTodo], [sampleUser], []⟩

/-- The hash of the sequential model in the examples. -/
def sampleHash (pw : String) : String × Option GoError := ("$2a$10$" ++ pw, none)

/-- What `cacheable.Set` stores for the JSON text of the sample todos. -/
def storedTodosText : String :=
  "\"W3siaWQiOjEsInRpdGxlIjoiVGVzdCBUb2RvIDEiLCJjb250ZW50IjoiIiwiZHVlX2RhdGUiOiIwMDAxLTAxLTAxVDAwOjAwOjAwWiIsImNvbXBsZXRlZCI6ZmFsc2UsInVzZXJfaWQiOjB9XQ==\""

/-- What `cacheable.Set` stores for the JSON text of the sample users. -/
def storedUsersText : String :=
  "\"W3siaWQiOjEsInVzZXJuYW1lIjoidXNlcjEiLCJyb2xlIjoiIiwiZnVsbF9uYW1lIjoiIn1d\""

/-- A clock that answers with the given readings in turn, and with the zero
time once they are used up. -/
def scriptedClock : List Time → Time × List Time
  | [] => (⟨0, 0⟩, [])
  | t :: ts => (t, ts)

/-- A user service over the scripted clock: the repository answers every
lookup with `found`, the token issuer answers with `token`, the cache and the
other repository calls succeed, the hash is `sampleHash`. -/
def clockUserService (found : Option User × Option GoError) (token : String × Option GoError) :
    userService (List Time) :=
  ⟨⟨fun st => ((none, none), st), fun _ st => (found, st), fun _ st => (found, st),
      fun u st => ((some u, none), st), fun u st => ((u, none), st), fun _ st => (none, st)⟩,
    mockToken (List Time) token,
    ⟨fun _ _ _ st => (none, st), fun _ st => (("", none), st), fun _ st => (none, st)⟩,
    pureBcrypt (List Time) sampleHash⟩

/-- A stored user whose password is the hash of `password`. -/
def storedUser : User := ⟨1, "user1", "$2a$10$password", "user", "User One"⟩

/-- A second stored user. -/
def otherUser : User := ⟨2, "user2", "$2a$10$secret", "admin", "User Two"⟩

/-- A state of the sequential model with two users, nothing cached, no
persistence call made to fail. -/
def twoUsersMem : Mem := ⟨[], [], [storedUser, otherUser], []⟩

/-- The JSON text of the two stored users. -/
def twoUsersText : String :=
  "[\x7b\"id\":1,\"username\":\"user1\",\"role\":\"user\",\"full_name\":\"User One\"\x7d,\x7b\"id\":2,\"username\":\"user2\",\"role\":\"admin\",\"full_name\":\"User Two\"\x7d]"

/-! ## internal/repository/user.go: the lookups -/

/-- The variable `repository.ErrDatabaseError`. -/
def ErrDatabaseError : GoError :=
  .sentinel "repository.ErrDatabaseError" "terjadi kesalahan pada database"

/-- The call `fmt.Errorf("%w: %v", target, err)`: the message holds both
messages, and only `target` is wrapped. -/
def Errorf_w_v (target err : GoError) : GoError :=
  .wrapped (target.Error ++ ": " ++ err.Error) target

/-- The two queries of `*gorm.DB` that the lookups of the user repository
run, `Where("id = ?", id).First(user)` and
`Where("username = ?", username).First(user)`: each gives the record as the
query left it and the `Error` of the result. -/
structure GormDB (σ : Type) where
  FirstByID : Int → σ → (User × Option GoError) × σ
  FirstByUsername : String → σ → (User × Option GoError) × σ

/-- The method `userRepository.FindByID`. -/
def userRepository.FindByID {σ : Type} (db : GormDB σ) (id : Int) (st : σ) :
    (Option User × Option GoError) × σ :=
  match db.FirstByID id st with
  | ((_, some err), st1) =>
    if err.Is ErrRecordNotFound then ((none, some repositoryErrPenggunaTidakDitemukan), st1)
    else ((none, some (Errorf_w_v ErrDatabaseError err)), st1)
  | ((user, none), st1) => ((some user, none), st1)

/-- The method `userRepository.FindByUsername`. -/
def userRepository.FindByUsername {σ : Type} (db : GormDB σ) (username : String) (st : σ) :
    (Option User × Option GoError) × σ :=
  match db.FirstByUsername username st with
  | ((_, some err), st1) =>
    if err.Is ErrRecordNotFound then ((none, some repositoryErrPenggunaTidakDitemukan), st1)
    else ((none, some (Errorf_w_v ErrDatabaseError err)), st1)
  | ((user, none), st1) => ((some user, none), st1)

/-- A database that answers both queries with the given result. -/
def mockGormDB (res : User × Option GoError) : GormDB Unit :=
  ⟨fun _ st => (res, st), fun _ st => (res, st)⟩

/-! ## internal/http/router/router.go -/

/-- Modelled from the spec: the struct `route.Route` of `pkg/route`, which is
not among the sources: a route has a method, a path, a handler and the roles
that its capability check admits; `Roles` is `nil` when the route definition
names none. The handler is kept by the name of the method value. -/
structure Route where
  Method : String
  Path : String
  Handler : String
  Roles : Slice String
  deriving DecidableEq, Repr

/-- The function `PublicRoutes`. -/
def PublicRoutes : List Route :=
  [⟨"POST", "/login", "UserHandler.LoginUser", none⟩,
    ⟨"POST", "/register", "UserHandler.CreateUser", none⟩]

/-- The function `PrivateRoutes`. -/
def PrivateRoutes : List Route :=
  [⟨"GET", "/users", "UserHandler.GetAllUsers", some ["admin"]⟩,
    ⟨"PUT", "/users/:id", "UserHandler.UpdateUser", some ["admin"]⟩,
    ⟨"DELETE", "/users/:id", "UserHandler.DeleteUser", some ["admin"]⟩,
    ⟨"GET", "/todos", "TodoHandler.GetAllTodos", some ["admin", "user"]⟩,
    ⟨"POST", "/todos", "TodoHandler.CreateTodo", some ["admin", "user"]⟩,
    ⟨"PUT", "/todos/:id", "TodoHandler.UpdateTodo", some ["admin", "user"]⟩,
    ⟨"DELETE", "/todos/:id", "TodoHandler.DeleteTodo", some ["admin"]⟩]

/-- The roles that a route names: none for a `nil` slice. -/
def Route.roles (r : Route) : List String := r.Roles.getD []

/-- The roles of the route with the given method and path in a table, `none`
when the table has no such route. -/
def rolesOf (table : List Route) (method path : String) : Option (Slice String) :=
  (table.find? (fun r => r.Method = method ∧ r.Path = path)).map (·.Roles)

/-! ## internal/http/handler/todo.go -/

/-- The interface `service.TodoService`, which the handler holds. -/
structure TodoService (σ : Type) where
  FindAll : World σ → (Slice Todo × Option GoError) × World σ
  Create : Todo → World σ → (Todo × Option GoError) × World σ
  Update : Int → Todo → World σ → Outcome (Todo × Option GoError) × World σ
  Delete : Int → World σ → Option GoError × World σ

/-- The function `NewTodoService`. -/
def NewTodoService {σ : Type} (J : Json) (todoRepository : TodoRepository σ)
    (cacheable : Cacheable σ) : TodoService σ :=
  ⟨(todoService.mk todoRepository cacheable).FindAll J,
    (todoService.mk todoRepository cacheable).Create,
    (todoService.mk todoRepository cacheable).Update,
    (todoService.mk todoRepository cacheable).Delete⟩

/-- The struct `TodoHandler`. -/
structure TodoHandler (σ : Type) where
  todoService : TodoService σ

/-- The handler `TodoHandler.UpdateTodo`; `idParam` is `c.Param("id")` and
`bind` is what `c.Bind(&todo)` returned. -/
def TodoHandler.UpdateTodo {σ : Type} (h : TodoHandler σ) (idParam : String)
    (bind : Except GoError Todo) (w : World σ) : Outcome (Response Todo) × World σ :=
  match strconvParseInt idParam with
  | none => (.ret ⟨400, "ID todo tidak valid", none⟩, w)
  | some id =>
    match bind with
    | .error _ => (.ret ⟨400, "Permintaan tidak valid", none⟩, w)
    | .ok todo =>
      match h.todoService.Update id todo w with
      | (.panic, w1) => (.panic, w1)
      | (.ret (_, some err), w1) =>
        if err.Error = "todo tidak ditemukan" then (.ret ⟨404, "Todo tidak ditemukan", none⟩, w1)
        else (.ret ⟨500, "Gagal memperbarui todo", none⟩, w1)
      | (.ret (updatedTodo, none), w1) =>
        (.ret ⟨200, "Todo berhasil diperbarui", some updatedTodo⟩, w1)

/-- The handler `TodoHandler.DeleteTodo`; `idParam` is `c.Param("id")`. -/
def TodoHandler.DeleteTodo {σ : Type} (h : TodoHandler σ) (idParam : String)
    (w : World σ) : Response Todo × World σ :=
  match strconvParseInt idParam with
  | none => (⟨400, "ID todo tidak valid", none⟩, w)
  | some id =>
    match h.todoService.Delete id w with
    | (some _, w1) => (⟨500, "Gagal menghapus todo", none⟩, w1)
    | (none, w1) => (⟨200, "Todo berhasil dihapus", none⟩, w1)

/-- The todo handler over the todo service of the sequential model. -/
def memTodoHandler : TodoHandler Mem :=
  ⟨NewTodoService (goJson rfc3339UTC) memTodoRepo memCache⟩

/-- A Redis client that answers every `Get` with the given result and whose
other commands succeed. -/
def mockRedis (get : String × Option GoError) : RedisClient Unit :=
  ⟨fun _ _ _ st => (none, st), fun _ st => (get, st), fun _ st => (none, st)⟩

/-- A state of the sequential model in which both list keys hold the encoding
of their table: one todo and one user stored, no statement made to fail. -/
def cachedMem : Mem :=
  ⟨[("pengguna:semua", sampleUsersText), ("go-todo-api:todos:find-all", sampleTodosText)],
    [sampleTodo], [sampleUser], []⟩

/-- The sample user under a new full name. -/
def renamedUser : User := ⟨1, "user1", "", "", "Renamed"⟩

/-- The state after the update of the full name whose second statement failed:
the table holds the new name, the user key holds the encoding of the old
table. -/
def staleMem : Mem :=
  ⟨[("pengguna:semua", sampleUsersText), ("go-todo-api:todos:find-all", sampleTodosText)],
    [sampleTodo], [renamedUser], []⟩

/-- The JSON text of the table that holds the renamed user. -/
def renamedUsersText : String :=
  "[\x7b\"id\":1,\"username\":\"user1\",\"role\":\"\",\"full_name\":\"Renamed\"\x7d]"

/-! ## Theorems -/

set_option maxRecDepth 100000

/-- The loop of `mapM` under an encoder that cannot fail. -/
theorem mapM_loop_ok {α β : Type} (f : α → β) (xs : List α) (acc : List β) :
    List.mapM.loop (fun x => (Except.ok (f x) : Except GoError β)) xs acc =
      .ok (acc.reverse ++ xs.map f) := by
  induction xs generalizing acc with
  | nil => simp [List.mapM.loop, pure, Except.pure]
  | cons x xs ih =>
    simp only [List.mapM.loop, bind, Except.bind, ih]
    simp

/-- An encoder that cannot fail encodes every list. -/
theorem mapM_ok {α β : Type} (f : α → β) (xs : List α) :
    xs.mapM (fun x => (Except.ok (f x) : Except GoError β)) = .ok (xs.map f) := by
  simp [List.mapM, mapM_loop_ok]

/-- In the Go encoding every list of users has a JSON text. -/
theorem marshalUsers_ok (T : TimeText) (L : Slice User) :
    ∃ b, (goJson T).marshalUsers L = .ok b := by
  cases L with
  | none => exact ⟨_, rfl⟩
  | some xs =>
    refine ⟨String.mk ('[' :: [','].intercalate (xs.map encodeUser) ++ [']']), ?_⟩
    simp only [goJson, marshalSlice, mapM_ok]
    rfl

/-- C1. A cache hit: when `Get` on the list key returns a non-empty value and
no error, and the value decodes to the list `L`, `FindAll` of both services
returns `L` and no error, and the only call it makes is that `Get`: neither
the persistence `FindAll` nor the cache `Set` is called. -/
theorem FindAll_cache_hit (J : Json) :
    (∀ (σ : Type) (s : todoService σ) (w : World σ) (data : String) (L : Slice Todo),
      (s.cacheable.Get "go-todo-api:todos:find-all" w.st).1 = (data, none) → data ≠ "" →
      J.unmarshalTodos data = .ok L →
      s.FindAll J w = ((L, none),
        ⟨(s.cacheable.Get "go-todo-api:todos:find-all" w.st).2,
          w.trace ++ [⟨.cacheGet "go-todo-api:todos:find-all", false⟩]⟩)) ∧
    (∀ (σ : Type) (s : userService σ) (w : World σ) (data : String) (L : Slice User),
      (s.cacheable.Get "pengguna:semua" w.st).1 = (data, none) → data ≠ "" →
      J.unmarshalUsers data = .ok L →
      s.FindAll J w = ((L, none),
        ⟨(s.cacheable.Get "pengguna:semua" w.st).2,
          w.trace ++ [⟨.cacheGet "pengguna:semua", false⟩]⟩)) := by
  constructor
  · intro σ s w data L hget hne hdec
    simp [todoService.FindAll, World.call, hget, hne, hdec, Except.toOption, HasErr.err]
  · intro σ s w data L hget hne hdec
    simp [userService.FindAll, World.call, hget, hne, hdec, Except.toOption, HasErr.err]

/-- C2. A cache miss of `todoService.FindAll`: when `Get` returns no error and
a value that is empty or does not decode, and the persistence `FindAll`
returns the non-nil list `L` with no error, and `L` encodes to `b`, then the
calls of `FindAll` are the `Get`, one persistence `FindAll` and one `Set` of
`b` under `go-todo-api:todos:find-all` for five minutes, and it returns `L`
and no error. -/
theorem todo_FindAll_cache_miss (J : Json) (σ : Type) (s : todoService σ) (w : World σ)
    (data : String) (L : List Todo) (b : String)
    (hget : (s.cacheable.Get "go-todo-api:todos:find-all" w.st).1 = (data, none))
    (hmiss : data = "" ∨ ∃ e, J.unmarshalTodos data = .error e)
    (hrepo : (s.todoRepository.FindAll
      (s.cacheable.Get "go-todo-api:todos:find-all" w.st).2).1 = (some L, none))
    (henc : J.marshalTodos (some L) = .ok b) :
    (s.FindAll J w).1 = (some L, none) ∧
    (s.FindAll J w).2.trace = w.trace ++
      [⟨.cacheGet "go-todo-api:todos:find-all", false⟩, ⟨.todoFindAll, false⟩,
        ⟨.cacheSet "go-todo-api:todos:find-all" b (5 * Minute),
          (s.cacheable.Set "go-todo-api:todos:find-all" b (5 * Minute)
            (s.todoRepository.FindAll
              (s.cacheable.Get "go-todo-api:todos:find-all" w.st).2).2).1.isSome⟩] ∧
    (s.FindAll J w).2.st =
      (s.cacheable.Set "go-todo-api:todos:find-all" b (5 * Minute)
        (s.todoRepository.FindAll (s.cacheable.Get "go-todo-api:todos:find-all" w.st).2).2).2 ∧
    5 * Minute = 300 * Second := by
  have h5 : 5 * Minute = 300 * Second := by simp only [Minute]; omega
  rcases hmiss with h | ⟨e, h⟩ <;>
    simp [todoService.FindAll, World.call, hget, h, hrepo, henc, Except.toOption, HasErr.err, h5]

/-- C3. A cache miss of `userService.FindAll`: when `Get` returns no error and
a value that is empty or does not decode, and the persistence `FindAll`
returns the list `L` with no error, and `L` encodes to `b`, then `FindAll`
calls `Set` once, with `b` under `pengguna:semua` for five minutes, and
returns `L` and no error. In the Go encoding every list of users encodes. -/
theorem user_FindAll_cache_miss (J : Json) (σ : Type) (s : userService σ) (w : World σ)
    (data : String) (L : Slice User) (b : String)
    (hget : (s.cacheable.Get "pengguna:semua" w.st).1 = (data, none))
    (hmiss : data = "" ∨ ∃ e, J.unmarshalUsers data = .error e)
    (hrepo : (s.userRepository.FindAll (s.cacheable.Get "pengguna:semua" w.st).2).1 = (L, none))
    (henc : J.marshalUsers L = .ok b) :
    (s.FindAll J w).1 = (L, none) ∧
    (s.FindAll J w).2.trace = w.trace ++
      [⟨.cacheGet "pengguna:semua", false⟩, ⟨.userFindAll, false⟩,
        ⟨.cacheSet "pengguna:semua" b (5 * Minute),
          (s.cacheable.Set "pengguna:semua" b (5 * Minute)
            (s.userRepository.FindAll (s.cacheable.Get "pengguna:semua" w.st).2).2).1.isSome⟩] ∧
    5 * Minute = 300 * Second ∧
    (∀ (T : TimeText) (L1 : Slice User), ∃ b1, (goJson T).marshalUsers L1 = .ok b1) := by
  have h5 : 5 * Minute = 300 * Second := by simp only [Minute]; omega
  refine ⟨?_, ?_, h5, marshalUsers_ok⟩ <;>
    rcases hmiss with h | ⟨e, h⟩ <;>
    simp [userService.FindAll, World.call, hget, h, hrepo, henc, Except.toOption, HasErr.err, h5]

/-- The theorem of C1 at the cached texts of the tests: the decoded lists come
back and the trace holds the one `Get`. -/
theorem FindAll_cache_hit_witness :
    (mockTodoService (sampleTodosText, none) none (none, some dbError)).FindAll
        (goJson rfc3339UTC) (World.init ()) =
      ((some [sampleTodo], none), ⟨(), [⟨.cacheGet "go-todo-api:todos:find-all", false⟩]⟩) ∧
    (mockUserService (sampleUsersText, none) none (none, some dbError)).FindAll
        (goJson rfc3339UTC) (World.init ()) =
      ((some [sampleUser], none), ⟨(), [⟨.cacheGet "pengguna:semua", false⟩]⟩) :=
  ⟨(FindAll_cache_hit (goJson rfc3339UTC)).1 Unit
      (mockTodoService (sampleTodosText, none) none (none, some dbError)) (World.init ())
      sampleTodosText (some [sampleTodo]) rfl (by decide) (by decide),
    (FindAll_cache_hit (goJson rfc3339UTC)).2 Unit
      (mockUserService (sampleUsersText, none) none (none, some dbError)) (World.init ())
      sampleUsersText (some [sampleUser]) rfl (by decide) (by decide)⟩

/-- The theorem of C2 at the test `ErrorDuringUnmarshal`: the cache holds
`invalid data`, the repository returns the sample list. -/
theorem todo_FindAll_cache_miss_witness :
    ((mockTodoService ("invalid data", none) none (some [sampleTodo], none)).FindAll
        (goJson rfc3339UTC) (World.init ())).1 = (some [sampleTodo], none) ∧
    ((mockTodoService ("invalid data", none) none (some [sampleTodo], none)).FindAll
        (goJson rfc3339UTC) (World.init ())).2.trace =
      [⟨.cacheGet "go-todo-api:todos:find-all", false⟩, ⟨.todoFindAll, false⟩,
        ⟨.cacheSet "go-todo-api:todos:find-all" sampleTodosText 300000000000, false⟩] :=
  have h := todo_FindAll_cache_miss (goJson rfc3339UTC) Unit
    (mockTodoService ("invalid data", none) none (some [sampleTodo], none)) (World.init ())
    "invalid data" [sampleTodo] sampleTodosText rfl (Or.inr ⟨SyntaxError, by decide⟩) rfl
    (by decide)
  ⟨h.1, h.2.1⟩

/-- The theorem of C3 at the test `CacheMiss`: the cache holds nothing, the
repository returns the sample list. -/
theorem user_FindAll_cache_miss_witness :
    ((mockUserService ("", none) none (some [sampleUser], none)).FindAll
        (goJson rfc3339UTC) (World.init ())).1 = (some [sampleUser], none) ∧
    ((mockUserService ("", none) none (some [sampleUser], none)).FindAll
        (goJson rfc3339UTC) (World.init ())).2.trace =
      [⟨.cacheGet "pengguna:semua", false⟩, ⟨.userFindAll, false⟩,
        ⟨.cacheSet "pengguna:semua" sampleUsersText 300000000000, false⟩] :=
  have h := user_FindAll_cache_miss (goJson rfc3339UTC) Unit
    (mockUserService ("", none) none (some [sampleUser], none)) (World.init ())
    "" (some [sampleUser]) sampleUsersText rfl (Or.inl rfl) rfl (by decide)
  ⟨h.1, h.2.1⟩

/-- C7. A cache error of `todoService.FindAll`: when `Get` returns the error
`e`, `FindAll` returns the nil list and `e`, and the only call it makes is
that `Get`: neither the persistence `FindAll` nor the cache `Set` is called. -/
theorem todo_FindAll_cache_error (J : Json) (σ : Type) (s : todoService σ) (w : World σ)
    (data : String) (e : GoError)
    (hget : (s.cacheable.Get "go-todo-api:todos:find-all" w.st).1 = (data, some e)) :
    s.FindAll J w = ((none, some e),
      ⟨(s.cacheable.Get "go-todo-api:todos:find-all" w.st).2,
        w.trace ++ [⟨.cacheGet "go-todo-api:todos:find-all", true⟩]⟩) := by
  simp [todoService.FindAll, World.call, hget, HasErr.err]

/-- The theorem of C7 at the test `CacheError`. -/
theorem todo_FindAll_cache_error_witness :
    (mockTodoService ("", some (.new "cache error")) none (some [sampleTodo], none)).FindAll
        (goJson rfc3339UTC) (World.init ()) =
      ((none, some (.new "cache error")),
        ⟨(), [⟨.cacheGet "go-todo-api:todos:find-all", true⟩]⟩) :=
  todo_FindAll_cache_error (goJson rfc3339UTC) Unit
    (mockTodoService ("", some (.new "cache error")) none (some [sampleTodo], none))
    (World.init ()) "" (.new "cache error") rfl

/-- C8. A cache error of `userService.FindAll`: when `Get` returns an error,
`FindAll` calls the persistence `FindAll` and returns what it returns on a
miss (the result and the state are those of the service whose `Get` answers
with the empty value and no error), so the cache error is not returned. When
persistence returns the list `L` and no error and `L` encodes to `b`, `b` is
stored under `pengguna:semua` for five minutes and `L` is returned with no
error. -/
theorem user_FindAll_cache_error (J : Json) (σ : Type) (s : userService σ) (w : World σ)
    (data : String) (e : GoError)
    (hget : (s.cacheable.Get "pengguna:semua" w.st).1 = (data, some e)) :
    (s.FindAll J w).1 = (s.withMiss.FindAll J w).1 ∧
    (s.FindAll J w).2.st = (s.withMiss.FindAll J w).2.st ∧
    (∃ rest, (s.FindAll J w).2.trace = w.trace ++
      ⟨.cacheGet "pengguna:semua", true⟩ ::
      ⟨.userFindAll, (s.userRepository.FindAll
        (s.cacheable.Get "pengguna:semua" w.st).2).1.2.isSome⟩ :: rest) ∧
    (∀ (L : Slice User) (b : String),
      (s.userRepository.FindAll (s.cacheable.Get "pengguna:semua" w.st).2).1 = (L, none) →
      J.marshalUsers L = .ok b →
      (s.FindAll J w).1 = (L, none) ∧
      (s.FindAll J w).2.trace = w.trace ++
        [⟨.cacheGet "pengguna:semua", true⟩, ⟨.userFindAll, false⟩,
          ⟨.cacheSet "pengguna:semua" b (5 * Minute),
            (s.cacheable.Set "pengguna:semua" b (5 * Minute)
              (s.userRepository.FindAll
                (s.cacheable.Get "pengguna:semua" w.st).2).2).1.isSome⟩]) := by
  rcases hr : (s.userRepository.FindAll (s.cacheable.Get "pengguna:semua" w.st).2).1
    with ⟨users, _ | err⟩
  · rcases hm : J.marshalUsers users with e1 | b1
    · refine ⟨?_, ?_, ⟨[], ?_⟩, ?_⟩
      · simp [userService.FindAll, userService.withMiss, World.call, hget, hr, hm]
      · simp [userService.FindAll, userService.withMiss, World.call, hget, hr, hm]
      · simp [userService.FindAll, World.call, hget, hr, hm, HasErr.err]
      · intro L b hL hb
        simp only [Prod.mk.injEq] at hL
        rw [← hL.1, hm] at hb
        cases hb
    · refine ⟨?_, ?_, ⟨[⟨.cacheSet "pengguna:semua" b1 (5 * Minute),
        (s.cacheable.Set "pengguna:semua" b1 (5 * Minute)
          (s.userRepository.FindAll (s.cacheable.Get "pengguna:semua" w.st).2).2).1.isSome⟩],
        ?_⟩, ?_⟩
      · simp [userService.FindAll, userService.withMiss, World.call, hget, hr, hm]
      · simp [userService.FindAll, userService.withMiss, World.call, hget, hr, hm]
      · simp [userService.FindAll, World.call, hget, hr, hm, HasErr.err]
      · intro L b hL hb
        simp only [Prod.mk.injEq] at hL
        rw [← hL.1, hm] at hb
        cases hb
        simp [userService.FindAll, World.call, hget, hr, hm, HasErr.err, ← hL.1]
  · refine ⟨?_, ?_, ⟨[], ?_⟩, ?_⟩
    · simp [userService.FindAll, userService.withMiss, World.call, hget, hr]
    · simp [userService.FindAll, userService.withMiss, World.call, hget, hr]
    · simp [userService.FindAll, World.call, hget, hr, HasErr.err]
    · intro L b hL hb
      simp at hL

/-- The theorem of C8 at the test `CacheError`: the cache fails, the
repository returns the sample list. -/
theorem user_FindAll_cache_error_witness :
    ((mockUserService ("", some (.new "cache error")) none (some [sampleUser], none)).FindAll
        (goJson rfc3339UTC) (World.init ())).1 = (some [sampleUser], none) ∧
    ((mockUserService ("", some (.new "cache error")) none (some [sampleUser], none)).FindAll
        (goJson rfc3339UTC) (World.init ())).2.trace =
      [⟨.cacheGet "pengguna:semua", true⟩, ⟨.userFindAll, false⟩,
        ⟨.cacheSet "pengguna:semua" sampleUsersText 300000000000, false⟩] :=
  (user_FindAll_cache_error (goJson rfc3339UTC) Unit
    (mockUserService ("", some (.new "cache error")) none (some [sampleUser], none))
    (World.init ()) "" (.new "cache error") rfl).2.2.2 (some [sampleUser]) sampleUsersText rfl
    (by decide)

/-- C9. A persistence error on a cache miss: when the persistence `FindAll`
returns the error `e`, `todoService.FindAll` returns the nil list and `e`
itself, `userService.FindAll` returns the nil list and an error that wraps
`e`, and neither calls the cache `Set`: the calls are the `Get` and the
persistence `FindAll`. For the user service a failed `Get` is a miss too. -/
theorem FindAll_persistence_error (J : Json) :
    (∀ (σ : Type) (s : todoService σ) (w : World σ) (data : String) (r : Slice Todo)
      (e : GoError),
      (s.cacheable.Get "go-todo-api:todos:find-all" w.st).1 = (data, none) →
      (data = "" ∨ ∃ e1, J.unmarshalTodos data = .error e1) →
      (s.todoRepository.FindAll
        (s.cacheable.Get "go-todo-api:todos:find-all" w.st).2).1 = (r, some e) →
      s.FindAll J w = ((none, some e),
        ⟨(s.todoRepository.FindAll (s.cacheable.Get "go-todo-api:todos:find-all" w.st).2).2,
          w.trace ++ [⟨.cacheGet "go-todo-api:todos:find-all", false⟩,
            ⟨.todoFindAll, true⟩]⟩)) ∧
    (∀ (σ : Type) (s : userService σ) (w : World σ) (data : String) (cerr : Option GoError)
      (r : Slice User) (e : GoError),
      (s.cacheable.Get "pengguna:semua" w.st).1 = (data, cerr) →
      (cerr ≠ none ∨ data = "" ∨ ∃ e1, J.unmarshalUsers data = .error e1) →
      (s.userRepository.FindAll (s.cacheable.Get "pengguna:semua" w.st).2).1 = (r, some e) →
      s.FindAll J w = ((none, some (Errorf_w "gagal mengambil data pengguna: " e)),
        ⟨(s.userRepository.FindAll (s.cacheable.Get "pengguna:semua" w.st).2).2,
          w.trace ++ [⟨.cacheGet "pengguna:semua", cerr.isSome⟩, ⟨.userFindAll, true⟩]⟩) ∧
      (Errorf_w "gagal mengambil data pengguna: " e).Unwrap = some e ∧
      (Errorf_w "gagal mengambil data pengguna: " e).Error =
        "gagal mengambil data pengguna: " ++ e.Error) := by
  constructor
  · intro σ s w data r e hget hmiss hrepo
    rcases hmiss with h | ⟨e1, h⟩ <;>
      simp [todoService.FindAll, World.call, hget, h, hrepo, Except.toOption, HasErr.err]
  · intro σ s w data cerr r e hget hmiss hrepo
    refine ⟨?_, rfl, rfl⟩
    rcases hmiss with h | h | ⟨e1, h⟩
    · cases cerr with
      | none => exact absurd rfl h
      | some c => simp [userService.FindAll, World.call, hget, hrepo, HasErr.err]
    · simp [userService.FindAll, World.call, hget, h, hrepo, Except.toOption, HasErr.err]
    · simp [userService.FindAll, World.call, hget, h, hrepo, Except.toOption, HasErr.err]

/-- The theorem of C9 at the test `RepoErrorOnCacheMiss`, for both services. -/
theorem FindAll_persistence_error_witness :
    (mockTodoService ("", none) none (none, some (.new "repository error"))).FindAll
        (goJson rfc3339UTC) (World.init ()) =
      ((none, some (.new "repository error")),
        ⟨(), [⟨.cacheGet "go-todo-api:todos:find-all", false⟩, ⟨.todoFindAll, true⟩]⟩) ∧
    (mockUserService ("", none) none (none, some (.new "repository error"))).FindAll
        (goJson rfc3339UTC) (World.init ()) =
      ((none, some (.wrapped "gagal mengambil data pengguna: repository error"
          (.new "repository error"))),
        ⟨(), [⟨.cacheGet "pengguna:semua", false⟩, ⟨.userFindAll, true⟩]⟩) :=
  ⟨(FindAll_persistence_error (goJson rfc3339UTC)).1 Unit
      (mockTodoService ("", none) none (none, some (.new "repository error"))) (World.init ())
      "" none (.new "repository error") rfl (Or.inl rfl) rfl,
    ((FindAll_persistence_error (goJson rfc3339UTC)).2 Unit
      (mockUserService ("", none) none (none, some (.new "repository error"))) (World.init ())
      "" none none (.new "repository error") rfl (Or.inr (Or.inl rfl)) rfl).1⟩

/-- The invalidation policy holds of `todoService.Create`. -/
theorem todo_Create_invalidates {σ : Type} (s : todoService σ) (todo : Todo) (w : World σ) :
    InvalidatesAfterMutation "go-todo-api:todos:find-all" (s.Create todo w).1.2.isSome w
      (s.Create todo w).2 := by
  rcases h : (s.todoRepository.Create todo w.st).1 with ⟨t, _ | e⟩
  · refine ⟨[⟨.todoCreate todo, false⟩, ⟨.cacheDelete "go-todo-api:todos:find-all",
      (s.cacheable.Delete "go-todo-api:todos:find-all"
        (s.todoRepository.Create todo w.st).2).1.isSome⟩], ?_, ?_, ?_⟩
    · simp [todoService.Create, World.call, h, HasErr.err]
    · simp [todoService.Create, World.call, h]
    · intro _
      exact ⟨[], _, _, rfl, rfl, rfl, rfl, by simp⟩
  · refine ⟨[⟨.todoCreate todo, true⟩], ?_, ?_, ?_⟩
    · simp [todoService.Create, World.call, h, HasErr.err]
    · intro _
      simp [Call.isCache, Call.isMutation]
    · simp [todoService.Create, World.call, h]

/-- The invalidation policy holds of `todoService.Update`. -/
theorem todo_Update_invalidates {σ : Type} (s : todoService σ) (id : Int) (todo : Todo)
    (w : World σ) :
    InvalidatesAfterMutation "go-todo-api:todos:find-all" (s.Update id todo w).1.error.failed w
      (s.Update id todo w).2 := by
  rcases h : (s.todoRepository.FindByID id w.st).1 with ⟨_ | ex, _ | e⟩
  · refine ⟨[⟨.todoFindByID id, false⟩], ?_, ?_, ?_⟩
    · simp [todoService.Update, World.call, h, HasErr.err]
    · intro _
      simp [Call.isCache, Call.isMutation]
    · simp [todoService.Update, World.call, h, Outcome.error, Outcome.failed]
  · refine ⟨[⟨.todoFindByID id, true⟩], ?_, ?_, ?_⟩
    · simp [todoService.Update, World.call, h, HasErr.err]
    · intro _
      simp [Call.isCache, Call.isMutation]
    · simp [todoService.Update, World.call, h, Outcome.error, Outcome.failed]
  · rcases h2 : (s.todoRepository.Update (todoService.mergeTodo ex todo)
      (s.todoRepository.FindByID id w.st).2).1 with ⟨t, _ | e⟩
    · refine ⟨[⟨.todoFindByID id, false⟩, ⟨.todoUpdate (todoService.mergeTodo ex todo), false⟩,
        ⟨.cacheDelete "go-todo-api:todos:find-all",
          (s.cacheable.Delete "go-todo-api:todos:find-all"
            (s.todoRepository.Update (todoService.mergeTodo ex todo)
              (s.todoRepository.FindByID id w.st).2).2).1.isSome⟩], ?_, ?_, ?_⟩
      · simp [todoService.Update, World.call, h, h2, HasErr.err]
      · simp [todoService.Update, World.call, h, h2, Outcome.error, Outcome.failed]
      · intro _
        exact ⟨[⟨.todoFindByID id, false⟩], _, _, rfl, rfl, rfl, rfl,
          by simp [Call.isCache, Call.isMutation]⟩
    · refine ⟨[⟨.todoFindByID id, false⟩,
        ⟨.todoUpdate (todoService.mergeTodo ex todo), true⟩], ?_, ?_, ?_⟩
      · simp [todoService.Update, World.call, h, h2, HasErr.err]
      · intro _
        simp [Call.isCache, Call.isMutation]
      · simp [todoService.Update, World.call, h, h2, Outcome.error, Outcome.failed]
  · refine ⟨[⟨.todoFindByID id, true⟩], ?_, ?_, ?_⟩
    · simp [todoService.Update, World.call, h, HasErr.err]
    · intro _
      simp [Call.isCache, Call.isMutation]
    · simp [todoService.Update, World.call, h, Outcome.error, Outcome.failed]

/-- The invalidation policy holds of `todoService.Delete`. -/
theorem todo_Delete_invalidates {σ : Type} (s : todoService σ) (id : Int) (w : World σ) :
    InvalidatesAfterMutation "go-todo-api:todos:find-all" (s.Delete id w).1.isSome w
      (s.Delete id w).2 := by
  rcases h : (s.todoRepository.FindByID id w.st).1 with ⟨ex, _ | e⟩
  · rcases h2 : (s.todoRepository.Delete id (s.todoRepository.FindByID id w.st).2).1
      with _ | e
    · refine ⟨[⟨.todoFindByID id, false⟩, ⟨.todoDelete id, false⟩,
        ⟨.cacheDelete "go-todo-api:todos:find-all",
          (s.cacheable.Delete "go-todo-api:todos:find-all"
            (s.todoRepository.Delete id (s.todoRepository.FindByID id w.st).2).2).1.isSome⟩],
        ?_, ?_, ?_⟩
      · simp [todoService.Delete, World.call, h, h2, HasErr.err]
      · simp [todoService.Delete, World.call, h, h2]
      · intro _
        exact ⟨[⟨.todoFindByID id, false⟩], _, _, rfl, rfl, rfl, rfl,
          by simp [Call.isCache, Call.isMutation]⟩
    · refine ⟨[⟨.todoFindByID id, false⟩, ⟨.todoDelete id, true⟩], ?_, ?_, ?_⟩
      · simp [todoService.Delete, World.call, h, h2, HasErr.err]
      · intro _
        simp [Call.isCache, Call.isMutation]
      · simp [todoService.Delete, World.call, h, h2]
  · refine ⟨[⟨.todoFindByID id, true⟩], ?_, ?_, ?_⟩
    · simp [todoService.Delete, World.call, h, HasErr.err]
    · intro _
      simp [Call.isCache, Call.isMutation]
    · simp [todoService.Delete, World.call, h]

/-- Calls that are neither cache calls nor mutations may precede an operation
that keeps the invalidation policy. -/
theorem InvalidatesAfterMutation.prepend {σ : Type} {key : String} {failed : Bool}
    {w w1 w2 : World σ} (pre0 : List Event) (h0 : w1.trace = w.trace ++ pre0)
    (hpre : ∀ ev ∈ pre0, ev.call.isCache = false ∧ ev.call.isMutation = false)
    (h : InvalidatesAfterMutation key failed w1 w2) :
    InvalidatesAfterMutation key failed w w2 := by
  obtain ⟨cs, htr, hf, hs⟩ := h
  refine ⟨pre0 ++ cs, by rw [htr, h0, List.append_assoc], ?_, ?_⟩
  · intro hfail
    obtain ⟨hc, hm⟩ := hf hfail
    constructor
    · intro ev hev
      rcases List.mem_append.1 hev with h1 | h1
      · exact (hpre ev h1).1
      · exact hc ev h1
    · intro ev hev hmut
      rcases List.mem_append.1 hev with h1 | h1
      · rw [(hpre ev h1).2] at hmut
        cases hmut
      · exact hm ev h1 hmut
  · intro hok
    obtain ⟨pre, m, d, hcs, h1, h2, h3, h4⟩ := hs hok
    refine ⟨pre0 ++ pre, m, d, by rw [hcs, List.append_assoc], h1, h2, h3, ?_⟩
    intro ev hev
    rcases List.mem_append.1 hev with h5 | h5
    · exact hpre ev h5
    · exact h4 ev h5

/-- An operation that stops after calls that are neither cache calls nor
mutations, and fails, keeps the invalidation policy. -/
theorem InvalidatesAfterMutation.of_failed {σ : Type} {key : String} {w w1 : World σ}
    (cs : List Event) (h0 : w1.trace = w.trace ++ cs)
    (hcs : ∀ ev ∈ cs, ev.call.isCache = false ∧ (ev.call.isMutation = true → ev.failed = true)) :
    InvalidatesAfterMutation key true w w1 :=
  ⟨cs, h0, fun _ => ⟨fun ev hev => (hcs ev hev).1, fun ev hev => (hcs ev hev).2⟩,
    fun h => by cases h⟩

/-- The invalidation policy holds of the tail of `userService.UpdateUser`. -/
theorem user_updateTail_invalidates {σ : Type} (s : userService σ) (eu : Option User)
    (w : World σ) :
    InvalidatesAfterMutation "pengguna:semua" (userService.updateTail s eu w).1.error.failed w
      (userService.updateTail s eu w).2 := by
  rcases h : (s.userRepository.Update eu w.st).1 with ⟨u, _ | e⟩
  · refine ⟨[⟨.userUpdate eu, false⟩, ⟨.cacheDelete "pengguna:semua",
      (s.cacheable.Delete "pengguna:semua" (s.userRepository.Update eu w.st).2).1.isSome⟩],
      ?_, ?_, ?_⟩
    · simp [userService.updateTail, World.call, h, HasErr.err]
    · simp [userService.updateTail, World.call, h, Outcome.error, Outcome.failed]
    · intro _
      exact ⟨[], _, _, rfl, rfl, rfl, rfl, by simp⟩
  · have hf : (userService.updateTail s eu w).1.error.failed = true := by
      simp [userService.updateTail, World.call, h, Outcome.error, Outcome.failed]
    rw [hf]
    refine InvalidatesAfterMutation.of_failed [⟨.userUpdate eu, true⟩] ?_ ?_
    · simp [userService.updateTail, World.call, h, HasErr.err]
    · simp [Call.isCache]

/-- The invalidation policy holds of `userService.CreateUser`. -/
theorem user_CreateUser_invalidates {σ : Type} (s : userService σ) (user : User) (w : World σ) :
    InvalidatesAfterMutation "pengguna:semua" (s.CreateUser user w).1.2.1.isSome w
      (s.CreateUser user w).2 := by
  rcases h : (s.userRepository.FindByUsername user.Username w.st).1 with ⟨x, _ | e⟩
  · have hf : (s.CreateUser user w).1.2.1.isSome = true := by
      simp [userService.CreateUser, World.call, h]
    rw [hf]
    refine InvalidatesAfterMutation.of_failed [⟨.userFindByUsername user.Username, false⟩] ?_ ?_
    · simp [userService.CreateUser, World.call, h, HasErr.err]
    · simp [Call.isCache, Call.isMutation]
  · rcases h2 : (s.bcrypt.GenerateFromPassword user.Password
      (s.userRepository.FindByUsername user.Username w.st).2).1 with ⟨hp, _ | e2⟩
    · rcases h3 : (s.userRepository.Create { user with Password := hp }
        (s.bcrypt.GenerateFromPassword user.Password
          (s.userRepository.FindByUsername user.Username w.st).2).2).1 with ⟨c, _ | e3⟩
      · refine ⟨[⟨.userFindByUsername user.Username, true⟩,
          ⟨.bcryptGenerate user.Password, false⟩,
          ⟨.userCreate { user with Password := hp }, false⟩,
          ⟨.cacheDelete "pengguna:semua",
            (s.cacheable.Delete "pengguna:semua"
              (s.userRepository.Create { user with Password := hp }
                (s.bcrypt.GenerateFromPassword user.Password
                  (s.userRepository.FindByUsername user.Username w.st).2).2).2).1.isSome⟩],
          ?_, ?_, ?_⟩
        · simp [userService.CreateUser, World.call, h, h2, h3, HasErr.err]
        · simp [userService.CreateUser, World.call, h, h2, h3]
        · intro _
          exact ⟨[⟨.userFindByUsername user.Username, true⟩,
            ⟨.bcryptGenerate user.Password, false⟩], _, _, rfl, rfl, rfl, rfl,
            by simp [Call.isCache, Call.isMutation]⟩
      · have hf : (s.CreateUser user w).1.2.1.isSome = true := by
          simp [userService.CreateUser, World.call, h, h2, h3]
        rw [hf]
        refine InvalidatesAfterMutation.of_failed [⟨.userFindByUsername user.Username, true⟩,
          ⟨.bcryptGenerate user.Password, false⟩,
          ⟨.userCreate { user with Password := hp }, true⟩] ?_ ?_
        · simp [userService.CreateUser, World.call, h, h2, h3, HasErr.err]
        · simp [Call.isCache, Call.isMutation]
    · have hf : (s.CreateUser user w).1.2.1.isSome = true := by
        simp [userService.CreateUser, World.call, h, h2]
      rw [hf]
      refine InvalidatesAfterMutation.of_failed [⟨.userFindByUsername user.Username, true⟩,
        ⟨.bcryptGenerate user.Password, true⟩] ?_ ?_
      · simp [userService.CreateUser, World.call, h, h2, HasErr.err]
      · simp [Call.isCache, Call.isMutation]

/-- The invalidation policy holds of `userService.DeleteUser`. -/
theorem user_DeleteUser_invalidates {σ : Type} (s : userService σ) (id : Int) (w : World σ) :
    InvalidatesAfterMutation "pengguna:semua" (s.DeleteUser id w).1.isSome w
      (s.DeleteUser id w).2 := by
  by_cases hid : id ≤ 0
  · have hf : (s.DeleteUser id w).1.isSome = true := by simp [userService.DeleteUser, hid]
    rw [hf]
    refine InvalidatesAfterMutation.of_failed [] ?_ ?_
    · simp [userService.DeleteUser, hid]
    · simp
  · rcases h : (s.userRepository.FindByID id w.st).1 with ⟨ex, _ | e⟩
    · rcases h2 : (s.userRepository.Delete id (s.userRepository.FindByID id w.st).2).1
        with _ | e
      · refine ⟨[⟨.userFindByID id, false⟩, ⟨.userDelete id, false⟩,
          ⟨.cacheDelete "pengguna:semua",
            (s.cacheable.Delete "pengguna:semua"
              (s.userRepository.Delete id (s.userRepository.FindByID id w.st).2).2).1.isSome⟩],
          ?_, ?_, ?_⟩
        · simp [userService.DeleteUser, hid, World.call, h, h2, HasErr.err]
        · simp [userService.DeleteUser, hid, World.call, h, h2]
        · intro _
          exact ⟨[⟨.userFindByID id, false⟩], _, _, rfl, rfl, rfl, rfl,
            by simp [Call.isCache, Call.isMutation]⟩
      · have hf : (s.DeleteUser id w).1.isSome = true := by
          simp [userService.DeleteUser, hid, World.call, h, h2]
        rw [hf]
        refine InvalidatesAfterMutation.of_failed [⟨.userFindByID id, false⟩,
          ⟨.userDelete id, true⟩] ?_ ?_
        · simp [userService.DeleteUser, hid, World.call, h, h2, HasErr.err]
        · simp [Call.isCache, Call.isMutation]
    · have hf : (s.DeleteUser id w).1.isSome = true := by
        simp [userService.DeleteUser, hid, World.call, h]
      rw [hf]
      refine InvalidatesAfterMutation.of_failed [⟨.userFindByID id, true⟩] ?_ ?_
      · simp [userService.DeleteUser, hid, World.call, h, HasErr.err]
      · simp [Call.isCache, Call.isMutation]

/-- The invalidation policy holds of `userService.UpdateUser`. -/
theorem user_UpdateUser_invalidates {σ : Type} (s : userService σ) (user : User) (w : World σ) :
    InvalidatesAfterMutation "pengguna:semua" (s.UpdateUser user w).1.error.failed w
      (s.UpdateUser user w).2 := by
  by_cases hid : user.ID ≤ 0
  · have hf : (s.UpdateUser user w).1.error.failed = true := by
      simp [userService.UpdateUser, hid, Outcome.error, Outcome.failed]
    rw [hf]
    refine InvalidatesAfterMutation.of_failed [] ?_ ?_
    · simp [userService.UpdateUser, hid]
    · simp
  · rcases h : (s.userRepository.FindByID user.ID w.st).1 with ⟨_ | ex, _ | e⟩
    · by_cases hn : user.FullName ≠ "" ∨ user.Role ≠ "" ∨ user.Username ≠ ""
      · have hf : (s.UpdateUser user w).1.error.failed = true := by
          simp [userService.UpdateUser, hid, World.call, h, hn, Outcome.error, Outcome.failed]
        rw [hf]
        refine InvalidatesAfterMutation.of_failed [⟨.userFindByID user.ID, false⟩] ?_ ?_
        · simp [userService.UpdateUser, hid, World.call, h, hn, HasErr.err]
        · simp [Call.isCache, Call.isMutation]
      · by_cases hp : user.Password ≠ ""
        · rcases h2 : (s.bcrypt.GenerateFromPassword user.Password
            (s.userRepository.FindByID user.ID w.st).2).1 with ⟨hh, _ | e2⟩
          · have hf : (s.UpdateUser user w).1.error.failed = true := by
              simp [userService.UpdateUser, hid, World.call, h, hn, hp, h2, Outcome.error,
                Outcome.failed]
            rw [hf]
            refine InvalidatesAfterMutation.of_failed [⟨.userFindByID user.ID, false⟩,
              ⟨.bcryptGenerate user.Password, false⟩] ?_ ?_
            · simp [userService.UpdateUser, hid, World.call, h, hn, hp, h2, HasErr.err]
            · simp [Call.isCache, Call.isMutation]
          · have hf : (s.UpdateUser user w).1.error.failed = true := by
              simp [userService.UpdateUser, hid, World.call, h, hn, hp, h2, Outcome.error,
                Outcome.failed]
            rw [hf]
            refine InvalidatesAfterMutation.of_failed [⟨.userFindByID user.ID, false⟩,
              ⟨.bcryptGenerate user.Password, true⟩] ?_ ?_
            · simp [userService.UpdateUser, hid, World.call, h, hn, hp, h2, HasErr.err]
            · simp [Call.isCache, Call.isMutation]
        · have heq : s.UpdateUser user w = userService.updateTail s none
              ⟨(s.userRepository.FindByID user.ID w.st).2,
                w.trace ++ [⟨.userFindByID user.ID, false⟩]⟩ := by
            simp [userService.UpdateUser, hid, World.call, h, hn, hp, HasErr.err]
          rw [heq]
          exact InvalidatesAfterMutation.prepend [⟨.userFindByID user.ID, false⟩] rfl
            (by simp [Call.isCache, Call.isMutation]) (user_updateTail_invalidates s none _)
    · have hf : (s.UpdateUser user w).1.error.failed = true := by
        simp [userService.UpdateUser, hid, World.call, h, Outcome.error, Outcome.failed]
      rw [hf]
      refine InvalidatesAfterMutation.of_failed [⟨.userFindByID user.ID, true⟩] ?_ ?_
      · simp [userService.UpdateUser, hid, World.call, h, HasErr.err]
      · simp [Call.isCache, Call.isMutation]
    · by_cases hp : user.Password ≠ ""
      · rcases h2 : (s.bcrypt.GenerateFromPassword user.Password
          (s.userRepository.FindByID user.ID w.st).2).1 with ⟨hh, _ | e2⟩
        · have heq : s.UpdateUser user w = userService.updateTail s
              (some { userService.mergeUser ex user with Password := hh })
              ⟨(s.bcrypt.GenerateFromPassword user.Password
                  (s.userRepository.FindByID user.ID w.st).2).2,
                w.trace ++ [⟨.userFindByID user.ID, false⟩,
                  ⟨.bcryptGenerate user.Password, false⟩]⟩ := by
            simp [userService.UpdateUser, hid, World.call, h, hp, h2, HasErr.err]
          rw [heq]
          exact InvalidatesAfterMutation.prepend [⟨.userFindByID user.ID, false⟩,
            ⟨.bcryptGenerate user.Password, false⟩] rfl
            (by simp [Call.isCache, Call.isMutation]) (user_updateTail_invalidates s _ _)
        · have hf : (s.UpdateUser user w).1.error.failed = true := by
            simp [userService.UpdateUser, hid, World.call, h, hp, h2, Outcome.error,
              Outcome.failed]
          rw [hf]
          refine InvalidatesAfterMutation.of_failed [⟨.userFindByID user.ID, false⟩,
            ⟨.bcryptGenerate user.Password, true⟩] ?_ ?_
          · simp [userService.UpdateUser, hid, World.call, h, hp, h2, HasErr.err]
          · simp [Call.isCache, Call.isMutation]
      · have heq : s.UpdateUser user w = userService.updateTail s
            (some (userService.mergeUser ex user))
            ⟨(s.userRepository.FindByID user.ID w.st).2,
              w.trace ++ [⟨.userFindByID user.ID, false⟩]⟩ := by
          simp [userService.UpdateUser, hid, World.call, h, hp, HasErr.err]
        rw [heq]
        exact InvalidatesAfterMutation.prepend [⟨.userFindByID user.ID, false⟩] rfl
          (by simp [Call.isCache, Call.isMutation]) (user_updateTail_invalidates s _ _)
    · have hf : (s.UpdateUser user w).1.error.failed = true := by
        simp [userService.UpdateUser, hid, World.call, h, Outcome.error, Outcome.failed]
      rw [hf]
      refine InvalidatesAfterMutation.of_failed [⟨.userFindByID user.ID, true⟩] ?_ ?_
      · simp [userService.UpdateUser, hid, World.call, h, HasErr.err]
      · simp [Call.isCache, Call.isMutation]

/-- C5. For each of the six mutations and every behaviour of the ports: the
calls of the operation hold one cache call, the `Delete` of the list key of
the service, right after its persistence mutation, exactly when that mutation
succeeded, which is when the operation does not fail; and they hold no cache
call at all when the operation fails (returns an error or panics). -/
theorem mutations_invalidate_after_success (σ : Type) (ts : todoService σ) (us : userService σ)
    (w : World σ) :
    (∀ todo, InvalidatesAfterMutation "go-todo-api:todos:find-all"
      (ts.Create todo w).1.2.isSome w (ts.Create todo w).2) ∧
    (∀ id todo, InvalidatesAfterMutation "go-todo-api:todos:find-all"
      (ts.Update id todo w).1.error.failed w (ts.Update id todo w).2) ∧
    (∀ id, InvalidatesAfterMutation "go-todo-api:todos:find-all"
      (ts.Delete id w).1.isSome w (ts.Delete id w).2) ∧
    (∀ user, InvalidatesAfterMutation "pengguna:semua"
      (us.CreateUser user w).1.2.1.isSome w (us.CreateUser user w).2) ∧
    (∀ user, InvalidatesAfterMutation "pengguna:semua"
      (us.UpdateUser user w).1.error.failed w (us.UpdateUser user w).2) ∧
    (∀ id, InvalidatesAfterMutation "pengguna:semua"
      (us.DeleteUser id w).1.isSome w (us.DeleteUser id w).2) :=
  ⟨fun todo => todo_Create_invalidates ts todo w,
    fun id todo => todo_Update_invalidates ts id todo w,
    fun id => todo_Delete_invalidates ts id w,
    fun user => user_CreateUser_invalidates us user w,
    fun user => user_UpdateUser_invalidates us user w,
    fun id => user_DeleteUser_invalidates us id w⟩

/-- What `todoService.FindAll` returns does not depend on the cache writes. -/
theorem todo_FindAll_withWrites {σ : Type} (J : Json) (s : todoService σ)
    (set : String → String → Nat → σ → Option GoError × σ)
    (del : String → σ → Option GoError × σ) (w : World σ) :
    ((s.withWrites set del).FindAll J w).1 = (s.FindAll J w).1 := by
  simp only [todoService.FindAll, todoService.withWrites, World.call]
  repeat' split
  all_goals simp_all

/-- What `userService.FindAll` returns does not depend on the cache writes. -/
theorem user_FindAll_withWrites {σ : Type} (J : Json) (s : userService σ)
    (set : String → String → Nat → σ → Option GoError × σ)
    (del : String → σ → Option GoError × σ) (w : World σ) :
    ((s.withWrites set del).FindAll J w).1 = (s.FindAll J w).1 := by
  simp only [userService.FindAll, userService.withWrites, World.call]
  repeat' split
  all_goals simp_all

/-- What `todoService.Create` returns does not depend on the cache writes. -/
theorem todo_Create_withWrites {σ : Type} (s : todoService σ)
    (set : String → String → Nat → σ → Option GoError × σ)
    (del : String → σ → Option GoError × σ) (todo : Todo) (w : World σ) :
    ((s.withWrites set del).Create todo w).1 = (s.Create todo w).1 := by
  rcases h : (s.todoRepository.Create todo w.st).1 with ⟨t, _ | e⟩ <;>
    simp [todoService.Create, todoService.withWrites, World.call, h]

/-- What `todoService.Update` returns does not depend on the cache writes. -/
theorem todo_Update_withWrites {σ : Type} (s : todoService σ)
    (set : String → String → Nat → σ → Option GoError × σ)
    (del : String → σ → Option GoError × σ) (id : Int) (todo : Todo) (w : World σ) :
    ((s.withWrites set del).Update id todo w).1 = (s.Update id todo w).1 := by
  rcases h : (s.todoRepository.FindByID id w.st).1 with ⟨_ | ex, _ | e⟩
  · simp [todoService.Update, todoService.withWrites, World.call, h]
  · simp [todoService.Update, todoService.withWrites, World.call, h]
  · rcases h2 : (s.todoRepository.Update (todoService.mergeTodo ex todo)
      (s.todoRepository.FindByID id w.st).2).1 with ⟨t, _ | e⟩ <;>
      simp [todoService.Update, todoService.withWrites, World.call, h, h2]
  · simp [todoService.Update, todoService.withWrites, World.call, h]

/-- What `todoService.Delete` returns does not depend on the cache writes. -/
theorem todo_Delete_withWrites {σ : Type} (s : todoService σ)
    (set : String → String → Nat → σ → Option GoError × σ)
    (del : String → σ → Option GoError × σ) (id : Int) (w : World σ) :
    ((s.withWrites set del).Delete id w).1 = (s.Delete id w).1 := by
  rcases h : (s.todoRepository.FindByID id w.st).1 with ⟨ex, _ | e⟩
  · rcases h2 : (s.todoRepository.Delete id (s.todoRepository.FindByID id w.st).2).1
      with _ | e <;>
      simp [todoService.Delete, todoService.withWrites, World.call, h, h2]
  · simp [todoService.Delete, todoService.withWrites, World.call, h]

/-- What `userService.CreateUser` returns does not depend on the cache writes. -/
theorem user_CreateUser_withWrites {σ : Type} (s : userService σ)
    (set : String → String → Nat → σ → Option GoError × σ)
    (del : String → σ → Option GoError × σ) (user : User) (w : World σ) :
    ((s.withWrites set del).CreateUser user w).1 = (s.CreateUser user w).1 := by
  rcases h : (s.userRepository.FindByUsername user.Username w.st).1 with ⟨x, _ | e⟩
  · simp [userService.CreateUser, userService.withWrites, World.call, h]
  · rcases h2 : (s.bcrypt.GenerateFromPassword user.Password
      (s.userRepository.FindByUsername user.Username w.st).2).1 with ⟨hp, _ | e2⟩
    · rcases h3 : (s.userRepository.Create { user with Password := hp }
        (s.bcrypt.GenerateFromPassword user.Password
          (s.userRepository.FindByUsername user.Username w.st).2).2).1 with ⟨c, _ | e3⟩ <;>
        simp [userService.CreateUser, userService.withWrites, World.call, h, h2, h3]
    · simp [userService.CreateUser, userService.withWrites, World.call, h, h2]

/-- What the tail of `userService.UpdateUser` returns does not depend on the
cache writes. -/
theorem user_updateTail_withWrites {σ : Type} (s : userService σ)
    (set : String → String → Nat → σ → Option GoError × σ)
    (del : String → σ → Option GoError × σ) (eu : Option User) (w : World σ) :
    (userService.updateTail (s.withWrites set del) eu w).1 = (userService.updateTail s eu w).1 := by
  rcases h : (s.userRepository.Update eu w.st).1 with ⟨u, _ | e⟩ <;>
    simp [userService.updateTail, userService.withWrites, World.call, h]

/-- What `userService.UpdateUser` returns does not depend on the cache writes. -/
theorem user_UpdateUser_withWrites {σ : Type} (s : userService σ)
    (set : String → String → Nat → σ → Option GoError × σ)
    (del : String → σ → Option GoError × σ) (user : User) (w : World σ) :
    ((s.withWrites set del).UpdateUser user w).1 = (s.UpdateUser user w).1 := by
  have ht := user_updateTail_withWrites s set del
  have hrepo : (s.withWrites set del).userRepository = s.userRepository := rfl
  have hb : (s.withWrites set del).bcrypt = s.bcrypt := rfl
  simp only [userService.UpdateUser, World.call, hrepo, hb]
  repeat' split
  all_goals first
    | rfl
    | exact ht _ _

/-- What `userService.DeleteUser` returns does not depend on the cache writes. -/
theorem user_DeleteUser_withWrites {σ : Type} (s : userService σ)
    (set : String → String → Nat → σ → Option GoError × σ)
    (del : String → σ → Option GoError × σ) (id : Int) (w : World σ) :
    ((s.withWrites set del).DeleteUser id w).1 = (s.DeleteUser id w).1 := by
  by_cases hid : id ≤ 0
  · simp [userService.DeleteUser, hid]
  · rcases h : (s.userRepository.FindByID id w.st).1 with ⟨ex, _ | e⟩
    · rcases h2 : (s.userRepository.Delete id (s.userRepository.FindByID id w.st).2).1
        with _ | e <;>
        simp [userService.DeleteUser, userService.withWrites, hid, World.call, h, h2]
    · simp [userService.DeleteUser, userService.withWrites, hid, World.call, h]

/-- An operation that keeps the invalidation policy and wrote to the cache
did not fail. -/
theorem InvalidatesAfterMutation.write_ok {σ : Type} {key : String} {failed : Bool}
    {w w1 : World σ} (h : InvalidatesAfterMutation key failed w w1) (ev : Event)
    (hev : ev ∈ w.since w1) (hw : ev.call.isCacheWrite = true) : failed = false := by
  obtain ⟨cs, htr, hf, _⟩ := h
  cases failed with
  | false => rfl
  | true =>
    have hmem : ev ∈ cs := by simpa [World.since, htr] using hev
    have hc := (hf rfl).1 ev hmem
    cases hcall : ev.call <;> simp_all [Call.isCache, Call.isCacheWrite]

/-- When `todoService.FindAll` wrote to the cache, it returned no error. -/
theorem todo_FindAll_write_ok {σ : Type} (J : Json) (s : todoService σ) (w : World σ)
    (ev : Event) (hev : ev ∈ w.since (s.FindAll J w).2) (hw : ev.call.isCacheWrite = true) :
    (s.FindAll J w).1.2 = none := by
  rcases h : (s.cacheable.Get "go-todo-api:todos:find-all" w.st).1 with ⟨data, _ | e⟩
  · rcases hd : (if data ≠ "" then (J.unmarshalTodos data).toOption else none) with _ | r
    · rcases h2 : (s.todoRepository.FindAll
        (s.cacheable.Get "go-todo-api:todos:find-all" w.st).2).1 with ⟨r, _ | e⟩
      · simp only [todoService.FindAll, World.call, h, hd, h2]
        repeat' split
        all_goals rfl
      · simp [todoService.FindAll, World.call, World.since, h, hd, h2] at hev
        rcases hev with hev | hev <;> simp [hev, Call.isCacheWrite] at hw
    · simp [todoService.FindAll, World.call, h, hd]
  · simp [todoService.FindAll, World.call, World.since, h] at hev
    simp [hev, Call.isCacheWrite] at hw

/-- When `userService.FindAll` wrote to the cache, it returned no error. -/
theorem user_FindAll_write_ok {σ : Type} (J : Json) (s : userService σ) (w : World σ)
    (ev : Event) (hev : ev ∈ w.since (s.FindAll J w).2) (hw : ev.call.isCacheWrite = true) :
    (s.FindAll J w).1.2 = none := by
  rcases h : (s.cacheable.Get "pengguna:semua" w.st).1 with ⟨data, cerr⟩
  rcases hd : (if cerr = none ∧ data ≠ "" then (J.unmarshalUsers data).toOption else none)
    with _ | r
  · rcases h2 : (s.userRepository.FindAll (s.cacheable.Get "pengguna:semua" w.st).2).1
      with ⟨r, _ | e⟩
    · simp only [userService.FindAll, World.call, h, hd, h2]
      repeat' split
      all_goals rfl
    · simp [userService.FindAll, World.call, World.since, h, hd, h2] at hev
      rcases hev with hev | hev <;> simp [hev, Call.isCacheWrite] at hw
  · simp [userService.FindAll, World.call, h, hd]

/-- C10. Cache writes are best-effort. For `FindAll` and the three mutations
of both services and every behaviour of the ports, what the operation returns
is the same whatever the `Set` and the `Delete` of the cache do and return;
and an operation that called `Set` or `Delete` returns no error, so a failure
of these calls is never returned to the caller. -/
theorem cache_writes_best_effort (J : Json) (σ : Type) (ts : todoService σ)
    (us : userService σ) (set : String → String → Nat → σ → Option GoError × σ)
    (del : String → σ → Option GoError × σ) (w : World σ) :
    (((ts.withWrites set del).FindAll J w).1 = (ts.FindAll J w).1 ∧
      (∀ todo, ((ts.withWrites set del).Create todo w).1 = (ts.Create todo w).1) ∧
      (∀ id todo, ((ts.withWrites set del).Update id todo w).1 = (ts.Update id todo w).1) ∧
      (∀ id, ((ts.withWrites set del).Delete id w).1 = (ts.Delete id w).1) ∧
      ((us.withWrites set del).FindAll J w).1 = (us.FindAll J w).1 ∧
      (∀ user, ((us.withWrites set del).CreateUser user w).1 = (us.CreateUser user w).1) ∧
      (∀ user, ((us.withWrites set del).UpdateUser user w).1 = (us.UpdateUser user w).1) ∧
      (∀ id, ((us.withWrites set del).DeleteUser id w).1 = (us.DeleteUser id w).1)) ∧
    ((∀ ev ∈ w.since (ts.FindAll J w).2, ev.call.isCacheWrite = true →
        (ts.FindAll J w).1.2 = none) ∧
      (∀ todo, ∀ ev ∈ w.since (ts.Create todo w).2, ev.call.isCacheWrite = true →
        (ts.Create todo w).1.2 = none) ∧
      (∀ id todo, ∀ ev ∈ w.since (ts.Update id todo w).2, ev.call.isCacheWrite = true →
        ∃ updated, (ts.Update id todo w).1 = .ret (updated, none)) ∧
      (∀ id, ∀ ev ∈ w.since (ts.Delete id w).2, ev.call.isCacheWrite = true →
        (ts.Delete id w).1 = none) ∧
      (∀ ev ∈ w.since (us.FindAll J w).2, ev.call.isCacheWrite = true →
        (us.FindAll J w).1.2 = none) ∧
      (∀ user, ∀ ev ∈ w.since (us.CreateUser user w).2, ev.call.isCacheWrite = true →
        (us.CreateUser user w).1.2.1 = none) ∧
      (∀ user, ∀ ev ∈ w.since (us.UpdateUser user w).2, ev.call.isCacheWrite = true →
        ∃ updated, (us.UpdateUser user w).1 = .ret (updated, none)) ∧
      (∀ id, ∀ ev ∈ w.since (us.DeleteUser id w).2, ev.call.isCacheWrite = true →
        (us.DeleteUser id w).1 = none)) := by
  have hopt : ∀ o : Option GoError, o.isSome = false → o = none := by
    intro o h
    cases o with
    | none => rfl
    | some e => cases h
  have hout : ∀ {α : Type} (o : Outcome (α × Option GoError)), o.error.failed = false →
      ∃ a, o = .ret (a, none) := by
    intro α o h
    cases o with
    | panic => cases h
    | ret r =>
      obtain ⟨a, e⟩ := r
      cases e with
      | none => exact ⟨a, rfl⟩
      | some e => cases h
  refine ⟨⟨todo_FindAll_withWrites J ts set del w, fun todo => todo_Create_withWrites ts set del todo w,
    fun id todo => todo_Update_withWrites ts set del id todo w,
    fun id => todo_Delete_withWrites ts set del id w, user_FindAll_withWrites J us set del w,
    fun user => user_CreateUser_withWrites us set del user w,
    fun user => user_UpdateUser_withWrites us set del user w,
    fun id => user_DeleteUser_withWrites us set del id w⟩,
    fun ev hev hw => todo_FindAll_write_ok J ts w ev hev hw,
    fun todo ev hev hw => hopt _ ((todo_Create_invalidates ts todo w).write_ok ev hev hw),
    fun id todo ev hev hw => hout _ ((todo_Update_invalidates ts id todo w).write_ok ev hev hw),
    fun id ev hev hw => hopt _ ((todo_Delete_invalidates ts id w).write_ok ev hev hw),
    fun ev hev hw => user_FindAll_write_ok J us w ev hev hw,
    fun user ev hev hw => hopt _ ((user_CreateUser_invalidates us user w).write_ok ev hev hw),
    fun user ev hev hw => hout _ ((user_UpdateUser_invalidates us user w).write_ok ev hev hw),
    fun id ev hev hw => hopt _ ((user_DeleteUser_invalidates us id w).write_ok ev hev hw)⟩

/-- The theorem of C10 at the test `ErrorDuringCacheSet`: the `Set` fails and
`FindAll` returns the list of the repository and no error, as it does when the
`Set` succeeds. -/
theorem cache_writes_best_effort_witness :
    ((mockTodoService ("", none) (some (.new "cache set error")) (some [sampleTodo], none)).FindAll
        (goJson rfc3339UTC) (World.init ())).1 =
      ((mockTodoService ("", none) none (some [sampleTodo], none)).FindAll
        (goJson rfc3339UTC) (World.init ())).1 ∧
    ((mockTodoService ("", none) (some (.new "cache set error")) (some [sampleTodo], none)).FindAll
        (goJson rfc3339UTC) (World.init ())).1 = (some [sampleTodo], none) ∧
    ((mockTodoService ("", none) (some (.new "cache set error")) (some [sampleTodo], none)).FindAll
        (goJson rfc3339UTC) (World.init ())).2.trace =
      [⟨.cacheGet "go-todo-api:todos:find-all", false⟩, ⟨.todoFindAll, false⟩,
        ⟨.cacheSet "go-todo-api:todos:find-all" sampleTodosText 300000000000, true⟩] :=
  ⟨(cache_writes_best_effort (goJson rfc3339UTC) Unit
      (mockTodoService ("", none) none (some [sampleTodo], none))
      (mockUserService ("", none) none (none, none))
      (fun _ _ _ st => (some (.new "cache set error"), st)) (fun _ st => (none, st))
      (World.init ())).1.1, by decide, by decide⟩

/-- A removed key is not found; the other keys are found as before. -/
theorem lookup_kvDel (key k : String) (kv : List (String × String)) :
    (kvDel key kv).lookup k = if k = key then none else kv.lookup k := by
  induction kv with
  | nil => simp [kvDel]
  | cons p kv ih =>
    obtain ⟨a, b⟩ := p
    unfold kvDel at ih ⊢
    by_cases ha : a = key
    · have hf : List.filter (fun p : String × String => decide (p.1 ≠ key)) ((a, b) :: kv)
          = List.filter (fun p => decide (p.1 ≠ key)) kv := by
        simp [List.filter, ha]
      rw [hf, ih]
      by_cases hk : k = key
      · simp [hk]
      · have hka : (k == a) = false := by
          rw [ha]; simpa using hk
        simp [hk, List.lookup, hka]
    · have hf : List.filter (fun p : String × String => decide (p.1 ≠ key)) ((a, b) :: kv)
          = (a, b) :: List.filter (fun p => decide (p.1 ≠ key)) kv := by
        simp [List.filter, ha]
      rw [hf]
      by_cases hka : k = a
      · subst hka
        simp [List.lookup, ha]
      · have hb : (k == a) = false := by simpa using hka
        simp only [List.lookup, hb]
        exact ih

/-- A stored key is found with its value; the other keys are found as before. -/
theorem lookup_kvSet (key v k : String) (kv : List (String × String)) :
    (kvSet key v kv).lookup k = if k = key then some v else kv.lookup k := by
  by_cases hk : k = key
  · subst hk
    simp [kvSet, List.lookup]
  · have h1 : (k == key) = false := by simpa using hk
    have h2 := lookup_kvDel key k kv
    simp only [hk, if_false] at h2
    unfold kvDel at h2
    unfold kvSet
    simp only [List.lookup, h1, hk, if_false]
    exact h2

/-- Coherence looks at the key-value store and the two tables only. -/
theorem Coherent.of_eq {J : Json} {m m1 : Mem} (h : Coherent J m) (hkv : m1.kv = m.kv)
    (ht : m1.todos = m.todos) (hu : m1.users = m.users) : Coherent J m1 := by
  unfold Coherent at h ⊢
  rw [hkv, ht, hu]
  exact h

/-- Removing the todo key keeps coherence, whatever becomes of the todo table. -/
theorem Coherent.del_todo {J : Json} {m m1 : Mem} (h : Coherent J m)
    (hkv : m1.kv = kvDel "go-todo-api:todos:find-all" m.kv) (hu : m1.users = m.users) :
    Coherent J m1 := by
  unfold Coherent at h ⊢
  rw [hkv, hu]
  simp only [lookup_kvDel, todoKey, userKey] at h ⊢
  simpa using h.2

/-- Removing the user key keeps coherence, whatever becomes of the user table. -/
theorem Coherent.del_user {J : Json} {m m1 : Mem} (h : Coherent J m)
    (hkv : m1.kv = kvDel "pengguna:semua" m.kv) (ht : m1.todos = m.todos) :
    Coherent J m1 := by
  unfold Coherent at h ⊢
  rw [hkv, ht]
  simp only [lookup_kvDel, todoKey, userKey] at h ⊢
  simpa using h.1

/-- Storing the encoding of the todo table under the todo key keeps coherence. -/
theorem Coherent.set_todo {J : Json} {m m1 : Mem} {b : String} (h : Coherent J m)
    (hkv : m1.kv = kvSet "go-todo-api:todos:find-all" b m.kv) (ht : m1.todos = m.todos)
    (hu : m1.users = m.users) (hb : J.marshalTodos (some m.todos) = .ok b) :
    Coherent J m1 := by
  unfold Coherent at h ⊢
  rw [hkv, hu, ht]
  simp only [lookup_kvSet, todoKey, userKey] at h ⊢
  simpa [hb] using h.2

/-- Storing the encoding of the user table under the user key keeps coherence. -/
theorem Coherent.set_user {J : Json} {m m1 : Mem} {b : String} (h : Coherent J m)
    (hkv : m1.kv = kvSet "pengguna:semua" b m.kv) (ht : m1.todos = m.todos)
    (hu : m1.users = m.users) (hb : J.marshalUsers (some m.users) = .ok b) :
    Coherent J m1 := by
  unfold Coherent at h ⊢
  rw [hkv, hu, ht]
  simp only [lookup_kvSet, todoKey, userKey] at h ⊢
  simpa [hb] using h.1

/-- The method `todoService.Create` keeps coherence in the sequential model. -/
theorem coherent_todo_Create (J : Json) (todo : Todo) (w : World Mem) (h : Coherent J w.st) :
    Coherent J (memTodoService.Create todo w).2.st := by
  simp only [todoService.Create, memTodoService, World.call, memTodoRepo, memCache, Mem.fault]
  split_ifs <;> first
    | exact h.of_eq rfl rfl rfl
    | exact h.del_todo rfl rfl

/-- The method `todoService.Update` keeps coherence in the sequential model. -/
theorem coherent_todo_Update (J : Json) (id : Int) (todo : Todo) (w : World Mem)
    (h : Coherent J w.st) : Coherent J (memTodoService.Update id todo w).2.st := by
  simp only [todoService.Update, memTodoService, World.call, memTodoRepo, memCache, Mem.fault]
  split_ifs
  · exact h.of_eq rfl rfl rfl
  · cases hf : w.st.todos.find? (fun t => t.ID = id) with
    | none => exact h.of_eq rfl rfl rfl
    | some ex =>
      simp only []
      split_ifs <;> first
        | exact h.of_eq rfl rfl rfl
        | exact h.del_todo rfl rfl

/-- The method `todoService.Delete` keeps coherence in the sequential model. -/
theorem coherent_todo_Delete (J : Json) (id : Int) (w : World Mem)
    (h : Coherent J w.st) : Coherent J (memTodoService.Delete id w).2.st := by
  simp only [todoService.Delete, memTodoService, World.call, memTodoRepo, memCache, Mem.fault]
  split_ifs
  · exact h.of_eq rfl rfl rfl
  · cases hf : w.st.todos.find? (fun t => t.ID = id) with
    | none => exact h.of_eq rfl rfl rfl
    | some ex =>
      simp only []
      split_ifs <;> first
        | exact h.of_eq rfl rfl rfl
        | exact h.del_todo rfl rfl

/-- The method `todoService.FindAll` keeps coherence in the sequential model. -/
theorem coherent_todo_FindAll (J : Json) (w : World Mem)
    (h : Coherent J w.st) : Coherent J (memTodoService.FindAll J w).2.st := by
  simp only [todoService.FindAll, memTodoService, World.call, memTodoRepo, memCache, Mem.fault]
  cases hd : (if (w.st.kv.lookup "go-todo-api:todos:find-all").getD "" ≠ "" then
      (J.unmarshalTodos ((w.st.kv.lookup "go-todo-api:todos:find-all").getD "")).toOption
      else none) with
  | some r => exact h.of_eq rfl rfl rfl
  | none =>
    simp only []
    split_ifs
    · exact h.of_eq rfl rfl rfl
    · dsimp only
      cases hm : J.marshalTodos (some w.st.todos) with
      | error e => exact h.of_eq rfl rfl rfl
      | ok b => exact h.set_todo rfl rfl rfl hm

/-- The method `userService.FindAll` keeps coherence in the sequential model. -/
theorem coherent_user_FindAll (J : Json) (hash : String → String × Option GoError)
    (w : World Mem) (h : Coherent J w.st) :
    Coherent J ((memUserService hash).FindAll J w).2.st := by
  simp only [userService.FindAll, memUserService, World.call, memUserRepo, memCache, Mem.fault]
  cases hd : (if True ∧
      (w.st.kv.lookup "pengguna:semua").getD "" ≠ "" then
      (J.unmarshalUsers ((w.st.kv.lookup "pengguna:semua").getD "")).toOption
      else none) with
  | some r => exact h.of_eq rfl rfl rfl
  | none =>
    simp only []
    split_ifs
    · exact h.of_eq rfl rfl rfl
    · dsimp only
      cases hm : J.marshalUsers (some w.st.users) with
      | error e => exact h.of_eq rfl rfl rfl
      | ok b => exact h.set_user rfl rfl rfl hm

/-- The method `userService.DeleteUser` keeps coherence in the sequential model. -/
theorem coherent_user_DeleteUser (J : Json) (hash : String → String × Option GoError)
    (id : Int) (w : World Mem) (h : Coherent J w.st) :
    Coherent J ((memUserService hash).DeleteUser id w).2.st := by
  simp only [userService.DeleteUser, memUserService, World.call, memUserRepo, memUserFindByID,
    memCache, Mem.fault]
  split_ifs
  · exact h
  · exact h.of_eq rfl rfl rfl
  · cases hf : w.st.users.find? (fun u => u.ID = id) with
    | none => exact h.of_eq rfl rfl rfl
    | some ex =>
      simp only []
      split_ifs <;> first
        | exact h.of_eq rfl rfl rfl
        | exact h.del_user rfl rfl

/-- The method `userService.CreateUser` keeps coherence in the sequential model. -/
theorem coherent_user_CreateUser (J : Json) (hash : String → String × Option GoError)
    (user : User) (w : World Mem) (h : Coherent J w.st) :
    Coherent J ((memUserService hash).CreateUser user w).2.st := by
  simp only [userService.CreateUser, memUserService, World.call, memUserRepo, memCache,
    Mem.fault, pureBcrypt]
  rcases hh : hash user.Password with ⟨hp, _ | e⟩ <;>
    cases hf : w.st.users.find? (fun u => u.Username = user.Username) <;>
    repeat' (first | split_ifs | simp only [])
  all_goals first
    | exact h.of_eq rfl rfl rfl
    | exact h.del_user rfl rfl

/-- The lookup by id leaves the key-value store and the tables. -/
theorem memUserFindByID_frame (id : Int) (m : Mem) :
    (memUserFindByID id m).2.kv = m.kv ∧ (memUserFindByID id m).2.todos = m.todos ∧
      (memUserFindByID id m).2.users = m.users := by
  simp only [memUserFindByID, Mem.fault]
  split_ifs
  · exact ⟨rfl, rfl, rfl⟩
  · split <;> exact ⟨rfl, rfl, rfl⟩

/-- The persistence `Update` of a user leaves the key-value store and the
table of the todos. -/
theorem memUserRepo_Update_frame (eu : Option User) (m : Mem) :
    (memUserRepo.Update eu m).2.kv = m.kv ∧ (memUserRepo.Update eu m).2.todos = m.todos := by
  cases eu with
  | none => exact ⟨rfl, rfl⟩
  | some u =>
    simp only [memUserRepo, Mem.fault]
    split_ifs
    · exact ⟨rfl, rfl⟩
    · exact ⟨rfl, rfl⟩
    · exact ⟨(memUserFindByID_frame _ _).1, (memUserFindByID_frame _ _).2.1⟩

/-- The tail of `userService.UpdateUser` in the sequential model leaves the
table of the todos, and leaves the key-value store or removes the user key
from it. -/
theorem mem_updateTail_frame (hash : String → String × Option GoError) (eu : Option User)
    (w : World Mem) :
    (userService.updateTail (memUserService hash) eu w).2.st.todos = w.st.todos ∧
    ((userService.updateTail (memUserService hash) eu w).2.st.kv = w.st.kv ∨
      (userService.updateTail (memUserService hash) eu w).2.st.kv =
        kvDel "pengguna:semua" w.st.kv) := by
  have hf := memUserRepo_Update_frame eu w.st
  rcases hr : (memUserRepo.Update eu w.st).1 with ⟨x, _ | e⟩
  · simp only [userService.updateTail, memUserService, World.call, hr, memCache]
    exact ⟨hf.2, Or.inr (by rw [hf.1])⟩
  · simp only [userService.updateTail, memUserService, World.call, hr]
    exact ⟨hf.2, Or.inl hf.1⟩

/-- The method `userService.UpdateUser` in the sequential model leaves the
table of the todos, and leaves the key-value store or removes the user key
from it. -/
theorem mem_UpdateUser_frame (hash : String → String × Option GoError) (user : User)
    (w : World Mem) :
    ((memUserService hash).UpdateUser user w).2.st.todos = w.st.todos ∧
    (((memUserService hash).UpdateUser user w).2.st.kv = w.st.kv ∨
      ((memUserService hash).UpdateUser user w).2.st.kv = kvDel "pengguna:semua" w.st.kv) := by
  by_cases hid : user.ID ≤ 0
  · simp [userService.UpdateUser, hid]
  · have hf := memUserFindByID_frame user.ID w.st
    have hm1 : (memUserFindByID user.ID w.st).2.todos = w.st.todos ∧
        ((memUserFindByID user.ID w.st).2.kv = w.st.kv ∨
          (memUserFindByID user.ID w.st).2.kv = kvDel "pengguna:semua" w.st.kv) :=
      ⟨hf.2.1, Or.inl hf.1⟩
    have ht : ∀ eu tr, (userService.updateTail (memUserService hash) eu
          ⟨(memUserFindByID user.ID w.st).2, tr⟩).2.st.todos = w.st.todos ∧
        ((userService.updateTail (memUserService hash) eu
            ⟨(memUserFindByID user.ID w.st).2, tr⟩).2.st.kv = w.st.kv ∨
          (userService.updateTail (memUserService hash) eu
            ⟨(memUserFindByID user.ID w.st).2, tr⟩).2.st.kv =
              kvDel "pengguna:semua" w.st.kv) := by
      intro eu tr
      have h1 := mem_updateTail_frame hash eu ⟨(memUserFindByID user.ID w.st).2, tr⟩
      simp only [hf.1, hf.2.1] at h1
      exact h1
    simp only [userService.UpdateUser, hid, if_false, World.call, memUserService, memUserRepo,
      pureBcrypt]
    rcases hr : (memUserFindByID user.ID w.st).1 with ⟨_ | ex, _ | e⟩
    · simp only []
      by_cases hn : user.FullName ≠ "" ∨ user.Role ≠ "" ∨ user.Username ≠ ""
      · rw [if_pos hn]
        exact hm1
      · rw [if_neg hn]
        by_cases hp : user.Password ≠ ""
        · rw [if_pos hp]
          rcases hh : hash user.Password with ⟨hp1, _ | e⟩ <;> exact hm1
        · rw [if_neg hp]
          exact ht _ _
    · exact hm1
    · simp only []
      by_cases hp : user.Password ≠ ""
      · rw [if_pos hp]
        rcases hh : hash user.Password with ⟨hp1, _ | e⟩
        · exact ht _ _
        · exact hm1
      · rw [if_neg hp]
        exact ht _ _
    · exact hm1

/-- A `todoService.Create` that returns no error ends with the `Delete` of the list key. -/
theorem todo_Create_success_state {σ : Type} (s : todoService σ) (todo : Todo) (w : World σ)
    (h : (s.Create todo w).1.2 = none) :
    ∃ m, (s.Create todo w).2.st = (s.cacheable.Delete "go-todo-api:todos:find-all" m).2 := by
  rcases h1 : (s.todoRepository.Create todo w.st).1 with ⟨t, _ | e⟩
  · exact ⟨(s.todoRepository.Create todo w.st).2, by simp [todoService.Create, World.call, h1]⟩
  · simp [todoService.Create, World.call, h1] at h

/-- A `todoService.Update` that returns no error ends with the `Delete` of the list key. -/
theorem todo_Update_success_state {σ : Type} (s : todoService σ) (id : Int) (todo : Todo)
    (w : World σ) (h : (s.Update id todo w).1.error = .ret none) :
    ∃ m, (s.Update id todo w).2.st = (s.cacheable.Delete "go-todo-api:todos:find-all" m).2 := by
  rcases h1 : (s.todoRepository.FindByID id w.st).1 with ⟨_ | ex, _ | e⟩
  · simp [todoService.Update, World.call, h1, Outcome.error] at h
  · simp [todoService.Update, World.call, h1, Outcome.error] at h
  · rcases h2 : (s.todoRepository.Update (todoService.mergeTodo ex todo)
      (s.todoRepository.FindByID id w.st).2).1 with ⟨t, _ | e⟩
    · exact ⟨(s.todoRepository.Update (todoService.mergeTodo ex todo)
        (s.todoRepository.FindByID id w.st).2).2,
        by simp [todoService.Update, World.call, h1, h2]⟩
    · simp [todoService.Update, World.call, h1, h2, Outcome.error] at h
  · simp [todoService.Update, World.call, h1, Outcome.error] at h

/-- A `todoService.Delete` that returns no error ends with the `Delete` of the list key. -/
theorem todo_Delete_success_state {σ : Type} (s : todoService σ) (id : Int)
    (w : World σ) (h : (s.Delete id w).1 = none) :
    ∃ m, (s.Delete id w).2.st = (s.cacheable.Delete "go-todo-api:todos:find-all" m).2 := by
  rcases h1 : (s.todoRepository.FindByID id w.st).1 with ⟨ex, _ | e⟩
  · rcases h2 : (s.todoRepository.Delete id (s.todoRepository.FindByID id w.st).2).1
      with _ | e
    · exact ⟨(s.todoRepository.Delete id (s.todoRepository.FindByID id w.st).2).2,
        by simp [todoService.Delete, World.call, h1, h2]⟩
    · simp [todoService.Delete, World.call, h1, h2] at h
  · simp [todoService.Delete, World.call, h1] at h

/-- A `userService.CreateUser` that returns no error ends with the `Delete` of the list key. -/
theorem user_CreateUser_success_state {σ : Type} (s : userService σ) (user : User)
    (w : World σ) (h : (s.CreateUser user w).1.2.1 = none) :
    ∃ m, (s.CreateUser user w).2.st = (s.cacheable.Delete "pengguna:semua" m).2 := by
  rcases h1 : (s.userRepository.FindByUsername user.Username w.st).1 with ⟨x, _ | e⟩
  · simp [userService.CreateUser, World.call, h1, ErrUsernameSudahAda] at h
  · rcases h2 : (s.bcrypt.GenerateFromPassword user.Password
      (s.userRepository.FindByUsername user.Username w.st).2).1 with ⟨hp, _ | e2⟩
    · rcases h3 : (s.userRepository.Create { user with Password := hp }
        (s.bcrypt.GenerateFromPassword user.Password
          (s.userRepository.FindByUsername user.Username w.st).2).2).1 with ⟨c, _ | e3⟩
      · exact ⟨(s.userRepository.Create { user with Password := hp }
          (s.bcrypt.GenerateFromPassword user.Password
            (s.userRepository.FindByUsername user.Username w.st).2).2).2,
          by simp [userService.CreateUser, World.call, h1, h2, h3]⟩
      · simp [userService.CreateUser, World.call, h1, h2, h3] at h
    · simp [userService.CreateUser, World.call, h1, h2] at h

/-- A tail of `userService.UpdateUser` that returns no error ends with the `Delete` of the list key. -/
theorem user_updateTail_success_state {σ : Type} (s : userService σ) (eu : Option User)
    (w : World σ) (h : (userService.updateTail s eu w).1.error = .ret none) :
    ∃ m, (userService.updateTail s eu w).2.st = (s.cacheable.Delete "pengguna:semua" m).2 := by
  rcases h1 : (s.userRepository.Update eu w.st).1 with ⟨u, _ | e⟩
  · exact ⟨(s.userRepository.Update eu w.st).2, by simp [userService.updateTail, World.call, h1]⟩
  · simp [userService.updateTail, World.call, h1, Outcome.error] at h

/-- A `userService.UpdateUser` that returns no error ends with the `Delete` of the list key. -/
theorem user_UpdateUser_success_state {σ : Type} (s : userService σ) (user : User)
    (w : World σ) (h : (s.UpdateUser user w).1.error = .ret none) :
    ∃ m, (s.UpdateUser user w).2.st = (s.cacheable.Delete "pengguna:semua" m).2 := by
  have ht := user_updateTail_success_state s
  revert h
  simp only [userService.UpdateUser, World.call]
  repeat' split
  all_goals first
    | exact ht _ _
    | (intro h; simp [Outcome.error, ErrPenggunaTidakDitemukan] at h)

/-- A `userService.DeleteUser` that returns no error ends with the `Delete` of the list key. -/
theorem user_DeleteUser_success_state {σ : Type} (s : userService σ) (id : Int)
    (w : World σ) (h : (s.DeleteUser id w).1 = none) :
    ∃ m, (s.DeleteUser id w).2.st = (s.cacheable.Delete "pengguna:semua" m).2 := by
  by_cases hid : id ≤ 0
  · simp [userService.DeleteUser, hid] at h
  · rcases h1 : (s.userRepository.FindByID id w.st).1 with ⟨ex, _ | e⟩
    · rcases h2 : (s.userRepository.Delete id (s.userRepository.FindByID id w.st).2).1
        with _ | e
      · exact ⟨(s.userRepository.Delete id (s.userRepository.FindByID id w.st).2).2,
          by simp [userService.DeleteUser, hid, World.call, h1, h2]⟩
      · simp [userService.DeleteUser, hid, World.call, h1, h2] at h
    · simp [userService.DeleteUser, hid, World.call, h1, ErrPenggunaTidakDitemukan] at h

/-- With the todo key absent and persistence answering, `todoService.FindAll` reads the table and stores its encoding. -/
theorem todo_FindAll_repopulates (J : Json) (w : World Mem) (b : String)
    (habs : w.st.kv.lookup "go-todo-api:todos:find-all" = none)
    (hok : w.st.faults.headD false = false)
    (hb : J.marshalTodos (some w.st.todos) = .ok b) :
    (memTodoService.FindAll J w).1 = (some w.st.todos, none) ∧
    (memTodoService.FindAll J w).2.trace = w.trace ++
      [⟨.cacheGet "go-todo-api:todos:find-all", false⟩, ⟨.todoFindAll, false⟩,
        ⟨.cacheSet "go-todo-api:todos:find-all" b (5 * Minute), false⟩] ∧
    (memTodoService.FindAll J w).2.st.kv.lookup "go-todo-api:todos:find-all" = some b := by
  have hok1 : w.st.faults.head?.getD false = false := by simpa using hok
  simp [todoService.FindAll, memTodoService, World.call, memTodoRepo, memCache, Mem.fault,
    habs, hok1, hb, HasErr.err, lookup_kvSet]

/-- With the user key absent and persistence answering, `userService.FindAll` reads the table and stores its encoding. -/
theorem user_FindAll_repopulates (J : Json) (hash : String → String × Option GoError)
    (w : World Mem) (b : String)
    (habs : w.st.kv.lookup "pengguna:semua" = none)
    (hok : w.st.faults.headD false = false)
    (hb : J.marshalUsers (some w.st.users) = .ok b) :
    ((memUserService hash).FindAll J w).1 = (some w.st.users, none) ∧
    ((memUserService hash).FindAll J w).2.trace = w.trace ++
      [⟨.cacheGet "pengguna:semua", false⟩, ⟨.userFindAll, false⟩,
        ⟨.cacheSet "pengguna:semua" b (5 * Minute), false⟩] ∧
    ((memUserService hash).FindAll J w).2.st.kv.lookup "pengguna:semua" = some b := by
  have hok1 : w.st.faults.head?.getD false = false := by simpa using hok
  simp [userService.FindAll, memUserService, World.call, memUserRepo, memCache, Mem.fault,
    habs, hok1, hb, HasErr.err, lookup_kvSet]

/-- A `userService.UpdateUser` that returns no error, or that leaves the table
of the users as it was, keeps coherence in the sequential model. -/
theorem coherent_user_UpdateUser (J : Json) (hash : String → String × Option GoError)
    (user : User) (w : World Mem) (h : Coherent J w.st)
    (hok : ((memUserService hash).UpdateUser user w).1.error = .ret none ∨
      ((memUserService hash).UpdateUser user w).2.st.users = w.st.users) :
    Coherent J ((memUserService hash).UpdateUser user w).2.st := by
  obtain ⟨htodos, hkv | hkv⟩ := mem_UpdateUser_frame hash user w
  · rcases hok with hok | hok
    · obtain ⟨m, hm⟩ := user_UpdateUser_success_state (memUserService hash) user w hok
      have habs : ((memUserService hash).UpdateUser user w).2.st.kv.lookup userKey = none := by
        rw [hm]
        simp [memUserService, memCache, lookup_kvDel, userKey]
      refine ⟨?_, Or.inl habs⟩
      rw [hkv, htodos]
      exact h.1
    · exact h.of_eq hkv htodos hok
  · exact h.del_user hkv htodos

/-- C6 (divergence). Cache coherence over the sequential model (the in-memory
store, the cache whose `Get` returns what `Set` stored, every cache call
succeeding, statements of persistence failing when made to) holds for every
operation but a failing `userService.UpdateUser`. From a state where each
list key is absent or holds the encoding of the current table: after
`FindAll`, `Create`, `Update`, `Delete` of the todo service and `FindAll`,
`CreateUser`, `DeleteUser` of the user service, failing or not, and after an
`UpdateUser` that returns no error or leaves the table of the users as it
was, each list key is again absent or holds the encoding of the current
table; a mutation that returns no error leaves its list key absent; and a
`FindAll` that finds its key absent, persistence answering, reads the table,
returns it and stores its encoding under the key. But the persistence
`Update` of a user runs two statements, the update and the lookup of the
updated record: when the lookup fails the table is already changed,
`UpdateUser` returns the error and does not call `Delete`, and the user key
holds the encoding of the old table, which the next `FindAll` returns. -/
theorem cache_coherence_but_failed_update :
    (∀ (J : Json) (hash : String → String × Option GoError) (w : World Mem),
      Coherent J w.st →
      (∀ op : Op, (∀ user, op ≠ .updateUser user) →
        Coherent J (op.run J memTodoService (memUserService hash) w).2.st) ∧
      (∀ user : User, ((memUserService hash).UpdateUser user w).1.error = .ret none ∨
          ((memUserService hash).UpdateUser user w).2.st.users = w.st.users →
        Coherent J ((memUserService hash).UpdateUser user w).2.st) ∧
      (∀ op : Op, op.isMutation = true →
        (op.run J memTodoService (memUserService hash) w).1 = .ret none →
        (op.run J memTodoService (memUserService hash) w).2.st.kv.lookup op.key = none) ∧
      (∀ b, w.st.kv.lookup "go-todo-api:todos:find-all" = none →
        w.st.faults.headD false = false → J.marshalTodos (some w.st.todos) = .ok b →
        (memTodoService.FindAll J w).1 = (some w.st.todos, none) ∧
        (memTodoService.FindAll J w).2.trace = w.trace ++
          [⟨.cacheGet "go-todo-api:todos:find-all", false⟩, ⟨.todoFindAll, false⟩,
            ⟨.cacheSet "go-todo-api:todos:find-all" b (5 * Minute), false⟩] ∧
        (memTodoService.FindAll J w).2.st.kv.lookup "go-todo-api:todos:find-all" = some b) ∧
      (∀ b, w.st.kv.lookup "pengguna:semua" = none →
        w.st.faults.headD false = false → J.marshalUsers (some w.st.users) = .ok b →
        ((memUserService hash).FindAll J w).1 = (some w.st.users, none) ∧
        ((memUserService hash).FindAll J w).2.trace = w.trace ++
          [⟨.cacheGet "pengguna:semua", false⟩, ⟨.userFindAll, false⟩,
            ⟨.cacheSet "pengguna:semua" b (5 * Minute), false⟩] ∧
        ((memUserService hash).FindAll J w).2.st.kv.lookup "pengguna:semua" = some b)) ∧
    Coherent (goJson rfc3339UTC) { cachedMem with faults := [false, false, true] } ∧
    ((memUserService sampleHash).UpdateUser ⟨1, "", "", "", "Renamed"⟩
        (World.init { cachedMem with faults := [false, false, true] })).1 =
      .ret (none, some (Errorf_w "gagal memperbarui pengguna: " dbError)) ∧
    ((memUserService sampleHash).UpdateUser ⟨1, "", "", "", "Renamed"⟩
        (World.init { cachedMem with faults := [false, false, true] })).2.trace =
      [⟨.userFindByID 1, false⟩, ⟨.userUpdate (some renamedUser), true⟩] ∧
    ((memUserService sampleHash).UpdateUser ⟨1, "", "", "", "Renamed"⟩
        (World.init { cachedMem with faults := [false, false, true] })).2.st = staleMem ∧
    staleMem.users = [renamedUser] ∧
    staleMem.kv.lookup "pengguna:semua" = some sampleUsersText ∧
    (goJson rfc3339UTC).marshalUsers (some staleMem.users) = .ok renamedUsersText ∧
    ¬ Coherent (goJson rfc3339UTC) staleMem ∧
    ((memUserService sampleHash).FindAll (goJson rfc3339UTC) (World.init staleMem)).1 =
      (some [sampleUser], none) ∧
    ((memUserService sampleHash).FindAll (goJson rfc3339UTC) (World.init staleMem)).2.trace =
      [⟨.cacheGet "pengguna:semua", false⟩] := by
  refine ⟨fun J hash w h => ⟨?_, ?_, ?_, ?_, ?_⟩, ?_, by decide, by decide, by decide, by decide,
    by decide, by decide, ?_, by decide, by decide⟩
  · intro op hop
    cases op with
    | todoFindAll => exact coherent_todo_FindAll J w h
    | todoCreate todo => exact coherent_todo_Create J todo w h
    | todoUpdate id todo => exact coherent_todo_Update J id todo w h
    | todoDelete id => exact coherent_todo_Delete J id w h
    | userFindAll => exact coherent_user_FindAll J hash w h
    | createUser user => exact coherent_user_CreateUser J hash user w h
    | updateUser user => exact absurd rfl (hop user)
    | deleteUser id => exact coherent_user_DeleteUser J hash id w h
  · intro user hok
    exact coherent_user_UpdateUser J hash user w h hok
  · intro op hmut hret
    cases op with
    | todoFindAll => cases hmut
    | userFindAll => cases hmut
    | todoCreate todo =>
      obtain ⟨m, hm⟩ := todo_Create_success_state memTodoService todo w
        (by simpa [Op.run] using hret)
      simp only [Op.run, Op.key]
      rw [hm]
      simp [memTodoService, memCache, lookup_kvDel]
    | todoUpdate id todo =>
      obtain ⟨m, hm⟩ := todo_Update_success_state memTodoService id todo w
        (by simpa [Op.run] using hret)
      simp only [Op.run, Op.key]
      rw [hm]
      simp [memTodoService, memCache, lookup_kvDel]
    | todoDelete id =>
      obtain ⟨m, hm⟩ := todo_Delete_success_state memTodoService id w
        (by simpa [Op.run] using hret)
      simp only [Op.run, Op.key]
      rw [hm]
      simp [memTodoService, memCache, lookup_kvDel]
    | createUser user =>
      obtain ⟨m, hm⟩ := user_CreateUser_success_state (memUserService hash) user w
        (by simpa [Op.run] using hret)
      simp only [Op.run, Op.key]
      rw [hm]
      simp [memUserService, memCache, lookup_kvDel]
    | updateUser user =>
      obtain ⟨m, hm⟩ := user_UpdateUser_success_state (memUserService hash) user w
        (by simpa [Op.run] using hret)
      simp only [Op.run, Op.key]
      rw [hm]
      simp [memUserService, memCache, lookup_kvDel]
    | deleteUser id =>
      obtain ⟨m, hm⟩ := user_DeleteUser_success_state (memUserService hash) id w
        (by simpa [Op.run] using hret)
      simp only [Op.run, Op.key]
      rw [hm]
      simp [memUserService, memCache, lookup_kvDel]
  · intro b habs hok hb
    exact todo_FindAll_repopulates J w b habs hok hb
  · intro b habs hok hb
    exact user_FindAll_repopulates J hash w b habs hok hb
  · exact ⟨Or.inr ⟨sampleTodosText, by decide, by decide⟩,
      Or.inr ⟨sampleUsersText, by decide, by decide⟩⟩
  · rintro ⟨_, habs | ⟨b, hb, hl⟩⟩
    · exact absurd habs (by decide)
    · have hm : (goJson rfc3339UTC).marshalUsers (some staleMem.users) = .ok renamedUsersText := by
        decide
      rw [hm] at hb
      cases hb
      exact absurd hl (by decide)

/-- The theorem of C6 from the state in which both keys hold the encoding of
their table: a `Create` of a todo and an `UpdateUser` that succeeds each
remove their key, which keeps coherence, and the `FindAll` after the `Create`
reads the table and stores the encoding of the two todos. -/
theorem cache_coherence_but_failed_update_witness :
    cachedMem.kv.lookup "go-todo-api:todos:find-all" = some sampleTodosText ∧
    Coherent (goJson rfc3339UTC)
      ((Op.todoCreate ⟨0, "New Todo", "", ⟨0, 0⟩, false, 1⟩).run (goJson rfc3339UTC)
        memTodoService (memUserService sampleHash) (World.init cachedMem)).2.st ∧
    ((Op.todoCreate ⟨0, "New Todo", "", ⟨0, 0⟩, false, 1⟩).run (goJson rfc3339UTC)
        memTodoService (memUserService sampleHash)
        (World.init cachedMem)).2.st.kv.lookup "go-todo-api:todos:find-all" = none ∧
    ((memTodoService.FindAll (goJson rfc3339UTC)
        (memTodoService.Create ⟨0, "New Todo", "", ⟨0, 0⟩, false, 1⟩
          (World.init cachedMem)).2).1 =
      (some [sampleTodo, ⟨2, "New Todo", "", ⟨0, 0⟩, false, 1⟩], none)) ∧
    ((Op.updateUser ⟨1, "", "", "", "Renamed"⟩).run (goJson rfc3339UTC)
        memTodoService (memUserService sampleHash)
        (World.init cachedMem)).2.st.kv.lookup "pengguna:semua" = none ∧
    Coherent (goJson rfc3339UTC)
      ((memUserService sampleHash).UpdateUser ⟨1, "", "", "", "Renamed"⟩
        (World.init cachedMem)).2.st :=
  have h0 : Coherent (goJson rfc3339UTC) (World.init cachedMem).st :=
    ⟨Or.inr ⟨sampleTodosText, by decide, by decide⟩,
      Or.inr ⟨sampleUsersText, by decide, by decide⟩⟩
  have h := cache_coherence_but_failed_update.1 (goJson rfc3339UTC) sampleHash
    (World.init cachedMem) h0
  ⟨by decide, h.1 _ (fun user hu => by cases hu),
    h.2.2.1 (Op.todoCreate ⟨0, "New Todo", "", ⟨0, 0⟩, false, 1⟩) rfl (by decide),
    by decide,
    h.2.2.1 (Op.updateUser ⟨1, "", "", "", "Renamed"⟩) rfl (by decide),
    h.2.1 ⟨1, "", "", "", "Renamed"⟩ (Or.inl (by decide))⟩

/-- White space is not skipped past a quote. -/
theorem skipWs_quote (cs : List Char) : skipWs ('"' :: cs) = '"' :: cs := by
  simp [skipWs]

/-- A JSON text that starts with a quote parses as a string or not at all. -/
theorem parseValue_quote (fuel depth : Nat) (cs : List Char) :
    parseValue (fuel + 1) depth ('"' :: cs) =
      (parseStr (cs.length + 1) cs).map
        (fun p => (.str (cs.take (cs.length - p.2.length - 1)) p.1, p.2)) := by
  rw [parseValue, skipWs_quote]
  rfl

/-- The call `json.Unmarshal` into a slice fails on every text that starts
with a quote: the text is a JSON string, or it is not JSON. -/
theorem unmarshalSlice_quoted {α : Type} (dec : JVal → Except GoError α) (type : String)
    (cs : List Char) : ∃ e, unmarshalSlice dec type (String.mk ('"' :: cs)) = .error e := by
  have hf : 2 * (String.mk ('"' :: cs)).length + 2 = (2 * (String.mk ('"' :: cs)).length + 1) + 1 :=
    rfl
  unfold unmarshalSlice parseJSON
  rw [hf, parseValue_quote]
  cases parseStr (cs.length + 1) cs with
  | none => exact ⟨_, rfl⟩
  | some p =>
    simp only [Option.map]
    split_ifs
    · exact ⟨_, rfl⟩
    · exact ⟨_, rfl⟩

/-- What the cache port stores for a value, by `json.Marshal` of a `[]byte`,
starts with a quote. -/
theorem marshalBytes_quoted (b : String) :
    ∃ cs, marshalBytes b = .ok (String.mk ('"' :: cs)) :=
  ⟨_, rfl⟩


/-- On a miss `todoService.FindAll` calls the persistence `FindAll` right
after the `Get`. -/
theorem todo_FindAll_miss_calls_persistence {σ : Type} (J : Json) (s : todoService σ)
    (w : World σ) (data : String)
    (hget : (s.cacheable.Get "go-todo-api:todos:find-all" w.st).1 = (data, none))
    (hmiss : data = "" ∨ ∃ e, J.unmarshalTodos data = .error e) :
    ∃ rest, (s.FindAll J w).2.trace = w.trace ++
      ⟨.cacheGet "go-todo-api:todos:find-all", false⟩ ::
      ⟨.todoFindAll, (s.todoRepository.FindAll
        (s.cacheable.Get "go-todo-api:todos:find-all" w.st).2).1.2.isSome⟩ :: rest := by
  have hd : (if data ≠ "" then (J.unmarshalTodos data).toOption else none) = none := by
    rcases hmiss with h | ⟨e, h⟩ <;> simp [h, Except.toOption]
  rcases hr : (s.todoRepository.FindAll (s.cacheable.Get "go-todo-api:todos:find-all" w.st).2).1
    with ⟨_ | r, _ | e⟩
  · exact ⟨[], by simp [todoService.FindAll, World.call, hget, hd, hr, HasErr.err]⟩
  · exact ⟨[], by simp [todoService.FindAll, World.call, hget, hd, hr, HasErr.err]⟩
  · rcases hm : J.marshalTodos (some r) with e1 | b1
    · exact ⟨[], by simp [todoService.FindAll, World.call, hget, hd, hr, hm, HasErr.err]⟩
    · exact ⟨[⟨.cacheSet "go-todo-api:todos:find-all" b1 (5 * Minute),
        (s.cacheable.Set "go-todo-api:todos:find-all" b1 (5 * Minute)
          (s.todoRepository.FindAll
            (s.cacheable.Get "go-todo-api:todos:find-all" w.st).2).2).1.isSome⟩],
        by simp [todoService.FindAll, World.call, hget, hd, hr, hm, HasErr.err]⟩
  · exact ⟨[], by simp [todoService.FindAll, World.call, hget, hd, hr, HasErr.err]⟩

/-- On a miss `userService.FindAll` calls the persistence `FindAll` right
after the `Get`. -/
theorem user_FindAll_miss_calls_persistence {σ : Type} (J : Json) (s : userService σ)
    (w : World σ) (data : String)
    (hget : (s.cacheable.Get "pengguna:semua" w.st).1 = (data, none))
    (hmiss : data = "" ∨ ∃ e, J.unmarshalUsers data = .error e) :
    ∃ rest, (s.FindAll J w).2.trace = w.trace ++
      ⟨.cacheGet "pengguna:semua", false⟩ ::
      ⟨.userFindAll, (s.userRepository.FindAll
        (s.cacheable.Get "pengguna:semua" w.st).2).1.2.isSome⟩ :: rest := by
  have hd : (if data = "" then none else (J.unmarshalUsers data).toOption) = none := by
    rcases hmiss with h | ⟨e, h⟩ <;> simp [h, Except.toOption]
  rcases hr : (s.userRepository.FindAll (s.cacheable.Get "pengguna:semua" w.st).2).1
    with ⟨r, _ | e⟩
  · rcases hm : J.marshalUsers r with e1 | b1
    · exact ⟨[], by simp [userService.FindAll, World.call, hget, hd, hr, hm, HasErr.err]⟩
    · exact ⟨[⟨.cacheSet "pengguna:semua" b1 (5 * Minute),
        (s.cacheable.Set "pengguna:semua" b1 (5 * Minute)
          (s.userRepository.FindAll (s.cacheable.Get "pengguna:semua" w.st).2).2).1.isSome⟩],
        by simp [userService.FindAll, World.call, hget, hd, hr, hm, HasErr.err]⟩
  · exact ⟨[], by simp [userService.FindAll, World.call, hget, hd, hr, HasErr.err]⟩

/-- C4, as the code has it. Over the cache port of `pkg/cache` and the
in-memory Redis, a `FindAll` of either service that misses and stores the list
it read leaves under the key what `Set` made of the JSON text, the base64 text
of it in quotes, and the `FindAll` after it, which gets that value back from
`Get`, calls persistence again: the round trip through `Set` and `Get` is a
miss, where the claim states a hit. -/
theorem real_cache_round_trip (T : TimeText) (hash : String → String × Option GoError)
    (w : World Mem) :
    (∀ b, w.st.kv.lookup "go-todo-api:todos:find-all" = none →
      w.st.faults.headD false = false → (goJson T).marshalTodos (some w.st.todos) = .ok b →
      (redisTodoService.FindAll (goJson T) w).1 = (some w.st.todos, none) ∧
      (∃ v, marshalBytes b = .ok v ∧
        (redisTodoService.FindAll (goJson T) w).2.st.kv.lookup
          "go-todo-api:todos:find-all" = some v) ∧
      ∃ f rest, (redisTodoService.FindAll (goJson T)
          (redisTodoService.FindAll (goJson T) w).2).2.trace =
        (redisTodoService.FindAll (goJson T) w).2.trace ++
          ⟨.cacheGet "go-todo-api:todos:find-all", false⟩ :: ⟨.todoFindAll, f⟩ :: rest) ∧
    (∀ b, w.st.kv.lookup "pengguna:semua" = none →
      w.st.faults.headD false = false → (goJson T).marshalUsers (some w.st.users) = .ok b →
      ((redisUserService hash).FindAll (goJson T) w).1 = (some w.st.users, none) ∧
      (∃ v, marshalBytes b = .ok v ∧
        ((redisUserService hash).FindAll (goJson T) w).2.st.kv.lookup
          "pengguna:semua" = some v) ∧
      ∃ f rest, ((redisUserService hash).FindAll (goJson T)
          ((redisUserService hash).FindAll (goJson T) w).2).2.trace =
        ((redisUserService hash).FindAll (goJson T) w).2.trace ++
          ⟨.cacheGet "pengguna:semua", false⟩ :: ⟨.userFindAll, f⟩ :: rest) := by
  constructor
  · intro b habs hok hb
    have hok1 : w.st.faults.head?.getD false = false := by simpa using hok
    obtain ⟨cs, hcs⟩ := marshalBytes_quoted b
    have hst : (redisTodoService.FindAll (goJson T) w).2.st =
        { w.st with kv := kvSet "go-todo-api:todos:find-all" (String.mk ('"' :: cs)) w.st.kv,
                    faults := w.st.faults.tail } := by
      simp [todoService.FindAll, redisTodoService, World.call, memTodoRepo, NewCacheable,
        cacheable.Get, cacheable.Set, memRedis, Mem.fault, habs, hok1, hb, hcs, redisNil]
    refine ⟨?_, ⟨_, hcs, ?_⟩, ?_⟩
    · simp [todoService.FindAll, redisTodoService, World.call, memTodoRepo, NewCacheable,
        cacheable.Get, cacheable.Set, memRedis, Mem.fault, habs, hok1, hb, hcs, redisNil]
    · rw [hst]
      simp [lookup_kvSet]
    · have hget : (redisTodoService.cacheable.Get "go-todo-api:todos:find-all"
          (redisTodoService.FindAll (goJson T) w).2.st).1 = (String.mk ('"' :: cs), none) := by
        rw [hst]
        simp [redisTodoService, NewCacheable, cacheable.Get, memRedis, lookup_kvSet, redisNil]
      obtain ⟨rest, hrest⟩ := todo_FindAll_miss_calls_persistence (goJson T) redisTodoService
        (redisTodoService.FindAll (goJson T) w).2 _ hget
        (Or.inr (unmarshalSlice_quoted (decodeTodo T) "[]entity.Todo" cs))
      exact ⟨_, rest, hrest⟩
  · intro b habs hok hb
    have hok1 : w.st.faults.head?.getD false = false := by simpa using hok
    obtain ⟨cs, hcs⟩ := marshalBytes_quoted b
    have hst : ((redisUserService hash).FindAll (goJson T) w).2.st =
        { w.st with kv := kvSet "pengguna:semua" (String.mk ('"' :: cs)) w.st.kv,
                    faults := w.st.faults.tail } := by
      simp [userService.FindAll, redisUserService, World.call, memUserRepo, NewCacheable,
        cacheable.Get, cacheable.Set, memRedis, Mem.fault, habs, hok1, hb, hcs, redisNil]
    refine ⟨?_, ⟨_, hcs, ?_⟩, ?_⟩
    · simp [userService.FindAll, redisUserService, World.call, memUserRepo, NewCacheable,
        cacheable.Get, cacheable.Set, memRedis, Mem.fault, habs, hok1, hb, hcs, redisNil]
    · rw [hst]
      simp [lookup_kvSet]
    · have hget : ((redisUserService hash).cacheable.Get "pengguna:semua"
          ((redisUserService hash).FindAll (goJson T) w).2.st).1 =
            (String.mk ('"' :: cs), none) := by
        rw [hst]
        simp [redisUserService, NewCacheable, cacheable.Get, memRedis, lookup_kvSet, redisNil]
      obtain ⟨rest, hrest⟩ := user_FindAll_miss_calls_persistence (goJson T)
        (redisUserService hash) ((redisUserService hash).FindAll (goJson T) w).2 _ hget
        (Or.inr (unmarshalSlice_quoted decodeUser "[]entity.User" cs))
      exact ⟨_, rest, hrest⟩

/-- The theorem of C4 at the sample state. The first `FindAll` misses, reads
the list and hands its JSON text to `Set`, which stores the base64 text of it
in quotes. The second `FindAll` gets that text back from `Get`, fails to
decode it as a list, and calls persistence again. -/
theorem real_cache_round_trip_witness :
    ((redisTodoService.FindAll (goJson rfc3339UTC) (World.init sampleMem)).1 =
        (some [sampleTodo], none) ∧
      (redisTodoService.FindAll (goJson rfc3339UTC) (World.init sampleMem)).2.st.kv =
        [("go-todo-api:todos:find-all", storedTodosText)] ∧
      (goJson rfc3339UTC).unmarshalTodos storedTodosText = .error
        (UnmarshalTypeError "string" "[]entity.Todo") ∧
      (redisTodoService.FindAll (goJson rfc3339UTC)
        (redisTodoService.FindAll (goJson rfc3339UTC) (World.init sampleMem)).2).2.trace =
        [⟨.cacheGet "go-todo-api:todos:find-all", false⟩, ⟨.todoFindAll, false⟩,
          ⟨.cacheSet "go-todo-api:todos:find-all" sampleTodosText 300000000000, false⟩,
          ⟨.cacheGet "go-todo-api:todos:find-all", false⟩, ⟨.todoFindAll, false⟩,
          ⟨.cacheSet "go-todo-api:todos:find-all" sampleTodosText 300000000000, false⟩] ∧
      ((redisUserService sampleHash).FindAll (goJson rfc3339UTC)
        (World.init sampleMem)).2.st.kv = [("pengguna:semua", storedUsersText)] ∧
      ((redisUserService sampleHash).FindAll (goJson rfc3339UTC)
        ((redisUserService sampleHash).FindAll (goJson rfc3339UTC)
          (World.init sampleMem)).2).2.trace =
        [⟨.cacheGet "pengguna:semua", false⟩, ⟨.userFindAll, false⟩,
          ⟨.cacheSet "pengguna:semua" sampleUsersText 300000000000, false⟩,
          ⟨.cacheGet "pengguna:semua", false⟩, ⟨.userFindAll, false⟩,
          ⟨.cacheSet "pengguna:semua" sampleUsersText 300000000000, false⟩]) ∧
    (∃ f rest, (redisTodoService.FindAll (goJson rfc3339UTC)
        (redisTodoService.FindAll (goJson rfc3339UTC) (World.init sampleMem)).2).2.trace =
      (redisTodoService.FindAll (goJson rfc3339UTC) (World.init sampleMem)).2.trace ++
        ⟨.cacheGet "go-todo-api:todos:find-all", false⟩ :: ⟨.todoFindAll, f⟩ :: rest) ∧
    (∃ f rest, ((redisUserService sampleHash).FindAll (goJson rfc3339UTC)
        ((redisUserService sampleHash).FindAll (goJson rfc3339UTC)
          (World.init sampleMem)).2).2.trace =
      ((redisUserService sampleHash).FindAll (goJson rfc3339UTC)
          (World.init sampleMem)).2.trace ++
        ⟨.cacheGet "pengguna:semua", false⟩ :: ⟨.userFindAll, f⟩ :: rest) :=
  ⟨by decide,
    ((real_cache_round_trip rfc3339UTC sampleHash (World.init sampleMem)).1 sampleTodosText
      rfl rfl (by decide)).2.2,
    ((real_cache_round_trip rfc3339UTC sampleHash (World.init sampleMem)).2 sampleUsersText
      rfl rfl (by decide)).2.2⟩

/-! ### The partial updates -/

/-- C11. The partial update of a todo: when `FindByID` returns the stored
record `E`, `todoService.Update` with payload `P` passes to the persistence
`Update`, as its one call after the lookup, the record whose `Title` is
`P.Title` if that is non-empty and `E.Title` otherwise, whose `Content`
likewise, whose `DueDate` is `P.DueDate` unless that is the zero time, and
whose `Completed` is `P.Completed`; when persistence succeeds the record it
returned is returned. Stored title A, content B, not completed, with incoming
empty title, content C, completed, gives title A, content C, completed. -/
theorem todo_Update_merge (σ : Type) (s : todoService σ) (id : Int) (P E : Todo) (w : World σ)
    (hfind : (s.todoRepository.FindByID id w.st).1 = (some E, none)) :
    (∃ rest, (s.Update id P w).2.trace = w.trace ++
        ⟨.todoFindByID id, false⟩ ::
        ⟨.todoUpdate (todoService.mergeTodo E P),
          (s.todoRepository.Update (todoService.mergeTodo E P)
            (s.todoRepository.FindByID id w.st).2).1.2.isSome⟩ :: rest ∧
      (rest = [] ∨ ∃ f, rest = [⟨.cacheDelete "go-todo-api:todos:find-all", f⟩])) ∧
    (todoService.mergeTodo E P).Title = (if P.Title ≠ "" then P.Title else E.Title) ∧
    (todoService.mergeTodo E P).Content = (if P.Content ≠ "" then P.Content else E.Content) ∧
    (todoService.mergeTodo E P).DueDate =
      (if P.DueDate.IsZero = true then E.DueDate else P.DueDate) ∧
    (todoService.mergeTodo E P).Completed = P.Completed ∧
    (∀ t, (s.todoRepository.Update (todoService.mergeTodo E P)
        (s.todoRepository.FindByID id w.st).2).1 = (t, none) →
      (s.Update id P w).1 = .ret (t, none)) ∧
    todoService.mergeTodo ⟨1, "A", "B", ⟨0, 0⟩, false, 7⟩ ⟨0, "", "C", ⟨0, 0⟩, true, 0⟩ =
      ⟨1, "A", "C", ⟨0, 0⟩, true, 7⟩ := by
  refine ⟨?_, ?_, ?_, ?_, ?_, ?_, by decide⟩
  · rcases h2 : (s.todoRepository.Update (todoService.mergeTodo E P)
      (s.todoRepository.FindByID id w.st).2).1 with ⟨t, _ | e⟩
    · exact ⟨[⟨.cacheDelete "go-todo-api:todos:find-all",
        (s.cacheable.Delete "go-todo-api:todos:find-all"
          (s.todoRepository.Update (todoService.mergeTodo E P)
            (s.todoRepository.FindByID id w.st).2).2).1.isSome⟩],
        by simp [todoService.Update, World.call, hfind, h2, HasErr.err], Or.inr ⟨_, rfl⟩⟩
    · exact ⟨[], by simp [todoService.Update, World.call, hfind, h2, HasErr.err], Or.inl rfl⟩
  · simp only [todoService.mergeTodo]
    split_ifs <;> rfl
  · simp only [todoService.mergeTodo]
    split_ifs <;> rfl
  · simp only [todoService.mergeTodo]
    cases hz : P.DueDate.IsZero <;> simp
    split_ifs <;> rfl
  · simp only [todoService.mergeTodo]
  · intro t ht
    simp [todoService.Update, World.call, hfind, ht]

/-- The theorem of C11 at the test `TestTodoService_Update`: only the title
is given. -/
theorem todo_Update_merge_witness :
    ((mockTodoRepo (none, none) (some ⟨1, "Old Title", "Old Content", ⟨0, 0⟩, false, 0⟩, none)
        (Todo.zero, none) (⟨1, "Updated Title", "Old Content", ⟨0, 0⟩, false, 0⟩, none)
        none).FindByID 1 ()).1 =
      (some ⟨1, "Old Title", "Old Content", ⟨0, 0⟩, false, 0⟩, none) ∧
    todoService.mergeTodo ⟨1, "Old Title", "Old Content", ⟨0, 0⟩, false, 0⟩
        ⟨0, "Updated Title", "", ⟨0, 0⟩, false, 0⟩ =
      ⟨1, "Updated Title", "Old Content", ⟨0, 0⟩, false, 0⟩ ∧
    ((⟨mockTodoRepo (none, none) (some ⟨1, "Old Title", "Old Content", ⟨0, 0⟩, false, 0⟩, none)
        (Todo.zero, none) (⟨1, "Updated Title", "Old Content", ⟨0, 0⟩, false, 0⟩, none)
        none, mockCache ("", none) none none⟩ : todoService Unit).Update 1
        ⟨0, "Updated Title", "", ⟨0, 0⟩, false, 0⟩ (World.init ())).1 =
      .ret (⟨1, "Updated Title", "Old Content", ⟨0, 0⟩, false, 0⟩, none) :=
  ⟨rfl, by decide,
    (todo_Update_merge Unit
      ⟨mockTodoRepo (none, none) (some ⟨1, "Old Title", "Old Content", ⟨0, 0⟩, false, 0⟩, none)
        (Todo.zero, none) (⟨1, "Updated Title", "Old Content", ⟨0, 0⟩, false, 0⟩, none)
        none, mockCache ("", none) none none⟩ 1 ⟨0, "Updated Title", "", ⟨0, 0⟩, false, 0⟩
      ⟨1, "Old Title", "Old Content", ⟨0, 0⟩, false, 0⟩ (World.init ()) rfl).2.2.2.2.2.1 _ rfl⟩

/-- The calls of the tail of `userService.UpdateUser`: the persistence
`Update` of the record, and the `Delete` of the list key when it succeeded. -/
theorem user_updateTail_trace {σ : Type} (s : userService σ) (eu : Option User) (w : World σ) :
    ∃ rest, (userService.updateTail s eu w).2.trace = w.trace ++
      ⟨.userUpdate eu, (s.userRepository.Update eu w.st).1.2.isSome⟩ :: rest ∧
      (rest = [] ∨ ∃ f, rest = [⟨.cacheDelete "pengguna:semua", f⟩]) := by
  rcases h : (s.userRepository.Update eu w.st).1 with ⟨u, _ | e⟩
  · exact ⟨[⟨.cacheDelete "pengguna:semua",
      (s.cacheable.Delete "pengguna:semua" (s.userRepository.Update eu w.st).2).1.isSome⟩],
      by simp [userService.updateTail, World.call, h, HasErr.err], Or.inr ⟨_, rfl⟩⟩
  · exact ⟨[], by simp [userService.updateTail, World.call, h, HasErr.err], Or.inl rfl⟩

/-- C12. The partial update of a user: when the id of the payload `P` is
positive and `FindByID` returns the stored record `E`, the record that
`userService.UpdateUser` passes to the persistence `Update` has `FullName`,
`Role` and `Username` equal to those of `P` where they are non-empty and to
those of `E` otherwise; its `Password` is `E.Password` when `P.Password` is
empty, and the hash that `bcrypt` returned for `P.Password` when it is not. -/
theorem user_UpdateUser_merge (σ : Type) (s : userService σ) (P E : User) (w : World σ)
    (hid : 0 < P.ID) (hfind : (s.userRepository.FindByID P.ID w.st).1 = (some E, none)) :
    (userService.mergeUser E P).FullName =
      (if P.FullName ≠ "" then P.FullName else E.FullName) ∧
    (userService.mergeUser E P).Role = (if P.Role ≠ "" then P.Role else E.Role) ∧
    (userService.mergeUser E P).Username =
      (if P.Username ≠ "" then P.Username else E.Username) ∧
    (userService.mergeUser E P).Password = E.Password ∧
    (P.Password = "" → ∃ rest, (s.UpdateUser P w).2.trace = w.trace ++
      ⟨.userFindByID P.ID, false⟩ ::
      ⟨.userUpdate (some (userService.mergeUser E P)),
        (s.userRepository.Update (some (userService.mergeUser E P))
          (s.userRepository.FindByID P.ID w.st).2).1.2.isSome⟩ :: rest ∧
      (rest = [] ∨ ∃ f, rest = [⟨.cacheDelete "pengguna:semua", f⟩])) ∧
    (P.Password ≠ "" → ∀ h, (s.bcrypt.GenerateFromPassword P.Password
        (s.userRepository.FindByID P.ID w.st).2).1 = (h, none) →
      ∃ rest, (s.UpdateUser P w).2.trace = w.trace ++
        ⟨.userFindByID P.ID, false⟩ :: ⟨.bcryptGenerate P.Password, false⟩ ::
        ⟨.userUpdate (some { userService.mergeUser E P with Password := h }),
          (s.userRepository.Update (some { userService.mergeUser E P with Password := h })
            (s.bcrypt.GenerateFromPassword P.Password
              (s.userRepository.FindByID P.ID w.st).2).2).1.2.isSome⟩ :: rest ∧
        (rest = [] ∨ ∃ f, rest = [⟨.cacheDelete "pengguna:semua", f⟩])) := by
  have hid1 : ¬ P.ID ≤ 0 := not_le.2 hid
  refine ⟨?_, ?_, ?_, ?_, ?_, ?_⟩
  · simp only [userService.mergeUser]
    split_ifs <;> rfl
  · simp only [userService.mergeUser]
    split_ifs <;> rfl
  · simp only [userService.mergeUser]
    split_ifs <;> rfl
  · simp only [userService.mergeUser]
    split_ifs <;> rfl
  · intro hp
    have heq : s.UpdateUser P w = userService.updateTail s (some (userService.mergeUser E P))
        ⟨(s.userRepository.FindByID P.ID w.st).2,
          w.trace ++ [⟨.userFindByID P.ID, false⟩]⟩ := by
      simp [userService.UpdateUser, hid1, World.call, hfind, hp, HasErr.err]
    obtain ⟨rest, hrest, hr⟩ := user_updateTail_trace s (some (userService.mergeUser E P))
      ⟨(s.userRepository.FindByID P.ID w.st).2, w.trace ++ [⟨.userFindByID P.ID, false⟩]⟩
    exact ⟨rest, by rw [heq, hrest]; simp, hr⟩
  · intro hp h hh
    have heq : s.UpdateUser P w = userService.updateTail s
        (some { userService.mergeUser E P with Password := h })
        ⟨(s.bcrypt.GenerateFromPassword P.Password
            (s.userRepository.FindByID P.ID w.st).2).2,
          w.trace ++ [⟨.userFindByID P.ID, false⟩, ⟨.bcryptGenerate P.Password, false⟩]⟩ := by
      simp [userService.UpdateUser, hid1, World.call, hfind, hp, hh, HasErr.err]
    obtain ⟨rest, hrest, hr⟩ := user_updateTail_trace s
      (some { userService.mergeUser E P with Password := h })
      ⟨(s.bcrypt.GenerateFromPassword P.Password (s.userRepository.FindByID P.ID w.st).2).2,
        w.trace ++ [⟨.userFindByID P.ID, false⟩, ⟨.bcryptGenerate P.Password, false⟩]⟩
    exact ⟨rest, by rw [heq, hrest]; simp, hr⟩

/-- The theorem of C12 in the sequential model: the stored user gets a new
full name and a new password, and keeps the name and the role. -/
theorem user_UpdateUser_merge_witness :
    ((memUserService sampleHash).UpdateUser ⟨1, "", "newpass", "", "New Name"⟩
        (World.init twoUsersMem)).2.trace =
      [⟨.userFindByID 1, false⟩, ⟨.bcryptGenerate "newpass", false⟩,
        ⟨.userUpdate (some ⟨1, "user1", "$2a$10$newpass", "user", "New Name"⟩), false⟩,
        ⟨.cacheDelete "pengguna:semua", false⟩] ∧
    (∃ rest, ((memUserService sampleHash).UpdateUser ⟨1, "", "newpass", "", "New Name"⟩
        (World.init twoUsersMem)).2.trace = [] ++
      ⟨.userFindByID 1, false⟩ :: ⟨.bcryptGenerate "newpass", false⟩ ::
      ⟨.userUpdate (some ⟨1, "user1", "$2a$10$newpass", "user", "New Name"⟩), false⟩ :: rest ∧
      (rest = [] ∨ ∃ f, rest = [⟨.cacheDelete "pengguna:semua", f⟩])) :=
  ⟨by decide,
    (user_UpdateUser_merge Mem (memUserService sampleHash) ⟨1, "", "newpass", "", "New Name"⟩
      storedUser (World.init twoUsersMem) (by decide) rfl).2.2.2.2.2 (by decide)
      "$2a$10$newpass" rfl⟩

/-! ### Failed lookups, login and registration -/

/-- C13. A failed lookup by id: when the persistence `FindByID` returns an
error, `todoService.Update` and `Delete` return the error with the message
`todo tidak ditemukan`, `userService.UpdateUser` and `DeleteUser` (for a
positive id) return `ErrPenggunaTidakDitemukan`, and the lookup is the only
call: no persistence `Update` or `Delete` and no cache call is made, so the
state is the one that the lookup left. -/
theorem FindByID_failure_not_found (σ : Type) (ts : todoService σ) (us : userService σ)
    (w : World σ) :
    (∀ id P x e, (ts.todoRepository.FindByID id w.st).1 = (x, some e) →
      ts.Update id P w = (.ret (Todo.zero, some (.new "todo tidak ditemukan")),
        ⟨(ts.todoRepository.FindByID id w.st).2, w.trace ++ [⟨.todoFindByID id, true⟩]⟩)) ∧
    (∀ id x e, (ts.todoRepository.FindByID id w.st).1 = (x, some e) →
      ts.Delete id w = (some (.new "todo tidak ditemukan"),
        ⟨(ts.todoRepository.FindByID id w.st).2, w.trace ++ [⟨.todoFindByID id, true⟩]⟩)) ∧
    (∀ (P : User) x e, 0 < P.ID → (us.userRepository.FindByID P.ID w.st).1 = (x, some e) →
      us.UpdateUser P w = (.ret (none, some ErrPenggunaTidakDitemukan),
        ⟨(us.userRepository.FindByID P.ID w.st).2,
          w.trace ++ [⟨.userFindByID P.ID, true⟩]⟩)) ∧
    (∀ id x e, 0 < id → (us.userRepository.FindByID id w.st).1 = (x, some e) →
      us.DeleteUser id w = (some ErrPenggunaTidakDitemukan,
        ⟨(us.userRepository.FindByID id w.st).2, w.trace ++ [⟨.userFindByID id, true⟩]⟩)) ∧
    (GoError.new "todo tidak ditemukan").Error = "todo tidak ditemukan" ∧
    ErrPenggunaTidakDitemukan.Error = "pengguna tidak ditemukan" := by
  refine ⟨?_, ?_, ?_, ?_, rfl, rfl⟩
  · intro id P x e h
    simp [todoService.Update, World.call, h, HasErr.err]
  · intro id x e h
    simp [todoService.Delete, World.call, h, HasErr.err]
  · intro P x e hid h
    simp [userService.UpdateUser, not_le.2 hid, World.call, h, HasErr.err]
  · intro id x e hid h
    simp [userService.DeleteUser, not_le.2 hid, World.call, h, HasErr.err]

/-- The theorem of C13 in the sequential model: the ids are not stored. -/
theorem FindByID_failure_not_found_witness :
    memTodoService.Update 9 sampleTodo (World.init sampleMem) =
      (.ret (Todo.zero, some (.new "todo tidak ditemukan")),
        ⟨sampleMem, [⟨.todoFindByID 9, true⟩]⟩) ∧
    (memUserService sampleHash).DeleteUser 9 (World.init sampleMem) =
      (some ErrPenggunaTidakDitemukan, ⟨sampleMem, [⟨.userFindByID 9, true⟩]⟩) :=
  ⟨(FindByID_failure_not_found Mem memTodoService (memUserService sampleHash)
      (World.init sampleMem)).1 9 sampleTodo none ErrRecordNotFound rfl,
    (FindByID_failure_not_found Mem memTodoService (memUserService sampleHash)
      (World.init sampleMem)).2.2.2.1 9 none repositoryErrPenggunaTidakDitemukan (by decide)
      rfl⟩

/-- C14. Invalid credentials: a failed lookup of the username, whatever the
error, and a password that `bcrypt` does not accept for the stored hash give
the same result, the empty token and `ErrKredensialTidakValid`; the calls are
the lookup, resp. the lookup and the comparison, so the token issuer is not
invoked. -/
theorem Login_invalid_credentials (σ : Type) (s : userService σ) (timeNow : σ → Time × σ)
    (username password : String) (w : World σ) :
    (∀ x e, (s.userRepository.FindByUsername username w.st).1 = (x, some e) →
      s.Login timeNow username password w = (.ret ("", some ErrKredensialTidakValid),
        ⟨(s.userRepository.FindByUsername username w.st).2,
          w.trace ++ [⟨.userFindByUsername username, true⟩]⟩)) ∧
    (∀ u e, (s.userRepository.FindByUsername username w.st).1 = (some u, none) →
      (s.bcrypt.CompareHashAndPassword u.Password password
        (s.userRepository.FindByUsername username w.st).2).1 = some e →
      s.Login timeNow username password w = (.ret ("", some ErrKredensialTidakValid),
        ⟨(s.bcrypt.CompareHashAndPassword u.Password password
            (s.userRepository.FindByUsername username w.st).2).2,
          w.trace ++ [⟨.userFindByUsername username, false⟩,
            ⟨.bcryptCompare u.Password password, true⟩]⟩)) ∧
    (∀ (s2 : userService σ) (timeNow2 : σ → Time × σ) (username2 password2 : String)
      (w2 : World σ) x e u e2,
      (s.userRepository.FindByUsername username w.st).1 = (x, some e) →
      (s2.userRepository.FindByUsername username2 w2.st).1 = (some u, none) →
      (s2.bcrypt.CompareHashAndPassword u.Password password2
        (s2.userRepository.FindByUsername username2 w2.st).2).1 = some e2 →
      (s.Login timeNow username password w).1 =
        (s2.Login timeNow2 username2 password2 w2).1) := by
  have h1 : ∀ x e, (s.userRepository.FindByUsername username w.st).1 = (x, some e) →
      s.Login timeNow username password w = (.ret ("", some ErrKredensialTidakValid),
        ⟨(s.userRepository.FindByUsername username w.st).2,
          w.trace ++ [⟨.userFindByUsername username, true⟩]⟩) := by
    intro x e h
    simp [userService.Login, World.call, h, HasErr.err]
  refine ⟨h1, ?_, ?_⟩
  · intro u e h hc
    simp [userService.Login, World.call, h, hc, HasErr.err]
  · intro s2 timeNow2 username2 password2 w2 x e u e2 h hf hc
    rw [h1 x e h]
    simp [userService.Login, World.call, hf, hc]

/-- The theorem of C14 at the test `Login_InvalidCredentials` and at an
unknown user. -/
theorem Login_invalid_credentials_witness :
    (clockUserService (none, some repositoryErrPenggunaTidakDitemukan) ("token", none)).Login
        scriptedClock "nobody" "password" (World.init []) =
      (.ret ("", some ErrKredensialTidakValid),
        ⟨[], [⟨.userFindByUsername "nobody", true⟩]⟩) ∧
    ((clockUserService (none, some repositoryErrPenggunaTidakDitemukan) ("token", none)).Login
        scriptedClock "nobody" "password" (World.init [])).1 =
      ((clockUserService (some storedUser, none) ("token", none)).Login
        scriptedClock "user1" "wrongPassword" (World.init [])).1 :=
  ⟨(Login_invalid_credentials (List Time)
      (clockUserService (none, some repositoryErrPenggunaTidakDitemukan) ("token", none))
      scriptedClock "nobody" "password" (World.init [])).1 none
      repositoryErrPenggunaTidakDitemukan rfl,
    (Login_invalid_credentials (List Time)
      (clockUserService (none, some repositoryErrPenggunaTidakDitemukan) ("token", none))
      scriptedClock "nobody" "password" (World.init [])).2.2
      (clockUserService (some storedUser, none) ("token", none)) scriptedClock "user1"
      "wrongPassword" (World.init []) none repositoryErrPenggunaTidakDitemukan storedUser
      (.sentinel "bcrypt.ErrMismatchedHashAndPassword"
        "crypto/bcrypt: hashedPassword is not the hash of the given password")
      rfl rfl (by decide)⟩

/-- C16. An existing username: when the lookup by the username of the new
user returns no error, `userService.CreateUser` returns no user and
`ErrUsernameSudahAda`, leaves the record as it was supplied, the password
included, and the lookup is its only call: no hashing, no persistence
`Create`, no cache call. -/
theorem CreateUser_existing_username (σ : Type) (s : userService σ) (user : User)
    (w : World σ) (x : Option User)
    (hfound : (s.userRepository.FindByUsername user.Username w.st).1 = (x, none)) :
    s.CreateUser user w = ((none, some ErrUsernameSudahAda, user),
      ⟨(s.userRepository.FindByUsername user.Username w.st).2,
        w.trace ++ [⟨.userFindByUsername user.Username, false⟩]⟩) := by
  simp [userService.CreateUser, World.call, hfound, HasErr.err]

/-- The theorem of C16 in the sequential model: the name `user1` is taken. -/
theorem CreateUser_existing_username_witness :
    (memUserService sampleHash).CreateUser ⟨0, "user1", "plain", "user", "Another"⟩
        (World.init twoUsersMem) =
      ((none, some ErrUsernameSudahAda, ⟨0, "user1", "plain", "user", "Another"⟩),
        ⟨twoUsersMem, [⟨.userFindByUsername "user1", false⟩]⟩) :=
  CreateUser_existing_username Mem (memUserService sampleHash)
    ⟨0, "user1", "plain", "user", "Another"⟩ (World.init twoUsersMem) (some storedUser) rfl

/-- Adding 24 hours to a time and cutting it to the second adds 86400 to the
seconds. -/
theorem NewNumericDate_Add_day (t : Time) (ht : t.nsec < Second) :
    NewNumericDate (t.Add (24 * Hour)) = ⟨t.sec + 86400, 0⟩ := by
  have h : (t.nsec + 24 * Hour) / Second = 86400 := by
    simp only [Hour, Minute, Second] at ht ⊢
    omega
  simp [NewNumericDate, Time.Add, h]

/-- C15, as the code has it. When the lookup returns the user `u` and `bcrypt`
accepts the password, `userService.Login` reads the clock twice and invokes
the token issuer once, with the claims that hold the `Username`, the `Role`
and the `FullName` of `u`, the issuer `aplikasi-todo`, as `ExpiresAt` the
first reading plus 24 hours and as `IssuedAt` the second reading, both cut to
the second. `ExpiresAt` is `IssuedAt` plus 24 hours when the two readings fall
in the same second. `Login` returns the token of the issuer and no error, or
the empty token and an error that wraps the error of the issuer. -/
theorem Login_issues_token (σ : Type) (s : userService σ) (timeNow : σ → Time × σ)
    (username password : String) (w : World σ) (u : User) (st2 : σ) (now1 now2 : Time)
    (hfind : (s.userRepository.FindByUsername username w.st).1 = (some u, none))
    (hcmp : s.bcrypt.CompareHashAndPassword u.Password password
      (s.userRepository.FindByUsername username w.st).2 = (none, st2))
    (hnow1 : (timeNow st2).1 = now1) (hnow2 : (timeNow (timeNow st2).2).1 = now2) :
    (s.Login timeNow username password w).2.trace = w.trace ++
      [⟨.userFindByUsername username, false⟩, ⟨.bcryptCompare u.Password password, false⟩,
        ⟨.timeNow, false⟩, ⟨.timeNow, false⟩,
        ⟨.tokenGenerate ⟨u.Username, u.Role, u.FullName, "aplikasi-todo",
            NewNumericDate (now1.Add (24 * Hour)), NewNumericDate now2⟩,
          (s.tokenUseCase.GenerateAccessToken ⟨u.Username, u.Role, u.FullName, "aplikasi-todo",
            NewNumericDate (now1.Add (24 * Hour)), NewNumericDate now2⟩
            (timeNow (timeNow st2).2).2).1.2.isSome⟩] ∧
    (∀ token, (s.tokenUseCase.GenerateAccessToken ⟨u.Username, u.Role, u.FullName,
        "aplikasi-todo", NewNumericDate (now1.Add (24 * Hour)), NewNumericDate now2⟩
        (timeNow (timeNow st2).2).2).1 = (token, none) →
      (s.Login timeNow username password w).1 = .ret (token, none)) ∧
    (∀ token e, (s.tokenUseCase.GenerateAccessToken ⟨u.Username, u.Role, u.FullName,
        "aplikasi-todo", NewNumericDate (now1.Add (24 * Hour)), NewNumericDate now2⟩
        (timeNow (timeNow st2).2).2).1 = (token, some e) →
      (s.Login timeNow username password w).1 =
        .ret ("", some (Errorf_w "gagal membuat token: " e)) ∧
      (Errorf_w "gagal membuat token: " e).Unwrap = some e) ∧
    (now1.nsec < Second → now1.sec = now2.sec →
      NewNumericDate (now1.Add (24 * Hour)) = (NewNumericDate now2).Add (24 * Hour)) ∧
    (now1.nsec < Second →
      NewNumericDate (now1.Add (24 * Hour)) = ⟨now1.sec + 86400, 0⟩) := by
  subst hnow1 hnow2
  refine ⟨?_, ?_, ?_, ?_, ?_⟩
  · rcases ht : (s.tokenUseCase.GenerateAccessToken ⟨u.Username, u.Role, u.FullName,
        "aplikasi-todo", NewNumericDate ((timeNow st2).1.Add (24 * Hour)),
        NewNumericDate (timeNow (timeNow st2).2).1⟩ (timeNow (timeNow st2).2).2).1
      with ⟨tok, _ | e⟩ <;>
      simp [userService.Login, World.call, hfind, hcmp, ht, HasErr.err]
  · intro token ht
    simp [userService.Login, World.call, hfind, hcmp, ht]
  · intro token e ht
    refine ⟨?_, rfl⟩
    simp [userService.Login, World.call, hfind, hcmp, ht]
  · intro hn hs
    rw [NewNumericDate_Add_day _ hn, hs]
    have h0 : (NewNumericDate (timeNow (timeNow st2).2).1).nsec < Second := by
      simp [NewNumericDate, Second]
    have := NewNumericDate_Add_day (NewNumericDate (timeNow (timeNow st2).2).1) h0
    simp only [NewNumericDate] at this ⊢
    rw [← this]
    simp [Time.Add, Hour, Minute, Second]
  · intro hn
    exact NewNumericDate_Add_day _ hn

/-- The theorem of C15 at a login whose two readings of the clock fall in the
same second. -/
theorem Login_issues_token_witness :
    ((clockUserService (some storedUser, none) ("mockToken", none)).Login scriptedClock
        "user1" "password" (World.init [⟨100, 5⟩, ⟨100, 900⟩])).1 = .ret ("mockToken", none) ∧
    ((clockUserService (some storedUser, none) ("mockToken", none)).Login scriptedClock
        "user1" "password" (World.init [⟨100, 5⟩, ⟨100, 900⟩])).2.trace =
      [⟨.userFindByUsername "user1", false⟩,
        ⟨.bcryptCompare "$2a$10$password" "password", false⟩,
        ⟨.timeNow, false⟩, ⟨.timeNow, false⟩,
        ⟨.tokenGenerate ⟨"user1", "user", "User One", "aplikasi-todo", ⟨86500, 0⟩, ⟨100, 0⟩⟩,
          false⟩] :=
  have h := Login_issues_token (List Time)
    (clockUserService (some storedUser, none) ("mockToken", none)) scriptedClock
    "user1" "password" (World.init [⟨100, 5⟩, ⟨100, 900⟩]) storedUser [⟨100, 5⟩, ⟨100, 900⟩]
    ⟨100, 5⟩ ⟨100, 900⟩ rfl (by decide) rfl rfl
  ⟨h.2.1 "mockToken" rfl, by decide⟩

/-- C15, as stated, fails when the second turns between the two readings of
the clock: the login at 100.999999999 s reads the clock again at 101 s, and
the claims hold the expiry 86500 s and the issued-at 101 s, which are not 24
hours apart. -/
theorem Login_expiry_not_issued_plus_day :
    ((clockUserService (some storedUser, none) ("mockToken", none)).Login scriptedClock
        "user1" "password" (World.init [⟨100, 999999999⟩, ⟨101, 0⟩])).2.trace =
      [⟨.userFindByUsername "user1", false⟩,
        ⟨.bcryptCompare "$2a$10$password" "password", false⟩,
        ⟨.timeNow, false⟩, ⟨.timeNow, false⟩,
        ⟨.tokenGenerate ⟨"user1", "user", "User One", "aplikasi-todo", ⟨86500, 0⟩, ⟨101, 0⟩⟩,
          false⟩] ∧
    (⟨86500, 0⟩ : Time) ≠ (⟨101, 0⟩ : Time).Add (24 * Hour) := by
  decide

/-- The hash of the examples is never the password. -/
theorem sampleHash_ne (pw : String) : (sampleHash pw).1 ≠ pw := by
  intro h
  have hl := congrArg String.length h
  simp [sampleHash, String.length_append] at hl
  have h7 : "$2a$10$".length = 7 := by decide
  omega

/-- Every record that `userService.CreateUser` passes to the persistence
`Create` is the record it was given with, as the password, what `bcrypt`
returned without an error for the password it was given. -/
theorem user_CreateUser_record {σ : Type} (s : userService σ) (user : User) (w : World σ)
    (ev : Event) (u : User) (hev : ev ∈ w.since (s.CreateUser user w).2)
    (hcall : ev.call = .userCreate u) :
    ∃ hp, (s.bcrypt.GenerateFromPassword user.Password
        (s.userRepository.FindByUsername user.Username w.st).2).1 = (hp, none) ∧
      u = ⟨user.ID, user.Username, hp, user.Role, user.FullName⟩ := by
  rcases h : (s.userRepository.FindByUsername user.Username w.st).1 with ⟨x, _ | e⟩
  · simp [userService.CreateUser, World.call, World.since, h] at hev
    simp [hev] at hcall
  · rcases h2 : (s.bcrypt.GenerateFromPassword user.Password
      (s.userRepository.FindByUsername user.Username w.st).2).1 with ⟨hp, _ | e2⟩
    · refine ⟨hp, rfl, ?_⟩
      rcases h3 : (s.userRepository.Create { user with Password := hp }
        (s.bcrypt.GenerateFromPassword user.Password
          (s.userRepository.FindByUsername user.Username w.st).2).2).1 with ⟨c, _ | e3⟩
      · simp [userService.CreateUser, World.call, World.since, h, h2, h3] at hev
        rcases hev with hev | hev | hev | hev <;> simp [hev] at hcall
        rw [← hcall]
      · simp [userService.CreateUser, World.call, World.since, h, h2, h3] at hev
        rcases hev with hev | hev | hev <;> simp [hev] at hcall
        rw [← hcall]
    · simp [userService.CreateUser, World.call, World.since, h, h2] at hev
      rcases hev with hev | hev <;> simp [hev] at hcall

/-- C17. A new user: when the lookup of the username returns an error and
`bcrypt` returns the hash `h` for the supplied password, the record that
`userService.CreateUser` passes to the persistence `Create` has the password
`h` and the id, the username, the role and the full name as supplied. In
every run, whatever the ports answer, a record that is passed to `Create`
holds as its password what `bcrypt` returned for the supplied password, so
with a `bcrypt` that never returns its input no record with the plaintext is
passed. When `Create` succeeds the record it returned is returned with no
error; when it fails no record is returned and the error that is returned
wraps its error. -/
theorem CreateUser_hashes_password (σ : Type) (s : userService σ) (user : User) (w : World σ)
    (x : Option User) (e : GoError) (h : String)
    (hfree : (s.userRepository.FindByUsername user.Username w.st).1 = (x, some e))
    (hhash : (s.bcrypt.GenerateFromPassword user.Password
      (s.userRepository.FindByUsername user.Username w.st).2).1 = (h, none)) :
    (∃ rest, (s.CreateUser user w).2.trace = w.trace ++
      ⟨.userFindByUsername user.Username, true⟩ :: ⟨.bcryptGenerate user.Password, false⟩ ::
      ⟨.userCreate ⟨user.ID, user.Username, h, user.Role, user.FullName⟩,
        (s.userRepository.Create ⟨user.ID, user.Username, h, user.Role, user.FullName⟩
          (s.bcrypt.GenerateFromPassword user.Password
            (s.userRepository.FindByUsername user.Username w.st).2).2).1.2.isSome⟩ :: rest ∧
      (rest = [] ∨ ∃ f, rest = [⟨.cacheDelete "pengguna:semua", f⟩])) ∧
    (∀ (user1 : User) (w1 : World σ) (ev : Event) (u : User),
      ev ∈ w1.since (s.CreateUser user1 w1).2 → ev.call = .userCreate u →
      ∃ hp, (s.bcrypt.GenerateFromPassword user1.Password
          (s.userRepository.FindByUsername user1.Username w1.st).2).1 = (hp, none) ∧
        u = ⟨user1.ID, user1.Username, hp, user1.Role, user1.FullName⟩) ∧
    ((∀ pw st hp, (s.bcrypt.GenerateFromPassword pw st).1 = (hp, none) → hp ≠ pw) →
      ∀ (user1 : User) (w1 : World σ) (ev : Event) (u : User),
        ev ∈ w1.since (s.CreateUser user1 w1).2 → ev.call = .userCreate u →
        u.Password ≠ user1.Password) ∧
    (∀ c, (s.userRepository.Create ⟨user.ID, user.Username, h, user.Role, user.FullName⟩
        (s.bcrypt.GenerateFromPassword user.Password
          (s.userRepository.FindByUsername user.Username w.st).2).2).1 = (c, none) →
      (s.CreateUser user w).1.1 = c ∧ (s.CreateUser user w).1.2.1 = none) ∧
    (∀ c e3, (s.userRepository.Create ⟨user.ID, user.Username, h, user.Role, user.FullName⟩
        (s.bcrypt.GenerateFromPassword user.Password
          (s.userRepository.FindByUsername user.Username w.st).2).2).1 = (c, some e3) →
      (s.CreateUser user w).1.1 = none ∧
      (s.CreateUser user w).1.2.1 = some (Errorf_w "gagal membuat pengguna: " e3) ∧
      (Errorf_w "gagal membuat pengguna: " e3).Unwrap = some e3) := by
  refine ⟨?_, ?_, ?_, ?_, ?_⟩
  · rcases h3 : (s.userRepository.Create ⟨user.ID, user.Username, h, user.Role, user.FullName⟩
        (s.bcrypt.GenerateFromPassword user.Password
          (s.userRepository.FindByUsername user.Username w.st).2).2).1 with ⟨c, _ | e3⟩
    · exact ⟨[⟨.cacheDelete "pengguna:semua",
        (s.cacheable.Delete "pengguna:semua"
          (s.userRepository.Create ⟨user.ID, user.Username, h, user.Role, user.FullName⟩
            (s.bcrypt.GenerateFromPassword user.Password
              (s.userRepository.FindByUsername user.Username w.st).2).2).2).1.isSome⟩],
        by simp [userService.CreateUser, World.call, hfree, hhash, h3, HasErr.err],
        Or.inr ⟨_, rfl⟩⟩
    · exact ⟨[], by simp [userService.CreateUser, World.call, hfree, hhash, h3, HasErr.err],
        Or.inl rfl⟩
  · intro user1 w1 ev u hev hcall
    exact user_CreateUser_record s user1 w1 ev u hev hcall
  · intro hb user1 w1 ev u hev hcall
    obtain ⟨hp, hh, hu⟩ := user_CreateUser_record s user1 w1 ev u hev hcall
    rw [hu]
    exact hb _ _ hp hh
  · intro c h3
    simp [userService.CreateUser, World.call, hfree, hhash, h3]
  · intro c e3 h3
    refine ⟨?_, ?_, rfl⟩ <;> simp [userService.CreateUser, World.call, hfree, hhash, h3]

/-- The theorem of C17 in the sequential model: a user with a new name is
passed to `Create` with the hash of the password, which is not the password,
and the record that the store returned is returned. -/
theorem CreateUser_hashes_password_witness :
    ((memUserService sampleHash).CreateUser ⟨0, "newUser", "password", "user", "New User"⟩
        (World.init twoUsersMem)).1.1 =
      some ⟨3, "newUser", "$2a$10$password", "user", "New User"⟩ ∧
    ((memUserService sampleHash).CreateUser ⟨0, "newUser", "password", "user", "New User"⟩
        (World.init twoUsersMem)).1.2.1 = none ∧
    ((memUserService sampleHash).CreateUser ⟨0, "newUser", "password", "user", "New User"⟩
        (World.init twoUsersMem)).2.trace =
      [⟨.userFindByUsername "newUser", true⟩, ⟨.bcryptGenerate "password", false⟩,
        ⟨.userCreate ⟨0, "newUser", "$2a$10$password", "user", "New User"⟩, false⟩,
        ⟨.cacheDelete "pengguna:semua", false⟩] ∧
    (⟨0, "newUser", "$2a$10$password", "user", "New User"⟩ : User).Password ≠
      (⟨0, "newUser", "password", "user", "New User"⟩ : User).Password :=
  have h := CreateUser_hashes_password Mem (memUserService sampleHash)
    ⟨0, "newUser", "password", "user", "New User"⟩ (World.init twoUsersMem) none
    repositoryErrPenggunaTidakDitemukan "$2a$10$password" rfl rfl
  ⟨(h.2.2.2.1 (some ⟨3, "newUser", "$2a$10$password", "user", "New User"⟩) (by decide)).1,
    (h.2.2.2.1 (some ⟨3, "newUser", "$2a$10$password", "user", "New User"⟩) (by decide)).2,
    by decide,
    h.2.2.1 (fun pw _ hp hh => by
        have h1 : hp = (sampleHash pw).1 := by
          simp only [memUserService, pureBcrypt] at hh
          exact (congrArg Prod.fst hh).symm
        rw [h1]
        exact sampleHash_ne pw)
      ⟨0, "newUser", "password", "user", "New User"⟩ (World.init twoUsersMem)
      ⟨.userCreate ⟨0, "newUser", "$2a$10$password", "user", "New User"⟩, false⟩
      ⟨0, "newUser", "$2a$10$password", "user", "New User"⟩ (by decide) rfl⟩

/-! ### Usernames in the sequential model -/

/-- A lookup by id leaves the table of users. -/
theorem memUserRepo_FindByID_users (id : Int) (m : Mem) :
    (memUserRepo.FindByID id m).2.users = m.users := by
  simp only [memUserRepo, memUserFindByID, Mem.fault]
  split_ifs
  · rfl
  · split <;> rfl

/-- A lookup by name leaves the table of users. -/
theorem memUserRepo_FindByUsername_users (name : String) (m : Mem) :
    (memUserRepo.FindByUsername name m).2.users = m.users := by
  simp only [memUserRepo, Mem.fault]
  split_ifs
  · rfl
  · split <;> rfl

/-- A lookup by name that is not made to fail returns an error only when no
stored user has the name. -/
theorem memUserRepo_FindByUsername_error (name : String) (m : Mem) (x : Option User)
    (e : GoError) (hfault : m.faults.headD false = false)
    (h : (memUserRepo.FindByUsername name m).1 = (x, some e)) :
    ∀ u ∈ m.users, u.Username ≠ name := by
  simp only [memUserRepo, Mem.fault, hfault] at h
  cases hfind : m.users.find? (fun u => u.Username = name) with
  | some u => rw [hfind] at h; simp at h
  | none =>
    intro u hu
    have := List.find?_eq_none.1 hfind u hu
    simpa using this

/-- The table of users after `Delete` is a part of the table before. -/
theorem memUserRepo_Delete_users (id : Int) (m : Mem) :
    (memUserRepo.Delete id m).2.users.Sublist m.users := by
  simp only [memUserRepo, Mem.fault]
  split_ifs
  · exact List.Sublist.refl _
  · exact List.filter_sublist _
  · exact List.Sublist.refl _

/-- The table of users after `Create` is the table before, or the table
before with one more user of the given name. -/
theorem memUserRepo_Create_users (user : User) (m : Mem) :
    (memUserRepo.Create user m).2.users = m.users ∨
      ∃ u : User, u.Username = user.Username ∧
        (memUserRepo.Create user m).2.users = m.users ++ [u] := by
  simp only [memUserRepo, Mem.fault]
  split_ifs
  · exact Or.inl rfl
  · exact Or.inl rfl
  · exact Or.inr ⟨{ user with ID := nextID (m.users.map (·.ID)) }, rfl, rfl⟩
  · exact Or.inl rfl
  · exact Or.inr ⟨user, rfl, rfl⟩

/-- The users after `DeleteUser` in the sequential model are among the users
before. -/
theorem mem_DeleteUser_sublist (hash : String → String × Option GoError) (id : Int) (m : Mem) :
    (((memUserService hash).DeleteUser id (World.init m)).2.st.users).Sublist m.users := by
  by_cases hid : id ≤ 0
  · simp [userService.DeleteUser, hid, World.init]
  · rcases hf : (memUserRepo.FindByID id m).1 with ⟨x, _ | e⟩
    · rcases hd : (memUserRepo.Delete id (memUserRepo.FindByID id m).2).1 with _ | e
      · simp only [userService.DeleteUser, memUserService, World.call, World.init, hid, hf, hd,
          memCache, if_false]
        have := memUserRepo_Delete_users id (memUserRepo.FindByID id m).2
        rw [memUserRepo_FindByID_users] at this
        exact this
      · simp only [userService.DeleteUser, memUserService, World.call, World.init, hid, hf, hd,
          memCache, if_false]
        have := memUserRepo_Delete_users id (memUserRepo.FindByID id m).2
        rw [memUserRepo_FindByID_users] at this
        exact this
    · simp only [userService.DeleteUser, memUserService, World.call, World.init, hid, hf,
          if_false]
      rw [memUserRepo_FindByID_users]

/-- The names stay pairwise distinct under `CreateUser` in the sequential
model when the lookup by name is not made to fail. -/
theorem mem_CreateUser_nodup (hash : String → String × Option GoError) (user : User) (m : Mem)
    (hfault : m.faults.headD false = false)
    (hm : (m.users.map (·.Username)).Nodup) :
    ((((memUserService hash).CreateUser user (World.init m)).2.st.users).map
      (·.Username)).Nodup := by
  rcases hf : (memUserRepo.FindByUsername user.Username m).1 with ⟨x, _ | e⟩
  · simp only [userService.CreateUser, memUserService, World.call, World.init, hf]
    rw [memUserRepo_FindByUsername_users]
    exact hm
  · have hfree := memUserRepo_FindByUsername_error user.Username m x e hfault hf
    rcases hh : hash user.Password with ⟨hp, _ | e1⟩
    · rcases hc : (memUserRepo.Create { user with Password := hp }
          (memUserRepo.FindByUsername user.Username m).2).1 with ⟨y, _ | e2⟩
      all_goals
        simp only [userService.CreateUser, memUserService, World.call, World.init, hf, hh, hc,
          pureBcrypt, memCache]
        rcases memUserRepo_Create_users { user with Password := hp }
          (memUserRepo.FindByUsername user.Username m).2 with h1 | ⟨u, hu, h1⟩
        · rw [h1, memUserRepo_FindByUsername_users]; exact hm
        · rw [h1, memUserRepo_FindByUsername_users, List.map_append]
          refine List.Nodup.append hm (List.nodup_singleton _) ?_
          intro v hv hvu
          rw [List.map_cons, List.map_nil, List.mem_singleton] at hvu
          obtain ⟨x1, hx1, rfl⟩ := List.mem_map.1 hv
          exact hfree x1 hx1 (hvu.trans hu)
    · simp only [userService.CreateUser, memUserService, World.call, World.init, hf, hh,
          pureBcrypt]
      rw [memUserRepo_FindByUsername_users]
      exact hm

/-- C18 (divergence). Pairwise distinct usernames are not an invariant of the
sequential model. `DeleteUser` keeps them distinct, and `CreateUser` keeps
them distinct as long as its lookup by name is not made to fail. But
`UpdateUser` assigns a new username with no lookup: renaming user 2 to
`user1` in the table of `user1` and `user2` succeeds and leaves two users
named `user1`. And `CreateUser` takes every error of the lookup for a free
name: when the lookup fails with a database error, a second `user1` is
created. -/
theorem username_uniqueness_broken :
    (∀ (hash : String → String × Option GoError) (id : Int) (m : Mem),
      (m.users.map (·.Username)).Nodup →
      ((((memUserService hash).DeleteUser id (World.init m)).2.st.users).map
        (·.Username)).Nodup) ∧
    (∀ (hash : String → String × Option GoError) (user : User) (m : Mem),
      m.faults.headD false = false → (m.users.map (·.Username)).Nodup →
      ((((memUserService hash).CreateUser user (World.init m)).2.st.users).map
        (·.Username)).Nodup) ∧
    (twoUsersMem.users.map (·.Username)).Nodup ∧
    ((memUserService sampleHash).UpdateUser ⟨2, "user1", "", "", ""⟩ (World.init twoUsersMem)).1 =
      .ret (some ⟨2, "user1", "$2a$10$secret", "admin", "User Two"⟩, none) ∧
    (((memUserService sampleHash).UpdateUser ⟨2, "user1", "", "", ""⟩
      (World.init twoUsersMem)).2.st.users.map (·.Username)) = ["user1", "user1"] ∧
    ((memUserService sampleHash).CreateUser ⟨0, "user1", "pw", "user", "Second"⟩
      (World.init { twoUsersMem with faults := [true] })).1.1 =
      some ⟨3, "user1", "$2a$10$pw", "user", "Second"⟩ ∧
    ((memUserService sampleHash).CreateUser ⟨0, "user1", "pw", "user", "Second"⟩
      (World.init { twoUsersMem with faults := [true] })).1.2.1 = none ∧
    (((memUserService sampleHash).CreateUser ⟨0, "user1", "pw", "user", "Second"⟩
      (World.init { twoUsersMem with faults := [true] })).2.st.users.map (·.Username)) =
      ["user1", "user2", "user1"] ∧
    ¬ (["user1", "user1"] : List String).Nodup ∧
    ¬ (["user1", "user2", "user1"] : List String).Nodup := by
  refine ⟨fun hash id m hm => ?_, mem_CreateUser_nodup, by decide, by decide, by decide,
    by decide, by decide, by decide, by decide, by decide⟩
  exact List.Nodup.sublist ((mem_DeleteUser_sublist hash id m).map _) hm

/-! ### Roles through the handlers -/

/-- Every record that `userService.CreateUser` passes to the persistence
`Create` has the role of the record it was given. -/
theorem user_CreateUser_role {σ : Type} (s : userService σ) (user : User) (w : World σ)
    (ev : Event) (u : User) (hev : ev ∈ w.since (s.CreateUser user w).2)
    (hcall : ev.call = .userCreate u) : u.Role = user.Role := by
  rcases h : (s.userRepository.FindByUsername user.Username w.st).1 with ⟨x, _ | e⟩
  · simp [userService.CreateUser, World.call, World.since, h] at hev
    simp [hev] at hcall
  · rcases h2 : (s.bcrypt.GenerateFromPassword user.Password
      (s.userRepository.FindByUsername user.Username w.st).2).1 with ⟨hp, _ | e2⟩
    · rcases h3 : (s.userRepository.Create { user with Password := hp }
        (s.bcrypt.GenerateFromPassword user.Password
          (s.userRepository.FindByUsername user.Username w.st).2).2).1 with ⟨c, _ | e3⟩
      · simp [userService.CreateUser, World.call, World.since, h, h2, h3] at hev
        rcases hev with hev | hev | hev | hev <;> simp [hev] at hcall
        rw [← hcall]
      · simp [userService.CreateUser, World.call, World.since, h, h2, h3] at hev
        rcases hev with hev | hev | hev <;> simp [hev] at hcall
        rw [← hcall]
    · simp [userService.CreateUser, World.call, World.since, h, h2] at hev
      rcases hev with hev | hev <;> simp [hev] at hcall

/-- The one record that the tail of `userService.UpdateUser` passes to the
persistence `Update` is the record it was given. -/
theorem user_updateTail_record {σ : Type} (s : userService σ) (eu : Option User) (w : World σ)
    (ev : Event) (u : Option User) (hev : ev ∈ w.since (userService.updateTail s eu w).2)
    (hcall : ev.call = .userUpdate u) : u = eu := by
  obtain ⟨rest, hrest, hr⟩ := user_updateTail_trace s eu w
  simp only [World.since, hrest, List.drop_left, List.mem_cons] at hev
  rcases hev with hev | hev
  · simp [hev] at hcall
    exact hcall.symm
  · rcases hr with hr | ⟨f, hr⟩
    · simp [hr] at hev
    · simp [hr] at hev
      simp [hev] at hcall


/-- The calls since `w` of a tail of `userService.UpdateUser` that starts
after the calls `pre`: they are `pre` and the calls of the tail. -/
theorem since_updateTail {σ : Type} (s : userService σ) (eu : Option User) (w w1 : World σ)
    (pre : List Event) (h1 : w1.trace = w.trace ++ pre) :
    w.since (userService.updateTail s eu w1).2 =
      pre ++ w1.since (userService.updateTail s eu w1).2 := by
  obtain ⟨rest, hrest, _⟩ := user_updateTail_trace s eu w1
  simp only [World.since, hrest, List.drop_left]
  rw [h1, List.append_assoc, List.drop_left]

/-- Every record that `userService.UpdateUser` passes to the persistence
`Update` has the role of the payload when that is non-empty, and the role of
the record that `FindByID` returned otherwise. -/
theorem user_UpdateUser_role {σ : Type} (s : userService σ) (P : User) (w : World σ)
    (ev : Event) (u : User) (hev : ev ∈ w.since (s.UpdateUser P w).2)
    (hcall : ev.call = .userUpdate (some u)) :
    ∃ E, (s.userRepository.FindByID P.ID w.st).1 = (some E, none) ∧
      u.Role = (if P.Role ≠ "" then P.Role else E.Role) := by
  have hrole : ∀ E : User, (userService.mergeUser E P).Role =
      (if P.Role ≠ "" then P.Role else E.Role) := by
    intro E
    simp only [userService.mergeUser]
    split_ifs <;> rfl
  by_cases hid : P.ID ≤ 0
  · simp [userService.UpdateUser, hid, World.since] at hev
  · rcases h : (s.userRepository.FindByID P.ID w.st).1 with ⟨_ | E, _ | e⟩
    · by_cases hn : P.FullName ≠ "" ∨ P.Role ≠ "" ∨ P.Username ≠ ""
      · simp [userService.UpdateUser, hid, World.call, World.since, h, hn] at hev
        simp [hev] at hcall
      · by_cases hp : P.Password ≠ ""
        · rcases h2 : (s.bcrypt.GenerateFromPassword P.Password
            (s.userRepository.FindByID P.ID w.st).2).1 with ⟨hh, _ | e2⟩ <;>
          · simp [userService.UpdateUser, hid, World.call, World.since, h, hn, hp, h2] at hev
            rcases hev with hev | hev <;> simp [hev] at hcall
        · have heq : s.UpdateUser P w = userService.updateTail s none
              ⟨(s.userRepository.FindByID P.ID w.st).2,
                w.trace ++ [⟨.userFindByID P.ID, false⟩]⟩ := by
            simp [userService.UpdateUser, hid, World.call, h, hn, hp, HasErr.err]
          rw [heq, since_updateTail s none w _ [⟨.userFindByID P.ID, false⟩] rfl] at hev
          rcases List.mem_append.1 hev with hev | hev
          · simp at hev
            simp [hev] at hcall
          · have := user_updateTail_record s none _ ev (some u) hev hcall
            cases this
    · simp [userService.UpdateUser, hid, World.call, World.since, h] at hev
      simp [hev] at hcall
    · refine ⟨E, rfl, ?_⟩
      by_cases hp : P.Password ≠ ""
      · rcases h2 : (s.bcrypt.GenerateFromPassword P.Password
          (s.userRepository.FindByID P.ID w.st).2).1 with ⟨hh, _ | e2⟩
        · have heq : s.UpdateUser P w = userService.updateTail s
              (some { userService.mergeUser E P with Password := hh })
              ⟨(s.bcrypt.GenerateFromPassword P.Password
                  (s.userRepository.FindByID P.ID w.st).2).2,
                w.trace ++ [⟨.userFindByID P.ID, false⟩,
                  ⟨.bcryptGenerate P.Password, false⟩]⟩ := by
            simp [userService.UpdateUser, hid, World.call, h, hp, h2, HasErr.err]
          rw [heq, since_updateTail s _ w _ [⟨.userFindByID P.ID, false⟩,
            ⟨.bcryptGenerate P.Password, false⟩] rfl] at hev
          rcases List.mem_append.1 hev with hev | hev
          · simp at hev
            rcases hev with hev | hev <;> simp [hev] at hcall
          · have := user_updateTail_record s _ _ ev (some u) hev hcall
            simp only [Option.some.injEq] at this
            rw [this]
            exact hrole E
        · simp [userService.UpdateUser, hid, World.call, World.since, h, hp, h2] at hev
          rcases hev with hev | hev <;> simp [hev] at hcall
      · have heq : s.UpdateUser P w = userService.updateTail s
            (some (userService.mergeUser E P))
            ⟨(s.userRepository.FindByID P.ID w.st).2,
              w.trace ++ [⟨.userFindByID P.ID, false⟩]⟩ := by
          simp [userService.UpdateUser, hid, World.call, h, hp, HasErr.err]
        rw [heq, since_updateTail s _ w _ [⟨.userFindByID P.ID, false⟩] rfl] at hev
        rcases List.mem_append.1 hev with hev | hev
        · simp at hev
          simp [hev] at hcall
        · have := user_updateTail_record s _ _ ev (some u) hev hcall
          simp only [Option.some.injEq] at this
          rw [this]
          exact hrole E
    · simp [userService.UpdateUser, hid, World.call, World.since, h] at hev
      simp [hev] at hcall


/-- The handler `CreateUser` makes the calls of `userService.CreateUser` on
the record it builds from the request. -/
theorem UserHandler_CreateUser_world {σ : Type} (s : userService σ) (req : UserRequest)
    (w : World σ) :
    (UserHandler.CreateUser s (.ok req) w).2 =
      (s.CreateUser ⟨0, req.Username, req.Password, req.Role, req.FullName⟩ w).2 := by
  rcases hr : s.CreateUser ⟨0, req.Username, req.Password, req.Role, req.FullName⟩ w
    with ⟨⟨c, _ | e, u1⟩, w1⟩ <;> simp [UserHandler.CreateUser, hr]

/-- The handler `UpdateUser` makes the calls of `userService.UpdateUser` on
the record it builds from the id and the request. -/
theorem UserHandler_UpdateUser_world {σ : Type} (s : userService σ) (idParam : String)
    (id : Int) (req : UserRequest) (w : World σ) (hid : strconvParseInt idParam = some id) :
    (UserHandler.UpdateUser s idParam (.ok req) w).2 =
      (s.UpdateUser ⟨id, req.Username, req.Password, req.Role, req.FullName⟩ w).2 := by
  rcases hr : s.UpdateUser ⟨id, req.Username, req.Password, req.Role, req.FullName⟩ w
    with ⟨_ | _, w1⟩
  · rename_i r
    rcases r with ⟨c, _ | e⟩ <;> simp [UserHandler.UpdateUser, hid, hr]
  · simp [UserHandler.UpdateUser, hid, hr]

/-- C19, as the code has it. For every request that the handlers accept, the
role of the record passed to persistence is the role of the request: every
record that the handler `CreateUser` has passed to `Create` has the role of
the request, and every record that the handler `UpdateUser` has passed to
`Update` has the role of the request when that is non-empty and the role of
the stored record otherwise. No role is rejected; the record has one of the
two roles when the request has (or, on an update, names none and the stored
record has). -/
theorem handlers_pass_role_through (σ : Type) (s : userService σ) (req : UserRequest)
    (w : World σ) :
    (∀ ev u, ev ∈ w.since (UserHandler.CreateUser s (.ok req) w).2 →
      ev.call = .userCreate u →
      u.Role = req.Role ∧ (isRole req.Role → isRole u.Role)) ∧
    (∀ idParam ev u, ev ∈ w.since (UserHandler.UpdateUser s idParam (.ok req) w).2 →
      ev.call = .userUpdate (some u) →
      ∃ id E, strconvParseInt idParam = some id ∧
        (s.userRepository.FindByID id w.st).1 = (some E, none) ∧
        u.Role = (if req.Role ≠ "" then req.Role else E.Role) ∧
        (isRole req.Role ∨ (req.Role = "" ∧ isRole E.Role) → isRole u.Role)) := by
  constructor
  · intro ev u hev hcall
    rw [UserHandler_CreateUser_world] at hev
    have h := user_CreateUser_role s _ w ev u hev hcall
    exact ⟨h, fun hr => by rw [h]; exact hr⟩
  · intro idParam ev u hev hcall
    cases hid : strconvParseInt idParam with
    | none => simp [UserHandler.UpdateUser, hid, World.since] at hev
    | some id =>
      rw [UserHandler_UpdateUser_world s idParam id req w hid] at hev
      obtain ⟨E, hE, hrole⟩ := user_UpdateUser_role s _ w ev u hev hcall
      refine ⟨id, E, rfl, hE, hrole, ?_⟩
      rintro (hr | ⟨hempty, hr⟩)
      · have hne : req.Role ≠ "" := by
          rcases hr with hr | hr <;> rw [hr] <;> decide
        rw [hrole]
        simp only [hne, ne_eq, not_false_eq_true, if_true]
        exact hr
      · rw [hrole]
        simp only [hempty, ne_eq, not_true_eq_false, if_false]
        exact hr

/-- C19, as stated, fails: the store holds the roles `user` and `admin`, the
request to register names the role `root`, the handler answers 201 and the
record passed to `Create`, and stored, has the role `root`. -/
theorem register_with_any_role :
    (∀ u ∈ twoUsersMem.users, isRole u.Role) ∧
    (UserHandler.CreateUser (memUserService sampleHash)
      (.ok ⟨"mallory", "pw", "Mallory", "root"⟩) (World.init twoUsersMem)).1.status = 201 ∧
    (UserHandler.CreateUser (memUserService sampleHash)
      (.ok ⟨"mallory", "pw", "Mallory", "root"⟩) (World.init twoUsersMem)).2.trace =
      [⟨.userFindByUsername "mallory", true⟩, ⟨.bcryptGenerate "pw", false⟩,
        ⟨.userCreate ⟨0, "mallory", "$2a$10$pw", "root", "Mallory"⟩, false⟩,
        ⟨.cacheDelete "pengguna:semua", false⟩] ∧
    (UserHandler.CreateUser (memUserService sampleHash)
      (.ok ⟨"mallory", "pw", "Mallory", "root"⟩) (World.init twoUsersMem)).2.st.users =
      [storedUser, otherUser, ⟨3, "mallory", "$2a$10$pw", "root", "Mallory"⟩] ∧
    ¬ isRole "root" := by
  decide

/-- The theorem of C19 at a request to register an `admin` and at a request
that updates the full name only. -/
theorem handlers_pass_role_through_witness :
    ((⟨.userCreate ⟨0, "newUser", "$2a$10$pw", "admin", "New"⟩, false⟩ : Event) ∈
        (World.init twoUsersMem).since (UserHandler.CreateUser (memUserService sampleHash)
          (.ok ⟨"newUser", "pw", "New", "admin"⟩) (World.init twoUsersMem)).2 ∧
      isRole "admin") ∧
    (∃ id E, strconvParseInt "1" = some id ∧
      ((memUserService sampleHash).userRepository.FindByID id
        (World.init twoUsersMem).st).1 = (some E, none) ∧
      (⟨1, "user1", "$2a$10$password", "user", "Renamed"⟩ : User).Role =
        (if (⟨"", "", "Renamed", ""⟩ : UserRequest).Role ≠ "" then
          (⟨"", "", "Renamed", ""⟩ : UserRequest).Role else E.Role) ∧
      (isRole (⟨"", "", "Renamed", ""⟩ : UserRequest).Role ∨
        ((⟨"", "", "Renamed", ""⟩ : UserRequest).Role = "" ∧ isRole E.Role) →
        isRole (⟨1, "user1", "$2a$10$password", "user", "Renamed"⟩ : User).Role)) :=
  ⟨⟨by decide,
      ((handlers_pass_role_through Mem (memUserService sampleHash)
        ⟨"newUser", "pw", "New", "admin"⟩ (World.init twoUsersMem)).1
        ⟨.userCreate ⟨0, "newUser", "$2a$10$pw", "admin", "New"⟩, false⟩ _ (by decide) rfl).2
        (by decide)⟩,
    (handlers_pass_role_through Mem (memUserService sampleHash) ⟨"", "", "Renamed", ""⟩
      (World.init twoUsersMem)).2 "1"
      ⟨.userUpdate (some ⟨1, "user1", "$2a$10$password", "user", "Renamed"⟩), false⟩ _
      (by decide) rfl⟩

/-! ### The password in the encoding -/

/-- Storing a member of a JSON object into a user leaves the password. -/
theorem setUserField_password (u u1 : User) (m : List Char × JVal)
    (h : setUserField u m = .ok u1) : u1.Password = u.Password := by
  unfold setUserField at h
  simp only [] at h
  split_ifs at h
  all_goals first
    | (cases hd : decodeInt64 m.2 u.ID <;> rw [hd] at h <;> cases h; rfl)
    | (cases hd : decodeString m.2 u.Username <;> rw [hd] at h <;> cases h; rfl)
    | (cases hd : decodeString m.2 u.Role <;> rw [hd] at h <;> cases h; rfl)
    | (cases hd : decodeString m.2 u.FullName <;> rw [hd] at h <;> cases h; rfl)
    | (cases h; rfl)

/-- Storing the members of a JSON object into a user leaves the password. -/
theorem foldlM_setUserField_password (ms : List (List Char × JVal)) (u u1 : User)
    (h : ms.foldlM setUserField u = .ok u1) : u1.Password = u.Password := by
  induction ms generalizing u with
  | nil =>
    simp only [List.foldlM, pure, Except.pure] at h
    cases h
    rfl
  | cons m ms ih =>
    simp only [List.foldlM, bind, Except.bind] at h
    cases hs : setUserField u m with
    | error e => rw [hs] at h; cases h
    | ok u2 =>
      rw [hs] at h
      rw [ih u2 h, setUserField_password u u2 m hs]

/-- A decoded user has no password. -/
theorem decodeUser_password (v : JVal) (u : User) (h : decodeUser v = .ok u) :
    u.Password = "" := by
  cases v with
  | null => cases h; rfl
  | obj ms => exact foldlM_setUserField_password ms User.zero u h
  | bool b => cases h
  | num l => cases h
  | str r s => cases h
  | arr xs => cases h

/-- What the loop of `mapM` returns holds what it was given and results of
the function. -/
theorem mapM_loop_mem {α β : Type} (f : α → Except GoError β) (xs : List α) (acc L : List β)
    (h : List.mapM.loop f xs acc = .ok L) (b : β) (hb : b ∈ L) :
    b ∈ acc ∨ ∃ x ∈ xs, f x = .ok b := by
  induction xs generalizing acc with
  | nil =>
    simp only [List.mapM.loop, pure, Except.pure] at h
    cases h
    exact Or.inl (List.mem_reverse.1 hb)
  | cons x xs ih =>
    simp only [List.mapM.loop, bind, Except.bind] at h
    cases hx : f x with
    | error e => rw [hx] at h; cases h
    | ok y =>
      rw [hx] at h
      rcases ih (y :: acc) h with h1 | ⟨x1, hx1, hf⟩
      · rcases List.mem_cons.1 h1 with h2 | h2
        · exact Or.inr ⟨x, List.mem_cons_self _ _, by rw [hx, h2]⟩
        · exact Or.inl h2
      · exact Or.inr ⟨x1, List.mem_cons_of_mem _ hx1, hf⟩

/-- Every user of a decoded list has no password. -/
theorem unmarshalUsers_password (T : TimeText) (data : String) (L : List User)
    (h : (goJson T).unmarshalUsers data = .ok (some L)) : ∀ u ∈ L, u.Password = "" := by
  intro u hu
  simp only [goJson, unmarshalSlice] at h
  split at h
  · cases h
  · cases h
  · rename_i xs _
    cases hm : xs.mapM decodeUser with
    | error e => rw [hm] at h; cases h
    | ok L1 =>
      rw [hm] at h
      simp only [Functor.map, Except.map] at h
      cases h
      rcases mapM_loop_mem decodeUser xs [] L hm u hu with h1 | ⟨x, _, hx⟩
      · cases h1
      · exact decodeUser_password x u hx
  · cases h

/-- The encoding of a list of users is the encoding of the list with the
passwords blanked. -/
theorem marshalUsers_withoutPassword (T : TimeText) (L : Slice User) :
    (goJson T).marshalUsers L =
      (goJson T).marshalUsers (L.map (fun xs => xs.map User.withoutPassword)) := by
  cases L with
  | none => rfl
  | some xs =>
    simp only [goJson, marshalSlice, Option.map, mapM_ok, List.map_map]
    rfl

/-- C20. The password is not serialized. The JSON encoding of a user is the
same whatever the password is; it is the object of the four members `id`,
`username`, `role` and `full_name`, so it has no password member; a list of
users encodes as the list with the passwords blanked. For every behaviour of
the ports, a value that `userService.FindAll` writes to the cache is the
encoding of the list persistence returned with the passwords blanked. Every
user of a list decoded from a cached text has the empty password, and so has
every user that `FindAll` returns on a cache hit. -/
theorem password_not_serialized (T : TimeText) :
    (∀ (u : User) (p : String), encodeUser { u with Password := p } = encodeUser u) ∧
    (∀ u : User, encodeUser u = encodeObject (userMembers u) ∧
      (userMembers u).map Prod.fst = ["id", "username", "role", "full_name"]) ∧
    (∀ L : Slice User, (goJson T).marshalUsers L =
      (goJson T).marshalUsers (L.map (fun xs => xs.map User.withoutPassword))) ∧
    (∀ (σ : Type) (s : userService σ) (w : World σ) (ev : Event) (key v : String) (d : Nat),
      ev ∈ w.since (s.FindAll (goJson T) w).2 → ev.call = .cacheSet key v d →
      ∃ L : Slice User,
        (s.userRepository.FindAll (s.cacheable.Get "pengguna:semua" w.st).2).1 = (L, none) ∧
        (goJson T).marshalUsers (L.map (fun xs => xs.map User.withoutPassword)) = .ok v) ∧
    (∀ (data : String) (L : List User), (goJson T).unmarshalUsers data = .ok (some L) →
      ∀ u ∈ L, u.Password = "") ∧
    (∀ (σ : Type) (s : userService σ) (w : World σ) (data : String) (L : List User),
      (s.cacheable.Get "pengguna:semua" w.st).1 = (data, none) → data ≠ "" →
      (goJson T).unmarshalUsers data = .ok (some L) →
      (s.FindAll (goJson T) w).1 = (some L, none) ∧ ∀ u ∈ L, u.Password = "") := by
  refine ⟨fun u p => rfl, fun u => ⟨?_, rfl⟩, marshalUsers_withoutPassword T, ?_,
    unmarshalUsers_password T, ?_⟩
  · simp [encodeUser, encodeObject, userMembers, encodeString, List.intercalate, escapeChar]
  · intro σ s w ev key v d hev hcall
    rcases h : (s.cacheable.Get "pengguna:semua" w.st).1 with ⟨data, cerr⟩
    rcases hd : (if cerr = none ∧ data ≠ "" then ((goJson T).unmarshalUsers data).toOption
      else none) with _ | r
    · rcases h2 : (s.userRepository.FindAll (s.cacheable.Get "pengguna:semua" w.st).2).1
        with ⟨L, _ | e⟩
      · obtain ⟨b, hb⟩ := marshalUsers_ok T L
        refine ⟨L, rfl, ?_⟩
        simp [userService.FindAll, World.call, World.since, h, hd, h2, hb] at hev
        rcases hev with hev | hev | hev
        · simp [hev] at hcall
        · simp [hev] at hcall
        · simp [hev] at hcall
          rw [← marshalUsers_withoutPassword, hb, hcall.2.1]
      · simp [userService.FindAll, World.call, World.since, h, hd, h2] at hev
        rcases hev with hev | hev <;> simp [hev] at hcall
    · simp [userService.FindAll, World.call, World.since, h, hd] at hev
      simp [hev] at hcall
  · intro σ s w data L hget hne hdec
    refine ⟨?_, unmarshalUsers_password T data L hdec⟩
    simp [userService.FindAll, World.call, hget, hne, hdec, Except.toOption]

/-- The theorem of C20 at a stored user: the encoding is the text without the
hash, whatever the password; the text of the two stored users is what
`FindAll` writes on a miss in the sequential model; and the list decoded from
that text holds the two users with empty passwords. -/
theorem password_not_serialized_witness :
    String.mk (encodeUser storedUser) =
      "\x7b\"id\":1,\"username\":\"user1\",\"role\":\"user\",\"full_name\":\"User One\"\x7d" ∧
    encodeUser { storedUser with Password := "" } = encodeUser storedUser ∧
    (((memUserService sampleHash).FindAll (goJson rfc3339UTC) (World.init twoUsersMem)).2.st.kv =
      [("pengguna:semua", twoUsersText)]) ∧
    (goJson rfc3339UTC).unmarshalUsers twoUsersText =
      .ok (some [storedUser.withoutPassword, otherUser.withoutPassword]) ∧
    (∀ u ∈ [storedUser.withoutPassword, otherUser.withoutPassword], u.Password = "") :=
  ⟨by decide, (password_not_serialized rfc3339UTC).1 storedUser "", by decide, by decide,
    (password_not_serialized rfc3339UTC).2.2.2.2.1 twoUsersText
      [storedUser.withoutPassword, otherUser.withoutPassword] (by decide)⟩

/-! ### Errors of the mutations -/

/-- What `todoService.Create` returns when the persistence `Create` fails. -/
theorem todo_Create_error {σ : Type} (s : todoService σ) (todo t : Todo) (e : GoError)
    (w : World σ) (h : (s.todoRepository.Create todo w.st).1 = (t, some e)) :
    s.Create todo w = ((Todo.zero, some (.new "gagal menambahkan todo")),
      ⟨(s.todoRepository.Create todo w.st).2, w.trace ++ [⟨.todoCreate todo, true⟩]⟩) := by
  simp [todoService.Create, World.call, h, HasErr.err]

/-- What `todoService.Update` returns when the lookup by id fails. -/
theorem todo_Update_lookup_error {σ : Type} (s : todoService σ) (id : Int) (P : Todo)
    (x : Option Todo) (e : GoError) (w : World σ)
    (h : (s.todoRepository.FindByID id w.st).1 = (x, some e)) :
    s.Update id P w = (.ret (Todo.zero, some (.new "todo tidak ditemukan")),
      ⟨(s.todoRepository.FindByID id w.st).2, w.trace ++ [⟨.todoFindByID id, true⟩]⟩) := by
  simp [todoService.Update, World.call, h, HasErr.err]

/-- What `todoService.Update` returns when the persistence `Update` fails. -/
theorem todo_Update_error {σ : Type} (s : todoService σ) (id : Int) (P E t : Todo)
    (e : GoError) (w : World σ)
    (hfind : (s.todoRepository.FindByID id w.st).1 = (some E, none))
    (h : (s.todoRepository.Update (todoService.mergeTodo E P)
      (s.todoRepository.FindByID id w.st).2).1 = (t, some e)) :
    s.Update id P w = (.ret (Todo.zero, some (.new "gagal memperbarui todo")),
      ⟨(s.todoRepository.Update (todoService.mergeTodo E P)
          (s.todoRepository.FindByID id w.st).2).2,
        w.trace ++ [⟨.todoFindByID id, false⟩,
          ⟨.todoUpdate (todoService.mergeTodo E P), true⟩]⟩) := by
  simp [todoService.Update, World.call, hfind, h, HasErr.err]

/-- What `todoService.Delete` returns when the lookup by id fails. -/
theorem todo_Delete_lookup_error {σ : Type} (s : todoService σ) (id : Int)
    (x : Option Todo) (e : GoError) (w : World σ)
    (h : (s.todoRepository.FindByID id w.st).1 = (x, some e)) :
    s.Delete id w = (some (.new "todo tidak ditemukan"),
      ⟨(s.todoRepository.FindByID id w.st).2, w.trace ++ [⟨.todoFindByID id, true⟩]⟩) := by
  simp [todoService.Delete, World.call, h, HasErr.err]

/-- What `todoService.Delete` returns when the persistence `Delete` fails. -/
theorem todo_Delete_error {σ : Type} (s : todoService σ) (id : Int) (x : Option Todo)
    (e : GoError) (w : World σ)
    (hfind : (s.todoRepository.FindByID id w.st).1 = (x, none))
    (h : (s.todoRepository.Delete id (s.todoRepository.FindByID id w.st).2).1 = some e) :
    s.Delete id w = (some (.new "gagal menghapus todo"),
      ⟨(s.todoRepository.Delete id (s.todoRepository.FindByID id w.st).2).2,
        w.trace ++ [⟨.todoFindByID id, false⟩, ⟨.todoDelete id, true⟩]⟩) := by
  simp [todoService.Delete, World.call, hfind, h, HasErr.err]

/-- What the tail of `userService.UpdateUser` returns when the persistence
`Update` fails. -/
theorem user_updateTail_error {σ : Type} (s : userService σ) (eu x : Option User)
    (e : GoError) (w : World σ) (h : (s.userRepository.Update eu w.st).1 = (x, some e)) :
    (userService.updateTail s eu w).1 =
      .ret (none, some (Errorf_w "gagal memperbarui pengguna: " e)) := by
  simp [userService.updateTail, World.call, h]

/-- What `userService.CreateUser` returns when the persistence `Create`
fails. -/
theorem user_CreateUser_error {σ : Type} (s : userService σ) (user : User)
    (x y : Option User) (e0 e : GoError) (hp : String) (st2 : σ) (w : World σ)
    (hfind : (s.userRepository.FindByUsername user.Username w.st).1 = (x, some e0))
    (hhash : s.bcrypt.GenerateFromPassword user.Password
      (s.userRepository.FindByUsername user.Username w.st).2 = ((hp, none), st2))
    (h : (s.userRepository.Create { user with Password := hp } st2).1 = (y, some e)) :
    (s.CreateUser user w).1.1 = none ∧
    (s.CreateUser user w).1.2.1 = some (Errorf_w "gagal membuat pengguna: " e) := by
  simp [userService.CreateUser, World.call, hfind, hhash, h]

/-- What `userService.UpdateUser` returns when the persistence `Update`
fails: the three ways to the call. -/
theorem user_UpdateUser_error {σ : Type} (s : userService σ) (P : User) (e : GoError)
    (w : World σ) (hid : 0 < P.ID) :
    (∀ E x, (s.userRepository.FindByID P.ID w.st).1 = (some E, none) → P.Password = "" →
      (s.userRepository.Update (some (userService.mergeUser E P))
        (s.userRepository.FindByID P.ID w.st).2).1 = (x, some e) →
      (s.UpdateUser P w).1 = .ret (none, some (Errorf_w "gagal memperbarui pengguna: " e))) ∧
    (∀ E x hp st2, (s.userRepository.FindByID P.ID w.st).1 = (some E, none) →
      P.Password ≠ "" →
      s.bcrypt.GenerateFromPassword P.Password (s.userRepository.FindByID P.ID w.st).2 =
        ((hp, none), st2) →
      (s.userRepository.Update (some { userService.mergeUser E P with Password := hp })
        st2).1 = (x, some e) →
      (s.UpdateUser P w).1 = .ret (none, some (Errorf_w "gagal memperbarui pengguna: " e))) ∧
    (∀ x, (s.userRepository.FindByID P.ID w.st).1 = (none, none) →
      P.FullName = "" → P.Role = "" → P.Username = "" → P.Password = "" →
      (s.userRepository.Update none (s.userRepository.FindByID P.ID w.st).2).1 = (x, some e) →
      (s.UpdateUser P w).1 = .ret (none, some (Errorf_w "gagal memperbarui pengguna: " e))) := by
  have hid1 : ¬ P.ID ≤ 0 := not_le.2 hid
  refine ⟨?_, ?_, ?_⟩
  · intro E x hfind hpw h
    have heq : s.UpdateUser P w = userService.updateTail s (some (userService.mergeUser E P))
        ⟨(s.userRepository.FindByID P.ID w.st).2,
          w.trace ++ [⟨.userFindByID P.ID, false⟩]⟩ := by
      simp [userService.UpdateUser, World.call, hid1, hfind, hpw, HasErr.err]
    rw [heq]
    exact user_updateTail_error s _ x e _ h
  · intro E x hp st2 hfind hpw hhash h
    have heq : s.UpdateUser P w =
        userService.updateTail s (some { userService.mergeUser E P with Password := hp })
        ⟨st2, w.trace ++ [⟨.userFindByID P.ID, false⟩,
          ⟨.bcryptGenerate P.Password, false⟩]⟩ := by
      simp [userService.UpdateUser, World.call, hid1, hfind, hpw, hhash, HasErr.err]
    rw [heq]
    exact user_updateTail_error s _ x e _ h
  · intro x hfind h1 h2 h3 hpw h
    have heq : s.UpdateUser P w = userService.updateTail s none
        ⟨(s.userRepository.FindByID P.ID w.st).2,
          w.trace ++ [⟨.userFindByID P.ID, false⟩]⟩ := by
      simp [userService.UpdateUser, World.call, hid1, hfind, hpw, h1, h2, h3, HasErr.err]
    rw [heq]
    exact user_updateTail_error s _ x e _ h

/-- What `userService.DeleteUser` returns when the persistence `Delete`
fails. -/
theorem user_DeleteUser_error {σ : Type} (s : userService σ) (id : Int) (x : Option User)
    (e : GoError) (w : World σ) (hid : 0 < id)
    (hfind : (s.userRepository.FindByID id w.st).1 = (x, none))
    (h : (s.userRepository.Delete id (s.userRepository.FindByID id w.st).2).1 = some e) :
    (s.DeleteUser id w).1 = some (Errorf_w "gagal menghapus pengguna: " e) := by
  have hid1 : ¬ id ≤ 0 := not_le.2 hid
  simp [userService.DeleteUser, World.call, hid1, hfind, h]

/-- Every error is reachable from itself. -/
theorem GoError.Is_self (e : GoError) : e.Is e = true := by
  cases e <;> simp [GoError.Is]

/-- The error of `fmt.Errorf` with `%w`: unwrapping gives the wrapped error,
which is so reachable, and the message is the prefix and its message. -/
theorem Errorf_w_wraps (pre : String) (e : GoError) :
    (Errorf_w pre e).Unwrap = some e ∧ (Errorf_w pre e).Is e = true ∧
      (Errorf_w pre e).Error = pre ++ e.Error := by
  refine ⟨rfl, ?_, rfl⟩
  simp [Errorf_w, GoError.Is, GoError.Is_self]

/-- The error of `errors.New` wraps nothing: unwrapping gives nothing, and no
other error is reachable from it. -/
theorem new_wraps_nothing (msg : String) (e : GoError) :
    (GoError.new msg).Unwrap = none ∧ (GoError.new msg).Error = msg ∧
      (e ≠ .new msg → (GoError.new msg).Is e = false) := by
  refine ⟨rfl, rfl, fun h => ?_⟩
  simp only [GoError.Is, beq_eq_false_iff_ne, ne_eq]
  exact fun h1 => h h1.symm

/-- C21, as the code has it. When the persistence mutation fails with the
error `e`: `userService.CreateUser`, `UpdateUser` and `DeleteUser` return the
error of `fmt.Errorf` with `%w` on `e`, whose message is the context and the
message of `e` and from which `e` is reached by unwrapping; while
`todoService.Create`, `Update` and `Delete` return a new error with a fixed
message, which wraps nothing, so `e` is not reachable from it. -/
theorem persistence_errors_wrapped_by_users_only (σ : Type) (ts : todoService σ)
    (us : userService σ) (w : World σ) (e : GoError) :
    (∀ (user : User) (x y : Option User) (e0 : GoError) (hp : String) (st2 : σ),
      (us.userRepository.FindByUsername user.Username w.st).1 = (x, some e0) →
      us.bcrypt.GenerateFromPassword user.Password
        (us.userRepository.FindByUsername user.Username w.st).2 = ((hp, none), st2) →
      (us.userRepository.Create { user with Password := hp } st2).1 = (y, some e) →
      (us.CreateUser user w).1.2.1 = some (Errorf_w "gagal membuat pengguna: " e)) ∧
    (∀ (P E : User) (x : Option User), 0 < P.ID →
      (us.userRepository.FindByID P.ID w.st).1 = (some E, none) → P.Password = "" →
      (us.userRepository.Update (some (userService.mergeUser E P))
        (us.userRepository.FindByID P.ID w.st).2).1 = (x, some e) →
      (us.UpdateUser P w).1 = .ret (none, some (Errorf_w "gagal memperbarui pengguna: " e))) ∧
    (∀ (P E : User) (x : Option User) (hp : String) (st2 : σ), 0 < P.ID →
      (us.userRepository.FindByID P.ID w.st).1 = (some E, none) → P.Password ≠ "" →
      us.bcrypt.GenerateFromPassword P.Password (us.userRepository.FindByID P.ID w.st).2 =
        ((hp, none), st2) →
      (us.userRepository.Update (some { userService.mergeUser E P with Password := hp })
        st2).1 = (x, some e) →
      (us.UpdateUser P w).1 = .ret (none, some (Errorf_w "gagal memperbarui pengguna: " e))) ∧
    (∀ (id : Int) (x : Option User), 0 < id →
      (us.userRepository.FindByID id w.st).1 = (x, none) →
      (us.userRepository.Delete id (us.userRepository.FindByID id w.st).2).1 = some e →
      (us.DeleteUser id w).1 = some (Errorf_w "gagal menghapus pengguna: " e)) ∧
    (∀ pre : String, (Errorf_w pre e).Unwrap = some e ∧ (Errorf_w pre e).Is e = true ∧
      (Errorf_w pre e).Error = pre ++ e.Error) ∧
    (∀ (todo t : Todo), (ts.todoRepository.Create todo w.st).1 = (t, some e) →
      (ts.Create todo w).1.2 = some (.new "gagal menambahkan todo")) ∧
    (∀ (id : Int) (P E t : Todo), (ts.todoRepository.FindByID id w.st).1 = (some E, none) →
      (ts.todoRepository.Update (todoService.mergeTodo E P)
        (ts.todoRepository.FindByID id w.st).2).1 = (t, some e) →
      (ts.Update id P w).1 = .ret (Todo.zero, some (.new "gagal memperbarui todo"))) ∧
    (∀ (id : Int) (x : Option Todo), (ts.todoRepository.FindByID id w.st).1 = (x, none) →
      (ts.todoRepository.Delete id (ts.todoRepository.FindByID id w.st).2).1 = some e →
      (ts.Delete id w).1 = some (.new "gagal menghapus todo")) ∧
    (∀ msg : String, (GoError.new msg).Unwrap = none ∧
      (e ≠ .new msg → (GoError.new msg).Is e = false)) := by
  refine ⟨?_, ?_, ?_, ?_, fun pre => Errorf_w_wraps pre e, ?_, ?_, ?_, ?_⟩
  · intro user x y e0 hp st2 hfind hhash h
    exact (user_CreateUser_error us user x y e0 e hp st2 w hfind hhash h).2
  · intro P E x hid hfind hpw h
    exact (user_UpdateUser_error us P e w hid).1 E x hfind hpw h
  · intro P E x hp st2 hid hfind hpw hhash h
    exact (user_UpdateUser_error us P e w hid).2.1 E x hp st2 hfind hpw hhash h
  · intro id x hid hfind h
    exact user_DeleteUser_error us id x e w hid hfind h
  · intro todo t h
    rw [todo_Create_error ts todo t e w h]
  · intro id P E t hfind h
    rw [todo_Update_error ts id P E t e w hfind h]
  · intro id x hfind h
    rw [todo_Delete_error ts id x e w hfind h]
  · intro msg
    exact ⟨(new_wraps_nothing msg e).1, (new_wraps_nothing msg e).2.2⟩

/-- C21, as stated, fails for the todo service: in the sequential model with
the persistence `Create` made to fail with the database error,
`todoService.Create` returns the new error `gagal menambahkan todo`, which
wraps nothing; the database error is not reachable from it. The same holds
for `Delete`, whose second persistence call is made to fail. -/
theorem todo_Create_error_not_wrapped :
    (memTodoRepo.Create sampleTodo { sampleMem with faults := [true] }).1.2 = some dbError ∧
    (memTodoService.Create sampleTodo (World.init { sampleMem with faults := [true] })).1 =
      (Todo.zero, some (.new "gagal menambahkan todo")) ∧
    (memTodoService.Create sampleTodo (World.init { sampleMem with faults := [true] })).2.trace =
      [⟨.todoCreate sampleTodo, true⟩] ∧
    (memTodoService.Delete 1 (World.init { sampleMem with faults := [false, true] })).1 =
      some (.new "gagal menghapus todo") ∧
    (memTodoService.Delete 1 (World.init { sampleMem with faults := [false, true] })).2.trace =
      [⟨.todoFindByID 1, false⟩, ⟨.todoDelete 1, true⟩] ∧
    (GoError.new "gagal menambahkan todo").Unwrap = none ∧
    (GoError.new "gagal menambahkan todo").Is dbError = false ∧
    (GoError.new "gagal menghapus todo").Unwrap = none ∧
    (GoError.new "gagal menghapus todo").Is dbError = false := by
  decide

/-- The theorem of C21 in the sequential model: a failed `Delete` of user 1 is
returned wrapped, a failed `Create` of a todo is replaced. -/
theorem persistence_errors_wrapped_by_users_only_witness :
    ((memUserService sampleHash).DeleteUser 1
        (World.init { sampleMem with faults := [false, true] })).1 =
      some (Errorf_w "gagal menghapus pengguna: " dbError) ∧
    (Errorf_w "gagal menghapus pengguna: " dbError).Unwrap = some dbError ∧
    (Errorf_w "gagal menghapus pengguna: " dbError).Error =
      "gagal menghapus pengguna: database error" ∧
    (memTodoService.Create sampleTodo (World.init { sampleMem with faults := [true] })).1.2 =
      some (.new "gagal menambahkan todo") :=
  have h := persistence_errors_wrapped_by_users_only Mem memTodoService
    (memUserService sampleHash) (World.init { sampleMem with faults := [false, true] }) dbError
  have h2 := persistence_errors_wrapped_by_users_only Mem memTodoService
    (memUserService sampleHash) (World.init { sampleMem with faults := [true] }) dbError
  ⟨h.2.2.2.1 1 (some sampleUser) (by decide) (by decide) (by decide),
    (h.2.2.2.2.1 "gagal menghapus pengguna: ").1, by decide,
    h2.2.2.2.2.2.1 sampleTodo Todo.zero (by decide)⟩

/-- C22. The todo service reports its failures by fixed messages: whatever
the error `e` of the persistence call is, a failed `Create` returns the zero
todo and an error with the message `gagal menambahkan todo`, a failed
persistence `Update` the zero todo and `gagal memperbarui todo`, a failed
persistence `Delete` the message `gagal menghapus todo`, and a failed lookup
by id in `Update` (with the zero todo) and in `Delete` the message
`todo tidak ditemukan`. -/
theorem todo_errors_fixed_messages (σ : Type) (s : todoService σ) (w : World σ) (e : GoError) :
    (∀ (todo t : Todo), (s.todoRepository.Create todo w.st).1 = (t, some e) →
      ∃ err, (s.Create todo w).1 = (Todo.zero, some err) ∧
        err.Error = "gagal menambahkan todo") ∧
    (∀ (id : Int) (P E t : Todo), (s.todoRepository.FindByID id w.st).1 = (some E, none) →
      (s.todoRepository.Update (todoService.mergeTodo E P)
        (s.todoRepository.FindByID id w.st).2).1 = (t, some e) →
      ∃ err, (s.Update id P w).1 = .ret (Todo.zero, some err) ∧
        err.Error = "gagal memperbarui todo") ∧
    (∀ (id : Int) (x : Option Todo), (s.todoRepository.FindByID id w.st).1 = (x, none) →
      (s.todoRepository.Delete id (s.todoRepository.FindByID id w.st).2).1 = some e →
      ∃ err, (s.Delete id w).1 = some err ∧ err.Error = "gagal menghapus todo") ∧
    (∀ (id : Int) (P : Todo) (x : Option Todo),
      (s.todoRepository.FindByID id w.st).1 = (x, some e) →
      ∃ err, (s.Update id P w).1 = .ret (Todo.zero, some err) ∧
        err.Error = "todo tidak ditemukan") ∧
    (∀ (id : Int) (x : Option Todo), (s.todoRepository.FindByID id w.st).1 = (x, some e) →
      ∃ err, (s.Delete id w).1 = some err ∧ err.Error = "todo tidak ditemukan") ∧
    Todo.zero = ⟨0, "", "", ⟨0, 0⟩, false, 0⟩ := by
  refine ⟨?_, ?_, ?_, ?_, ?_, rfl⟩
  · intro todo t h
    exact ⟨.new "gagal menambahkan todo", by rw [todo_Create_error s todo t e w h], rfl⟩
  · intro id P E t hfind h
    exact ⟨.new "gagal memperbarui todo", by rw [todo_Update_error s id P E t e w hfind h], rfl⟩
  · intro id x hfind h
    exact ⟨.new "gagal menghapus todo", by rw [todo_Delete_error s id x e w hfind h], rfl⟩
  · intro id P x h
    exact ⟨.new "todo tidak ditemukan", by rw [todo_Update_lookup_error s id P x e w h], rfl⟩
  · intro id x h
    exact ⟨.new "todo tidak ditemukan", by rw [todo_Delete_lookup_error s id x e w h], rfl⟩

/-- The theorem of C22 at the scripted ports of the tests: `Create` fails with
the database error, the lookup by id finds nothing. -/
theorem todo_errors_fixed_messages_witness :
    (∃ err, ((mockTodoService ("", none) none (none, none)).Create sampleTodo
        (World.init ())).1 = (Todo.zero, some err) ∧ err.Error = "gagal menambahkan todo") ∧
    (∃ err, ((mockTodoService ("", none) none (none, none)).Update 1 sampleTodo
        (World.init ())).1 = .ret (Todo.zero, some err) ∧ err.Error = "todo tidak ditemukan") ∧
    (∃ err, ((mockTodoService ("", none) none (none, none)).Delete 1
        (World.init ())).1 = some err ∧ err.Error = "todo tidak ditemukan") :=
  ⟨(todo_errors_fixed_messages Unit (mockTodoService ("", none) none (none, none))
      (World.init ()) dbError).1 sampleTodo Todo.zero rfl,
    (todo_errors_fixed_messages Unit (mockTodoService ("", none) none (none, none))
      (World.init ()) ErrRecordNotFound).2.2.2.1 1 sampleTodo none rfl,
    (todo_errors_fixed_messages Unit (mockTodoService ("", none) none (none, none))
      (World.init ()) ErrRecordNotFound).2.2.2.2.1 1 none rfl⟩

/-! ### Invalid ids, the nil list, the lookup of a new name, the frame of an update -/

/-- C23. An id that is not positive: for every `id ≤ 0`,
`userService.UpdateUser` with a payload of that id and
`userService.DeleteUser` return an error with the message
`ID pengguna tidak valid` and make no call at all: the world, the trace of
the calls included, is as before, so no persistence and no cache operation is
called. -/
theorem invalid_user_id_rejected (σ : Type) (s : userService σ) (w : World σ) (id : Int)
    (hid : id ≤ 0) :
    (∀ P : User, P.ID = id →
      s.UpdateUser P w = (.ret (none, some (.new "ID pengguna tidak valid")), w) ∧
      w.since (s.UpdateUser P w).2 = []) ∧
    s.DeleteUser id w = (some (.new "ID pengguna tidak valid"), w) ∧
    w.since (s.DeleteUser id w).2 = [] ∧
    (GoError.new "ID pengguna tidak valid").Error = "ID pengguna tidak valid" := by
  refine ⟨?_, ?_, ?_, rfl⟩
  · intro P hP
    have hP1 : P.ID ≤ 0 := hP ▸ hid
    simp [userService.UpdateUser, hP1, World.since]
  · simp [userService.DeleteUser, hid]
  · simp [userService.DeleteUser, hid, World.since]

/-- The theorem of C23 at the ids of the tests `UpdateUser_InvalidID` and
`DeleteUser_InvalidID`, in the sequential model: nothing is called and the
state stays. -/
theorem invalid_user_id_rejected_witness :
    (memUserService sampleHash).UpdateUser ⟨-1, "", "", "", "Invalid ID Test"⟩
        (World.init sampleMem) =
      (.ret (none, some (.new "ID pengguna tidak valid")), World.init sampleMem) ∧
    (memUserService sampleHash).DeleteUser (-1) (World.init sampleMem) =
      (some (.new "ID pengguna tidak valid"), World.init sampleMem) :=
  have h := invalid_user_id_rejected Mem (memUserService sampleHash) (World.init sampleMem)
    (-1) (by decide)
  ⟨(h.1 ⟨-1, "", "", "", "Invalid ID Test"⟩ rfl).1, h.2.1⟩

/-- C27. A cache miss of `todoService.FindAll` with a nil list: when `Get`
returns no error and a value that is empty or does not decode, and the
persistence `FindAll` returns the nil list and no error, `FindAll` returns the
nil list and no error, and its calls are the `Get` and the persistence
`FindAll`: `Set` is not called, and the state is the one that the persistence
`FindAll` left. -/
theorem todo_FindAll_miss_nil (J : Json) (σ : Type) (s : todoService σ) (w : World σ)
    (data : String)
    (hget : (s.cacheable.Get "go-todo-api:todos:find-all" w.st).1 = (data, none))
    (hmiss : data = "" ∨ ∃ e, J.unmarshalTodos data = .error e)
    (hrepo : (s.todoRepository.FindAll
      (s.cacheable.Get "go-todo-api:todos:find-all" w.st).2).1 = (none, none)) :
    (s.FindAll J w).1 = (none, none) ∧
    (s.FindAll J w).2.trace = w.trace ++
      [⟨.cacheGet "go-todo-api:todos:find-all", false⟩, ⟨.todoFindAll, false⟩] ∧
    (s.FindAll J w).2.st =
      (s.todoRepository.FindAll (s.cacheable.Get "go-todo-api:todos:find-all" w.st).2).2 ∧
    (∀ ev ∈ w.since (s.FindAll J w).2, ∀ key value d, ev.call ≠ .cacheSet key value d) := by
  have htrace : (s.FindAll J w).2.trace = w.trace ++
      [⟨.cacheGet "go-todo-api:todos:find-all", false⟩, ⟨.todoFindAll, false⟩] := by
    rcases hmiss with h | ⟨e, h⟩ <;>
      simp [todoService.FindAll, World.call, hget, h, hrepo, Except.toOption, HasErr.err]
  refine ⟨?_, htrace, ?_, ?_⟩
  · rcases hmiss with h | ⟨e, h⟩ <;>
      simp [todoService.FindAll, World.call, hget, h, hrepo, Except.toOption]
  · rcases hmiss with h | ⟨e, h⟩ <;>
      simp [todoService.FindAll, World.call, hget, h, hrepo, Except.toOption]
  · intro ev hev key value d hcall
    simp only [World.since, htrace, List.drop_left, List.mem_cons, List.mem_singleton,
      List.not_mem_nil, or_false] at hev
    rcases hev with hev | hev <;> simp [hev] at hcall

/-- The theorem of C27 at the test `CacheMissAndRepoNil`: the cache holds
nothing, the repository returns the nil list. -/
theorem todo_FindAll_miss_nil_witness :
    ((mockTodoService ("", none) none (none, none)).FindAll (goJson rfc3339UTC)
        (World.init ())).1 = (none, none) ∧
    ((mockTodoService ("", none) none (none, none)).FindAll (goJson rfc3339UTC)
        (World.init ())).2.trace =
      [⟨.cacheGet "go-todo-api:todos:find-all", false⟩, ⟨.todoFindAll, false⟩] :=
  have h := todo_FindAll_miss_nil (goJson rfc3339UTC) Unit
    (mockTodoService ("", none) none (none, none)) (World.init ()) "" rfl (Or.inl rfl) rfl
  ⟨h.1, h.2.1⟩

/-- C28. Every error of the lookup frees the name: when the lookup by the
username returns an error, whatever the error and the record with it are,
`userService.CreateUser` goes on to hash the password, and when the hash
succeeds it calls the persistence `Create` with the record that holds the
hash; a hash that fails is the end. The one outcome of the lookup that stops
the creation there is a lookup with no error: then the lookup is the only
call and `ErrUsernameSudahAda` is returned. -/
theorem CreateUser_any_lookup_error (σ : Type) (s : userService σ) (user : User)
    (w : World σ) :
    (∀ (x : Option User) (e0 : GoError),
      (s.userRepository.FindByUsername user.Username w.st).1 = (x, some e0) →
      ∃ rest, (s.CreateUser user w).2.trace = w.trace ++
          ⟨.userFindByUsername user.Username, true⟩ ::
          ⟨.bcryptGenerate user.Password, (s.bcrypt.GenerateFromPassword user.Password
            (s.userRepository.FindByUsername user.Username w.st).2).1.2.isSome⟩ :: rest ∧
        (∀ hp st2, s.bcrypt.GenerateFromPassword user.Password
            (s.userRepository.FindByUsername user.Username w.st).2 = ((hp, none), st2) →
          ∃ f rest1, rest = ⟨.userCreate { user with Password := hp }, f⟩ :: rest1 ∧
            (rest1 = [] ∨ ∃ g, rest1 = [⟨.cacheDelete "pengguna:semua", g⟩])) ∧
        (∀ hp e1 st2, s.bcrypt.GenerateFromPassword user.Password
            (s.userRepository.FindByUsername user.Username w.st).2 = ((hp, some e1), st2) →
          rest = [] ∧ (s.CreateUser user w).1.2.1 =
            some (Errorf_w "gagal mengenkripsi password: " e1))) ∧
    (∀ x : Option User, (s.userRepository.FindByUsername user.Username w.st).1 = (x, none) →
      (s.CreateUser user w).1 = (none, some ErrUsernameSudahAda, user) ∧
      (s.CreateUser user w).2.trace =
        w.trace ++ [⟨.userFindByUsername user.Username, false⟩]) := by
  constructor
  · intro x e0 hfind
    rcases hh : s.bcrypt.GenerateFromPassword user.Password
      (s.userRepository.FindByUsername user.Username w.st).2 with ⟨⟨hp, _ | e1⟩, st2⟩
    · rcases hc : (s.userRepository.Create { user with Password := hp } st2).1
        with ⟨y, _ | e2⟩
      · refine ⟨[⟨.userCreate { user with Password := hp }, false⟩,
          ⟨.cacheDelete "pengguna:semua", (s.cacheable.Delete "pengguna:semua"
            (s.userRepository.Create { user with Password := hp } st2).2).1.isSome⟩],
          ?_, ?_, ?_⟩
        · simp [userService.CreateUser, World.call, hfind, hh, hc, HasErr.err]
        · intro hp1 st3 heq
          simp only [Prod.mk.injEq, and_true] at heq
          obtain ⟨rfl, rfl⟩ := heq
          exact ⟨false, _, rfl, Or.inr ⟨_, rfl⟩⟩
        · intro hp1 e1 st3 heq
          simp at heq
      · refine ⟨[⟨.userCreate { user with Password := hp }, true⟩], ?_, ?_, ?_⟩
        · simp [userService.CreateUser, World.call, hfind, hh, hc, HasErr.err]
        · intro hp1 st3 heq
          simp only [Prod.mk.injEq, and_true] at heq
          obtain ⟨rfl, rfl⟩ := heq
          exact ⟨true, _, rfl, Or.inl rfl⟩
        · intro hp1 e1 st3 heq
          simp at heq
    · refine ⟨[], ?_, ?_, ?_⟩
      · simp [userService.CreateUser, World.call, hfind, hh, HasErr.err]
      · intro hp1 st3 heq
        simp at heq
      · intro hp1 e3 st3 heq
        simp only [Prod.mk.injEq, Option.some.injEq] at heq
        obtain ⟨⟨_, rfl⟩, _⟩ := heq
        refine ⟨rfl, ?_⟩
        simp [userService.CreateUser, World.call, hfind, hh]
  · intro x hfind
    simp [userService.CreateUser, World.call, hfind, HasErr.err]

/-- The theorem of C28 in the sequential model: the lookup of the name `user1`
is made to fail with the database error, and the name is taken for free. -/
theorem CreateUser_any_lookup_error_witness :
    (memUserRepo.FindByUsername "user1" { twoUsersMem with faults := [true] }).1 =
      (none, some dbError) ∧
    (∃ rest, ((memUserService sampleHash).CreateUser ⟨0, "user1", "pw", "user", "Second"⟩
        (World.init { twoUsersMem with faults := [true] })).2.trace =
        (World.init { twoUsersMem with faults := [true] }).trace ++
          ⟨.userFindByUsername "user1", true⟩ :: ⟨.bcryptGenerate "pw", false⟩ :: rest ∧
      ∃ f rest1, rest = ⟨.userCreate ⟨0, "user1", "$2a$10$pw", "user", "Second"⟩, f⟩ :: rest1) :=
  have h := (CreateUser_any_lookup_error Mem (memUserService sampleHash)
    ⟨0, "user1", "pw", "user", "Second"⟩ (World.init { twoUsersMem with faults := [true] })).1
    none dbError (by decide)
  ⟨by decide, h.elim fun rest hr =>
    ⟨rest, hr.1, (hr.2.1 "$2a$10$pw" _ rfl).elim fun f hf =>
      hf.elim fun rest1 hr1 => ⟨f, rest1, hr1.1⟩⟩⟩

/-- The payload's id and owner do not enter the merged record. -/
theorem mergeTodo_ignores_ids (E P : Todo) (i u : Int) :
    todoService.mergeTodo E { P with ID := i, UserID := u } = todoService.mergeTodo E P := rfl

/-- The merged record has the id and the owner of the stored one. -/
theorem mergeTodo_keeps_ids (E P : Todo) :
    (todoService.mergeTodo E P).ID = E.ID ∧ (todoService.mergeTodo E P).UserID = E.UserID := by
  simp only [todoService.mergeTodo]
  split_ifs <;> exact ⟨rfl, rfl⟩

/-- C29. The frame of an update of a todo: when `FindByID` returns the stored
record `E`, `todoService.Update` calls the persistence `Update` with a
record whose `ID` is `E.ID` and whose `UserID` is `E.UserID`; and whatever
`FindByID` returns, the whole run is the same for every `ID` and `UserID` of
the payload, so they are ignored. -/
theorem todo_Update_keeps_identity (σ : Type) (s : todoService σ) (id : Int) (P E : Todo)
    (w : World σ) (hfind : (s.todoRepository.FindByID id w.st).1 = (some E, none)) :
    (∃ ev ∈ w.since (s.Update id P w).2, ev.call = .todoUpdate (todoService.mergeTodo E P)) ∧
    (∀ ev t, ev ∈ w.since (s.Update id P w).2 → ev.call = .todoUpdate t →
      t.ID = E.ID ∧ t.UserID = E.UserID) ∧
    (∀ i u : Int, s.Update id { P with ID := i, UserID := u } w = s.Update id P w) := by
  have htrace : ∃ f rest, w.since (s.Update id P w).2 =
      ⟨.todoFindByID id, false⟩ :: ⟨.todoUpdate (todoService.mergeTodo E P), f⟩ :: rest ∧
      (rest = [] ∨ ∃ g, rest = [⟨.cacheDelete "go-todo-api:todos:find-all", g⟩]) := by
    rcases h2 : (s.todoRepository.Update (todoService.mergeTodo E P)
      (s.todoRepository.FindByID id w.st).2).1 with ⟨t, _ | e⟩
    · exact ⟨false, [⟨.cacheDelete "go-todo-api:todos:find-all",
          (s.cacheable.Delete "go-todo-api:todos:find-all"
            (s.todoRepository.Update (todoService.mergeTodo E P)
              (s.todoRepository.FindByID id w.st).2).2).1.isSome⟩], by
        simp [todoService.Update, World.call, World.since, hfind, h2, HasErr.err],
        Or.inr ⟨_, rfl⟩⟩
    · exact ⟨true, [], by
        simp [todoService.Update, World.call, World.since, hfind, h2, HasErr.err], Or.inl rfl⟩
  obtain ⟨f, rest, hs, hrest⟩ := htrace
  refine ⟨⟨_, by rw [hs]; exact List.mem_cons_of_mem _ (List.mem_cons_self _ _), rfl⟩, ?_, ?_⟩
  · intro ev t hev hcall
    rw [hs] at hev
    rcases List.mem_cons.1 hev with hev | hev
    · simp [hev] at hcall
    · rcases List.mem_cons.1 hev with hev | hev
      · rw [hev] at hcall
        simp only [Call.todoUpdate.injEq] at hcall
        rw [← hcall]
        exact mergeTodo_keeps_ids E P
      · rcases hrest with hr | ⟨g, hr⟩
        · simp [hr] at hev
        · simp [hr] at hev
          simp [hev] at hcall
  · intro i u
    simp only [todoService.Update, mergeTodo_ignores_ids]

/-- The theorem of C29 in the sequential model: the payload names another id
and another owner, and the stored todo keeps its own. -/
theorem todo_Update_keeps_identity_witness :
    (memTodoService.Update 1 ⟨7, "New", "", ⟨0, 0⟩, true, 9⟩ (World.init sampleMem)).1 =
      .ret (⟨1, "New", "", ⟨0, 0⟩, true, 0⟩, none) ∧
    memTodoService.Update 1 ⟨7, "New", "", ⟨0, 0⟩, true, 9⟩ (World.init sampleMem) =
      memTodoService.Update 1 ⟨1, "New", "", ⟨0, 0⟩, true, 0⟩ (World.init sampleMem) :=
  ⟨by decide,
    ((todo_Update_keeps_identity Mem memTodoService 1 ⟨1, "New", "", ⟨0, 0⟩, true, 0⟩
      sampleTodo (World.init sampleMem) (by decide)).2.2 7 9)⟩

/-! ### The route table, the cache port, the lookups of the repository, the todo handler -/

/-- C24. The route table: `PublicRoutes` yields `POST /login` and
`POST /register` and nothing else, each with no roles named; `PrivateRoutes`
yields seven routes, no two with the same method and path; `GET /users`,
`PUT /users/:id`, `DELETE /users/:id` and `DELETE /todos/:id` name the role
`admin` and no other; `GET /todos`, `POST /todos` and `PUT /todos/:id` name
the roles `admin` and `user` and no other. -/
theorem route_table_and_roles :
    PublicRoutes.map (fun r => (r.Method, r.Path)) =
      [("POST", "/login"), ("POST", "/register")] ∧
    (∀ r ∈ PublicRoutes, r.Roles = none ∧ ∀ role, role ∉ r.roles) ∧
    PrivateRoutes.length = 7 ∧
    PrivateRoutes.map (fun r => (r.Method, r.Path)) =
      [("GET", "/users"), ("PUT", "/users/:id"), ("DELETE", "/users/:id"), ("GET", "/todos"),
        ("POST", "/todos"), ("PUT", "/todos/:id"), ("DELETE", "/todos/:id")] ∧
    (PrivateRoutes.map (fun r => (r.Method, r.Path))).Nodup ∧
    rolesOf PrivateRoutes "GET" "/users" = some (some ["admin"]) ∧
    rolesOf PrivateRoutes "PUT" "/users/:id" = some (some ["admin"]) ∧
    rolesOf PrivateRoutes "DELETE" "/users/:id" = some (some ["admin"]) ∧
    rolesOf PrivateRoutes "DELETE" "/todos/:id" = some (some ["admin"]) ∧
    rolesOf PrivateRoutes "GET" "/todos" = some (some ["admin", "user"]) ∧
    rolesOf PrivateRoutes "POST" "/todos" = some (some ["admin", "user"]) ∧
    rolesOf PrivateRoutes "PUT" "/todos/:id" = some (some ["admin", "user"]) ∧
    (∀ r ∈ PrivateRoutes, ∀ role : String,
      role ∈ r.roles ↔
        (if (r.Method, r.Path) ∈ [("GET", "/todos"), ("POST", "/todos"), ("PUT", "/todos/:id")]
          then role = "admin" ∨ role = "user" else role = "admin")) := by
  refine ⟨by decide, ?_, by decide, by decide, by decide, by decide, by decide, by decide,
    by decide, by decide, by decide, by decide, ?_⟩
  · intro r hr
    simp only [PublicRoutes, List.mem_cons, List.mem_singleton, List.not_mem_nil,
      or_false] at hr
    rcases hr with rfl | rfl <;> simp [Route.roles]
  · intro r hr role
    simp only [PrivateRoutes, List.mem_cons, List.mem_singleton, List.not_mem_nil,
      or_false] at hr
    rcases hr with rfl | rfl | rfl | rfl | rfl | rfl | rfl <;> simp [Route.roles]

/-- C25. The cache port `Get`: when the client reports `redis.Nil`, `Get`
returns the empty string and no error; when the client returns another error
`e`, `Get` returns the empty string and the error of `fmt.Errorf` with `%w`
on `e`, with the message `gagal mengambil cache: ` and the message of `e`;
when the client returns no error, `Get` returns its value and no error. The
state is the one the client left. -/
theorem cacheable_Get_cases (σ : Type) (rdb : RedisClient σ) (key : String) (st : σ) :
    (∀ v, (rdb.Get key st).1 = (v, some redisNil) →
      cacheable.Get rdb key st = (("", none), (rdb.Get key st).2)) ∧
    (∀ v e, (rdb.Get key st).1 = (v, some e) → e ≠ redisNil →
      cacheable.Get rdb key st =
        (("", some (Errorf_w "gagal mengambil cache: " e)), (rdb.Get key st).2) ∧
      (Errorf_w "gagal mengambil cache: " e).Unwrap = some e ∧
      (Errorf_w "gagal mengambil cache: " e).Error = "gagal mengambil cache: " ++ e.Error) ∧
    (∀ v, (rdb.Get key st).1 = (v, none) →
      cacheable.Get rdb key st = ((v, none), (rdb.Get key st).2)) := by
  refine ⟨?_, ?_, ?_⟩
  · intro v h
    rcases hr : rdb.Get key st with ⟨⟨v1, e1⟩, st1⟩
    rw [hr] at h
    simp only [Prod.mk.injEq] at h
    simp [cacheable.Get, hr, h.2]
  · intro v e h hne
    rcases hr : rdb.Get key st with ⟨⟨v1, e1⟩, st1⟩
    rw [hr] at h
    simp only [Prod.mk.injEq] at h
    refine ⟨?_, rfl, rfl⟩
    simp [cacheable.Get, hr, h.2, hne]
  · intro v h
    rcases hr : rdb.Get key st with ⟨⟨v1, e1⟩, st1⟩
    rw [hr] at h
    simp only [Prod.mk.injEq] at h
    simp [cacheable.Get, hr, h.2, h.1]

/-- The theorem of C25 at the tests `Get_RedisNilError` and `Get_RedisError`
and at a stored value. -/
theorem cacheable_Get_cases_witness :
    cacheable.Get (mockRedis ("", some redisNil)) "nonexistent-key" () = (("", none), ()) ∧
    cacheable.Get (mockRedis ("", some (.new "redis get error"))) "test-key" () =
      (("", some (Errorf_w "gagal mengambil cache: " (.new "redis get error"))), ()) ∧
    (Errorf_w "gagal mengambil cache: " (.new "redis get error")).Error =
      "gagal mengambil cache: redis get error" ∧
    cacheable.Get (mockRedis ("test-value", none)) "test-key" () = (("test-value", none), ()) :=
  ⟨(cacheable_Get_cases Unit (mockRedis ("", some redisNil)) "nonexistent-key" ()).1 "" rfl,
    ((cacheable_Get_cases Unit (mockRedis ("", some (.new "redis get error"))) "test-key"
      ()).2.1 "" (.new "redis get error") rfl (by decide)).1,
    by decide,
    (cacheable_Get_cases Unit (mockRedis ("test-value", none)) "test-key" ()).2.2
      "test-value" rfl⟩

/-- The error of `fmt.Errorf("%w: %v", ErrDatabaseError, err)` wraps
`ErrDatabaseError` and is not the not-found sentinel, nor is that reachable
from it. -/
theorem database_error_wraps (err : GoError) :
    (Errorf_w_v ErrDatabaseError err).Unwrap = some ErrDatabaseError ∧
    (Errorf_w_v ErrDatabaseError err).Is ErrDatabaseError = true ∧
    (Errorf_w_v ErrDatabaseError err).Is repositoryErrPenggunaTidakDitemukan = false ∧
    Errorf_w_v ErrDatabaseError err ≠ repositoryErrPenggunaTidakDitemukan ∧
    (Errorf_w_v ErrDatabaseError err).Error =
      "terjadi kesalahan pada database: " ++ err.Error := by
  refine ⟨rfl, ?_, ?_, ?_, ?_⟩
  · simp [Errorf_w_v, GoError.Is, ErrDatabaseError]
  · simp [Errorf_w_v, GoError.Is, ErrDatabaseError, repositoryErrPenggunaTidakDitemukan]
  · simp [Errorf_w_v, repositoryErrPenggunaTidakDitemukan]
  · simp [Errorf_w_v, ErrDatabaseError, GoError.Error, String.append_assoc]

/-- C26. The lookups of the user repository: `FindByID` and `FindByUsername`
return the sentinel `ErrPenggunaTidakDitemukan` of the repository exactly when
the query returned an error from which `gorm.ErrRecordNotFound` is reachable;
for every other error of the query they return the error of
`fmt.Errorf("%w: %v", ErrDatabaseError, err)`, which wraps `ErrDatabaseError`
and is not the not-found sentinel; and when the query returned no error they
return the record it found and no error. -/
theorem user_lookup_errors (σ : Type) (db : GormDB σ) (st : σ) :
    (∀ id : Int,
      (∀ u e, (db.FirstByID id st).1 = (u, some e) → e.Is ErrRecordNotFound = true →
        userRepository.FindByID db id st =
          ((none, some repositoryErrPenggunaTidakDitemukan), (db.FirstByID id st).2)) ∧
      (∀ u e, (db.FirstByID id st).1 = (u, some e) → e.Is ErrRecordNotFound = false →
        userRepository.FindByID db id st =
          ((none, some (Errorf_w_v ErrDatabaseError e)), (db.FirstByID id st).2)) ∧
      (∀ u, (db.FirstByID id st).1 = (u, none) →
        userRepository.FindByID db id st = ((some u, none), (db.FirstByID id st).2)) ∧
      ((userRepository.FindByID db id st).1.2 = some repositoryErrPenggunaTidakDitemukan ↔
        ∃ e, (db.FirstByID id st).1.2 = some e ∧ e.Is ErrRecordNotFound = true)) ∧
    (∀ username : String,
      (∀ u e, (db.FirstByUsername username st).1 = (u, some e) →
        e.Is ErrRecordNotFound = true →
        userRepository.FindByUsername db username st =
          ((none, some repositoryErrPenggunaTidakDitemukan),
            (db.FirstByUsername username st).2)) ∧
      (∀ u e, (db.FirstByUsername username st).1 = (u, some e) →
        e.Is ErrRecordNotFound = false →
        userRepository.FindByUsername db username st =
          ((none, some (Errorf_w_v ErrDatabaseError e)), (db.FirstByUsername username st).2)) ∧
      (∀ u, (db.FirstByUsername username st).1 = (u, none) →
        userRepository.FindByUsername db username st =
          ((some u, none), (db.FirstByUsername username st).2)) ∧
      ((userRepository.FindByUsername db username st).1.2 =
          some repositoryErrPenggunaTidakDitemukan ↔
        ∃ e, (db.FirstByUsername username st).1.2 = some e ∧
          e.Is ErrRecordNotFound = true)) ∧
    (∀ e : GoError, (Errorf_w_v ErrDatabaseError e).Unwrap = some ErrDatabaseError ∧
      (Errorf_w_v ErrDatabaseError e).Is ErrDatabaseError = true ∧
      (Errorf_w_v ErrDatabaseError e).Is repositoryErrPenggunaTidakDitemukan = false ∧
      Errorf_w_v ErrDatabaseError e ≠ repositoryErrPenggunaTidakDitemukan) := by
  refine ⟨fun id => ?_, fun username => ?_, fun e =>
    ⟨(database_error_wraps e).1, (database_error_wraps e).2.1, (database_error_wraps e).2.2.1,
      (database_error_wraps e).2.2.2.1⟩⟩
  · rcases hr : db.FirstByID id st with ⟨⟨u1, _ | e1⟩, st1⟩
    · refine ⟨?_, ?_, ?_, ?_⟩
      · intro u e h; simp at h
      · intro u e h; simp at h
      · intro u h
        simp only [Prod.mk.injEq, and_true] at h
        simp [userRepository.FindByID, hr, h]
      · simp [userRepository.FindByID, hr]
    · refine ⟨?_, ?_, ?_, ?_⟩
      · intro u e h hnf
        simp only [Prod.mk.injEq, Option.some.injEq] at h
        obtain ⟨_, rfl⟩ := h
        simp [userRepository.FindByID, hr, hnf]
      · intro u e h hnf
        simp only [Prod.mk.injEq, Option.some.injEq] at h
        obtain ⟨_, rfl⟩ := h
        simp [userRepository.FindByID, hr, hnf]
      · intro u h; simp at h
      · cases hnf : e1.Is ErrRecordNotFound
        · simp [userRepository.FindByID, hr, hnf, (database_error_wraps e1).2.2.2.1]
        · simp [userRepository.FindByID, hr, hnf]
  · rcases hr : db.FirstByUsername username st with ⟨⟨u1, _ | e1⟩, st1⟩
    · refine ⟨?_, ?_, ?_, ?_⟩
      · intro u e h; simp at h
      · intro u e h; simp at h
      · intro u h
        simp only [Prod.mk.injEq, and_true] at h
        simp [userRepository.FindByUsername, hr, h]
      · simp [userRepository.FindByUsername, hr]
    · refine ⟨?_, ?_, ?_, ?_⟩
      · intro u e h hnf
        simp only [Prod.mk.injEq, Option.some.injEq] at h
        obtain ⟨_, rfl⟩ := h
        simp [userRepository.FindByUsername, hr, hnf]
      · intro u e h hnf
        simp only [Prod.mk.injEq, Option.some.injEq] at h
        obtain ⟨_, rfl⟩ := h
        simp [userRepository.FindByUsername, hr, hnf]
      · intro u h; simp at h
      · cases hnf : e1.Is ErrRecordNotFound
        · simp [userRepository.FindByUsername, hr, hnf, (database_error_wraps e1).2.2.2.1]
        · simp [userRepository.FindByUsername, hr, hnf]

/-- The theorem of C26 at the tests `FindByID_NotFound` and `FindByID_Error`,
at a not-found error that the driver has wrapped, and at a found record. -/
theorem user_lookup_errors_witness :
    userRepository.FindByID (mockGormDB (User.zero, some ErrRecordNotFound)) 1 () =
      ((none, some repositoryErrPenggunaTidakDitemukan), ()) ∧
    userRepository.FindByID (mockGormDB (User.zero, some (.new "database error"))) 1 () =
      ((none, some (Errorf_w_v ErrDatabaseError (.new "database error"))), ()) ∧
    (Errorf_w_v ErrDatabaseError (.new "database error")).Error =
      "terjadi kesalahan pada database: database error" ∧
    userRepository.FindByUsername
        (mockGormDB (User.zero, some (Errorf_w "query: " ErrRecordNotFound))) "user1" () =
      ((none, some repositoryErrPenggunaTidakDitemukan), ()) ∧
    userRepository.FindByUsername (mockGormDB (storedUser, none)) "user1" () =
      ((some storedUser, none), ()) :=
  ⟨(((user_lookup_errors Unit (mockGormDB (User.zero, some ErrRecordNotFound)) ()).1 1).1
      User.zero ErrRecordNotFound rfl (by decide)),
    (((user_lookup_errors Unit (mockGormDB (User.zero, some (.new "database error"))) ()).1
      1).2.1 User.zero (.new "database error") rfl (by decide)),
    by decide,
    (((user_lookup_errors Unit
      (mockGormDB (User.zero, some (Errorf_w "query: " ErrRecordNotFound))) ()).2.1
      "user1").1 User.zero (Errorf_w "query: " ErrRecordNotFound) rfl (by decide)),
    (((user_lookup_errors Unit (mockGormDB (storedUser, none)) ()).2.1 "user1").2.2.1
      storedUser rfl)⟩

/-- C30. The status of a todo that is not found. For every todo service
behind the handler: when `Update` returns an error, `UpdateTodo` answers 404
if the message of the error is `todo tidak ditemukan` and 500 if it is any
other; when `Delete` returns an error, whatever it is, `DeleteTodo` answers
500. For the todo service of the repository: a failed lookup by id makes
`UpdateTodo` answer 404 and `DeleteTodo` answer 500, and a failed persistence
`Update` makes `UpdateTodo` answer 500. -/
theorem todo_not_found_status (σ : Type) (idParam : String) (id : Int) (w : World σ)
    (hid : strconvParseInt idParam = some id) :
    (∀ (h : TodoHandler σ) (todo t : Todo) (err : GoError) (w1 : World σ),
      h.todoService.Update id todo w = (.ret (t, some err), w1) →
      (err.Error = "todo tidak ditemukan" →
        h.UpdateTodo idParam (.ok todo) w = (.ret ⟨404, "Todo tidak ditemukan", none⟩, w1)) ∧
      (err.Error ≠ "todo tidak ditemukan" →
        h.UpdateTodo idParam (.ok todo) w =
          (.ret ⟨500, "Gagal memperbarui todo", none⟩, w1))) ∧
    (∀ (h : TodoHandler σ) (err : GoError) (w1 : World σ),
      h.todoService.Delete id w = (some err, w1) →
      h.DeleteTodo idParam w = (⟨500, "Gagal menghapus todo", none⟩, w1)) ∧
    (∀ (J : Json) (repo : TodoRepository σ) (cache : Cacheable σ) (todo : Todo)
      (x : Option Todo) (e : GoError), (repo.FindByID id w.st).1 = (x, some e) →
      ((TodoHandler.mk (NewTodoService J repo cache)).UpdateTodo idParam (.ok todo) w).1 =
        .ret ⟨404, "Todo tidak ditemukan", none⟩ ∧
      ((TodoHandler.mk (NewTodoService J repo cache)).DeleteTodo idParam w).1 =
        ⟨500, "Gagal menghapus todo", none⟩) ∧
    (∀ (J : Json) (repo : TodoRepository σ) (cache : Cacheable σ) (todo E t : Todo)
      (e : GoError), (repo.FindByID id w.st).1 = (some E, none) →
      (repo.Update (todoService.mergeTodo E todo) (repo.FindByID id w.st).2).1 = (t, some e) →
      ((TodoHandler.mk (NewTodoService J repo cache)).UpdateTodo idParam (.ok todo) w).1 =
        .ret ⟨500, "Gagal memperbarui todo", none⟩) := by
  refine ⟨?_, ?_, ?_, ?_⟩
  · intro h todo t err w1 hu
    constructor
    · intro hm
      simp [TodoHandler.UpdateTodo, hid, hu, hm]
    · intro hm
      simp [TodoHandler.UpdateTodo, hid, hu, hm]
  · intro h err w1 hd
    simp [TodoHandler.DeleteTodo, hid, hd]
  · intro J repo cache todo x e hfind
    constructor
    · simp [TodoHandler.UpdateTodo, NewTodoService, hid, todoService.Update, World.call, hfind,
        GoError.Error]
    · simp [TodoHandler.DeleteTodo, NewTodoService, hid, todoService.Delete, World.call, hfind]
  · intro J repo cache todo E t e hfind hupd
    simp [TodoHandler.UpdateTodo, NewTodoService, hid, todoService.Update, World.call, hfind,
      hupd, GoError.Error]

/-- The theorem of C30 in the sequential model, where no todo has the id 99:
the update is answered 404, the deletion 500. -/
theorem todo_not_found_status_witness :
    (memTodoRepo.FindByID 99 (World.init sampleMem).st).1 = (none, some ErrRecordNotFound) ∧
    (memTodoHandler.UpdateTodo "99" (.ok sampleTodo) (World.init sampleMem)).1 =
      .ret ⟨404, "Todo tidak ditemukan", none⟩ ∧
    (memTodoHandler.DeleteTodo "99" (World.init sampleMem)).1 =
      ⟨500, "Gagal menghapus todo", none⟩ :=
  have h := (todo_not_found_status Mem "99" 99 (World.init sampleMem) (by decide)).2.2.1
    (goJson rfc3339UTC) memTodoRepo memCache sampleTodo none ErrRecordNotFound (by decide)
  ⟨by decide, h.1, h.2⟩

end GoTodo
